import Mathlib

/-!
# NahCloud Terraform provider: REST client and provider configuration

A shallow embedding of `internal/client/client.go`, of
`NahProvider.Configure` (`internal/provider/provider.go`), of the `Create`,
`Read`, `Update` and `Delete` methods of the resources and of the `Read`
methods of the data sources (`internal/provider/*_resource.go`,
`*_data_source.go`).

Modelling conventions.

* A Go `string` or `[]byte` is a Lean `String`; byte sequences that are not
  valid UTF-8 are outside the model.
* A Go `int` is an `Int`; the client performs no arithmetic on integers, it
  only compares and prints them.
* A Go `error` is a `GoError`: either an error created with a message, or an
  error that wraps a cause behind a fixed text (`fmt.Errorf` with `%w`).
* A function returning `(*T, error)` returns a pair of options; a pointer
  argument is an `Option`, with `none` for `nil`.
* Everything outside the repository that a function calls is a field of
  `Env` (environment variables, URL parsing, the HTTP round trip, the
  RFC 3339 parser of `time.Time`), or a definition modelled on the Go
  standard library (`encoding/json`, `time.Time.Format`, `time.Parse`, the
  redirects of `http.Client.Do`, the escaping of `net/url`) or on the
  Terraform plugin framework (`Diagnostics`, `ImportStatePassthroughID`).
* The `context.Context` argument is not modelled.
-/

namespace Nah

/-! ## Errors -/

/-- Go `error` values: `new msg` carries a message only, `wrap p cause` is the
value of `fmt.Errorf(p + "%w", cause)`. -/
inductive GoError where
  | new (msg : String)
  | wrap (pfx : String) (cause : GoError)
deriving DecidableEq, Repr

/-- The method `Error()` of an error value. -/
def GoError.Error : GoError → String
  | .new msg => msg
  | .wrap pfx cause => pfx ++ cause.Error

/-- The method `Unwrap()` of an error value. -/
def GoError.Unwrap : GoError → Option GoError
  | .new _ => none
  | .wrap _ cause => some cause

/-- Decimal rendering of a Go `int`, as `%d` and `strconv.Itoa` print it. -/
def formatInt : Int → String
  | .ofNat n => Nat.repr n
  | .negSucc n => "-" ++ Nat.repr (n + 1)

/-- Go `len` of a string: its number of bytes. -/
def len (s : String) : Nat := s.utf8ByteSize

/-! ## HTTP messages -/

/-- The type `http.Header`: header names with their values. -/
abbrev Header := List (String × List String)

/-- The method `Header.Set`: the key gets the single value `value`, replacing
whatever it had. Both keys used by the client are in canonical form. -/
def Header.Set (h : Header) (key value : String) : Header :=
  h.filter (fun kv => kv.1 != key) ++ [(key, [value])]

/-- The method `Header.Values`: all values of a key. -/
def Header.Values (h : Header) (key : String) : List String :=
  (h.filter (fun kv => kv.1 == key)).flatMap (fun kv => kv.2)

/-- The part of `http.Request` the client determines. -/
structure Request where
  Method : String
  URL : String
  Header : Header
  Body : Option String
deriving DecidableEq, Repr

/-- The part of `http.Response` the client reads: the status code and what
`io.ReadAll(resp.Body)` returns. -/
structure Response where
  StatusCode : Int
  Body : Except GoError String

/-- The type `time.Time`: seconds since 0001-01-01T00:00:00Z, nanoseconds
within the second, and the zone offset in seconds east of UTC. The zero value
is the zero `time.Time`. -/
structure Time where
  sec : Int
  nsec : Nat
  offset : Int
deriving DecidableEq, Repr

/-- What the client takes from outside the repository. -/
structure Env where
  /-- The function `os.Getenv`. -/
  getenv : String → String
  /-- The error, if any, of `http.NewRequestWithContext` on a method and URL. -/
  newRequestError : String → String → Option GoError
  /-- The method `http.Client.Do`. -/
  Do : Request → Except GoError Response
  /-- The RFC 3339 parser behind `time.Time.UnmarshalJSON`. -/
  parseTime : String → Except GoError Time

/-! ## JSON text (`encoding/json`)

Modelled on the Go standard library (Go 1.22 and later). A JSON text is parsed
into a syntax tree whose strings are kept raw, that is, as the characters
between the quotes with their escape sequences; `unquote` interprets them and
`quote` produces them. -/

/-- Syntax tree of a JSON text. Strings and member names are raw. -/
inductive JSON where
  | null
  | bool (b : Bool)
  | num (lit : String)
  | str (raw : String)
  | arr (elems : List JSON)
  | obj (members : List (String × JSON))

mutual
/-- The compact JSON text of a tree, as `json.Marshal` lays it out. -/
def JSON.render : JSON → String
  | .null => "null"
  | .bool b => if b then "true" else "false"
  | .num lit => lit
  | .str raw => "\"" ++ raw ++ "\""
  | .arr elems => "[" ++ renderElems elems ++ "]"
  | .obj members => "\x7b" ++ renderMembers members ++ "\x7d"
/-- The elements of an array, separated by commas. -/
def renderElems : List JSON → String
  | [] => ""
  | [v] => v.render
  | v :: vs => v.render ++ "," ++ renderElems vs
/-- The members of an object, separated by commas. -/
def renderMembers : List (String × JSON) → String
  | [] => ""
  | [(k, v)] => "\"" ++ k ++ "\":" ++ v.render
  | (k, v) :: kvs => "\"" ++ k ++ "\":" ++ v.render ++ "," ++ renderMembers kvs
end

/-- Lower-case hexadecimal digit of a number below 16. -/
def hexDigit (n : Nat) : Char :=
  if n < 10 then Char.ofNat (48 + n) else Char.ofNat (87 + n)

/-- How `appendString` (with HTML escaping, as `json.Marshal` calls it) writes
one character of a string. -/
def quoteChar (c : Char) : List Char :=
  if c = '\\' ∨ c = '"' then ['\\', c]
  else if c = '\x08' then ['\\', 'b']
  else if c = '\x0c' then ['\\', 'f']
  else if c = '\n' then ['\\', 'n']
  else if c = '\r' then ['\\', 'r']
  else if c = '\t' then ['\\', 't']
  else if c.toNat < 0x20 ∨ c = '<' ∨ c = '>' ∨ c = '&' then
    ['\\', 'u', '0', '0', hexDigit (c.toNat / 16), hexDigit (c.toNat % 16)]
  else if c.toNat = 0x2028 ∨ c.toNat = 0x2029 then
    ['\\', 'u', '2', '0', '2', hexDigit (c.toNat % 16)]
  else [c]

/-- Raw form of a string value: each character written as `appendString`
writes it. -/
def quote (s : String) : String :=
  String.mk (s.data.flatMap quoteChar)

/-- JSON white space. -/
def isSpace (c : Char) : Bool :=
  c = ' ' || c = '\t' || c = '\r' || c = '\n'

/-- Drop leading white space. -/
def skipSpace : List Char → List Char
  | [] => []
  | c :: cs => if isSpace c then skipSpace cs else c :: cs

/-- Hexadecimal digit test. -/
def isHex (c : Char) : Bool :=
  ('0' ≤ c && c ≤ '9') || ('a' ≤ c && c ≤ 'f') || ('A' ≤ c && c ≤ 'F')

/-- Decimal digit test. -/
def isDigit (c : Char) : Bool :=
  '0' ≤ c && c ≤ '9'

/-- Scan a string after its opening quote: the raw content and what follows
the closing quote. Control characters and unknown escapes are syntax
errors. -/
def scanString : List Char → Option (List Char × List Char)
  | [] => none
  | '"' :: cs => some ([], cs)
  | '\\' :: 'u' :: a :: b :: c :: d :: cs =>
    if isHex a && isHex b && isHex c && isHex d then
      (scanString cs).map (fun r => ('\\' :: 'u' :: a :: b :: c :: d :: r.1, r.2))
    else none
  | '\\' :: e :: cs =>
    if e = '"' ∨ e = '\\' ∨ e = '/' ∨ e = 'b' ∨ e = 'f' ∨ e = 'n' ∨ e = 'r' ∨ e = 't' then
      (scanString cs).map (fun r => ('\\' :: e :: r.1, r.2))
    else none
  | c :: cs =>
    if c = '\\' ∨ c.toNat < 0x20 then none
    else (scanString cs).map (fun r => (c :: r.1, r.2))

/-- Scan a number literal: an optional minus, an integer part without a
leading zero, an optional fraction and an optional exponent. -/
def scanNumber (cs : List Char) : Option (List Char × List Char) :=
  let (sign, cs1) := match cs with
    | '-' :: r => (['-'], r)
    | r => ([], r)
  let intPart : Option (List Char × List Char) := match cs1 with
    | [] => none
    | c :: r =>
      if c = '0' then some ([c], r)
      else if isDigit c then some (c :: (r.span isDigit).1, (r.span isDigit).2)
      else none
  match intPart with
  | none => none
  | some (ip, cs2) =>
    let frac : Option (List Char × List Char) := match cs2 with
      | '.' :: r =>
        if (r.span isDigit).1 = [] then none
        else some ('.' :: (r.span isDigit).1, (r.span isDigit).2)
      | r => some ([], r)
    match frac with
    | none => none
    | some (fp, cs3) =>
      let digitsAfter (mark : List Char) (r : List Char) : Option (List Char × List Char) :=
        if (r.span isDigit).1 = [] then none
        else some (sign ++ ip ++ fp ++ mark ++ (r.span isDigit).1, (r.span isDigit).2)
      match cs3 with
      | 'e' :: '+' :: r => digitsAfter ['e', '+'] r
      | 'e' :: '-' :: r => digitsAfter ['e', '-'] r
      | 'e' :: r => digitsAfter ['e'] r
      | 'E' :: '+' :: r => digitsAfter ['E', '+'] r
      | 'E' :: '-' :: r => digitsAfter ['E', '-'] r
      | 'E' :: r => digitsAfter ['E'] r
      | r => some (sign ++ ip ++ fp, r)

mutual
/-- Parse one JSON value, white space before it allowed. -/
def parseValue : Nat → List Char → Option (JSON × List Char)
  | 0, _ => none
  | fuel + 1, cs =>
    match skipSpace cs with
    | '\x7b' :: r =>
      (match skipSpace r with
        | '\x7d' :: r1 => some (.obj [], r1)
        | r1 => (parseMembers fuel r1).map (fun m => (JSON.obj m.1, m.2)))
    | '[' :: r =>
      (match skipSpace r with
        | ']' :: r1 => some (.arr [], r1)
        | r1 => (parseElems fuel r1).map (fun m => (JSON.arr m.1, m.2)))
    | '"' :: r => (scanString r).map (fun m => (JSON.str (String.mk m.1), m.2))
    | 't' :: 'r' :: 'u' :: 'e' :: r => some (.bool true, r)
    | 'f' :: 'a' :: 'l' :: 's' :: 'e' :: r => some (.bool false, r)
    | 'n' :: 'u' :: 'l' :: 'l' :: r => some (.null, r)
    | r => (scanNumber r).map (fun m => (JSON.num (String.mk m.1), m.2))
/-- Parse the elements of a non-empty array up to the closing bracket. -/
def parseElems : Nat → List Char → Option (List JSON × List Char)
  | 0, _ => none
  | fuel + 1, cs =>
    match parseValue fuel cs with
    | none => none
    | some (v, r) =>
      (match skipSpace r with
        | ',' :: r1 => (parseElems fuel r1).map (fun m => (v :: m.1, m.2))
        | ']' :: r1 => some ([v], r1)
        | _ => none)
/-- Parse the members of a non-empty object up to the closing brace. -/
def parseMembers : Nat → List Char → Option (List (String × JSON) × List Char)
  | 0, _ => none
  | fuel + 1, cs =>
    match skipSpace cs with
    | '"' :: r =>
      (match scanString r with
        | none => none
        | some (key, r1) =>
          (match skipSpace r1 with
            | ':' :: r2 =>
              (match parseValue fuel r2 with
                | none => none
                | some (v, r3) =>
                  (match skipSpace r3 with
                    | ',' :: r4 =>
                      (parseMembers fuel r4).map (fun m => ((String.mk key, v) :: m.1, m.2))
                    | '\x7d' :: r4 => some ([(String.mk key, v)], r4)
                    | _ => none))
            | _ => none))
    | _ => none
end

/-- Parse a whole JSON text: one value between optional white space. Every
recursive call of the parser follows at most one call that consumed no
input, so twice the length bounds the recursion. -/
def parseJSON (data : String) : Option JSON :=
  match parseValue (2 * data.length + 2) data.data with
  | some (v, r) => if skipSpace r = [] then some v else none
  | none => none

/-- Value of a hexadecimal digit. -/
def hexVal (c : Char) : Nat :=
  if '0' ≤ c ∧ c ≤ '9' then c.toNat - 48
  else if 'a' ≤ c ∧ c ≤ 'f' then c.toNat - 87
  else c.toNat - 55

/-- Value of four hexadecimal digits. -/
def hex4 (a b c d : Char) : Nat :=
  ((hexVal a * 16 + hexVal b) * 16 + hexVal c) * 16 + hexVal d

/-- The value of a `\u` escape at the head of the input, if there is one. -/
def getu4 : List Char → Option Nat
  | '\\' :: 'u' :: a :: b :: c :: d :: _ =>
    if isHex a && isHex b && isHex c && isHex d then some (hex4 a b c d) else none
  | _ => none

/-- Interpret the escape sequences of a raw string that `scanString`
accepted, as the decoder's `unquote` does: a `\u` escape of a surrogate is
combined with a following low surrogate, and is U+FFFD otherwise. The first
argument counts characters still to be passed over (the second escape of a
surrogate pair). -/
def unquoteChars : Nat → List Char → List Char
  | _, [] => []
  | skip + 1, _ :: cs => unquoteChars skip cs
  | 0, '\\' :: 'u' :: a :: b :: c :: d :: cs =>
    let r := hex4 a b c d
    if 0xD800 ≤ r ∧ r < 0xE000 then
      (match getu4 cs with
        | some r1 =>
          if r < 0xDC00 ∧ 0xDC00 ≤ r1 ∧ r1 < 0xE000 then
            Char.ofNat (0x10000 + (r - 0xD800) * 0x400 + (r1 - 0xDC00)) :: unquoteChars 6 cs
          else Char.ofNat 0xFFFD :: unquoteChars 0 cs
        | none => Char.ofNat 0xFFFD :: unquoteChars 0 cs)
    else Char.ofNat r :: unquoteChars 0 cs
  | 0, '\\' :: e :: cs =>
    (if e = 'b' then '\x08'
      else if e = 'f' then '\x0c'
      else if e = 'n' then '\n'
      else if e = 'r' then '\r'
      else if e = 't' then '\t'
      else e) :: unquoteChars 0 cs
  | 0, c :: cs => c :: unquoteChars 0 cs

/-- The string value of a raw string. -/
def unquote (raw : String) : String :=
  String.mk (unquoteChars 0 raw.data)

/-- Split a leading minus sign off a number literal. -/
def splitSign : List Char → Bool × List Char
  | '-' :: r => (true, r)
  | r => (false, r)

/-- The number a string of decimal digits denotes. -/
def digitsValue (ds : List Char) : Nat :=
  ds.foldl (fun acc c => 10 * acc + (c.toNat - 48)) 0

/-- The function `strconv.ParseInt(lit, 10, 64)` on a JSON number literal:
only an integer literal within the 64-bit range has a value. -/
def parseInt (lit : String) : Option Int :=
  let neg : Bool := (splitSign lit.data).1
  let ds : List Char := (splitSign lit.data).2
  if ds ≠ [] ∧ ds.all isDigit then
    let v : Int := if neg then -(digitsValue ds : Int) else (digitsValue ds : Int)
    if -(2 ^ 63 : Int) ≤ v ∧ v < (2 ^ 63 : Int) then some v else none
  else none

/-- Folding of one character of a member name. The decoder compares names
under Unicode simple case folding; the only characters outside ASCII that
fold to an ASCII letter are U+017F and U+212A, and all field names of this
repository are ASCII. -/
def foldChar (c : Char) : Char :=
  if 'a' ≤ c ∧ c ≤ 'z' then Char.ofNat (c.toNat - 32)
  else if c.toNat = 0x17F then 'S'
  else if c.toNat = 0x212A then 'K'
  else c

/-- Folded form of a member name. -/
def foldName (s : String) : String :=
  String.mk (s.data.map foldChar)

/-- The struct field a member name selects: the field of exactly that name,
else the first field whose name matches under case folding. -/
def findField (names : List String) (key : String) : Option String :=
  match names.find? (fun n => n == key) with
  | some n => some n
  | none => names.find? (fun n => foldName n == foldName key)

/-- What storing one JSON value into one field does: the field's new value, a
type error that is recorded while decoding goes on, or an error that ends
decoding at once. -/
inductive FieldResult (α : Type) where
  | ok (val : α)
  | typeError (err : GoError)
  | abort (err : GoError)

/-- Apply a function to the stored value. -/
def FieldResult.map {α β : Type} (f : α → β) : FieldResult α → FieldResult β
  | .ok val => .ok (f val)
  | .typeError err => .typeError err
  | .abort err => .abort err

/-- The error `json.UnmarshalTypeError` for a struct field; the text follows
Go 1.22. -/
def typeError (value struct field goType : String) : GoError :=
  .new ("json: cannot unmarshal " ++ value ++ " into Go struct field " ++ struct ++ "."
    ++ field ++ " of type " ++ goType)

/-- Store a JSON value into a `string` field holding `cur`. -/
def storeString (struct field : String) (v : JSON) (cur : String) : FieldResult String :=
  match v with
  | .null => .ok cur
  | .str raw => .ok (unquote raw)
  | .num _ => .typeError (typeError "number" struct field "string")
  | .bool _ => .typeError (typeError "bool" struct field "string")
  | .arr _ => .typeError (typeError "array" struct field "string")
  | .obj _ => .typeError (typeError "object" struct field "string")

/-- Store a JSON value into an `int` field holding `cur`. -/
def storeInt (struct field : String) (v : JSON) (cur : Int) : FieldResult Int :=
  match v with
  | .null => .ok cur
  | .num lit =>
    (match parseInt lit with
      | some n => .ok n
      | none => .typeError (typeError ("number " ++ lit) struct field "int"))
  | .str _ => .typeError (typeError "string" struct field "int")
  | .bool _ => .typeError (typeError "bool" struct field "int")
  | .arr _ => .typeError (typeError "array" struct field "int")
  | .obj _ => .typeError (typeError "object" struct field "int")

/-- Store a JSON value into a `time.Time` field holding `cur`, through
`Time.UnmarshalJSON`: `null` changes nothing, a string is parsed from its raw
text, anything else is refused. Its errors end decoding at once. -/
def storeTime (env : Env) (v : JSON) (cur : Time) : FieldResult Time :=
  match v with
  | .null => .ok cur
  | .str raw =>
    (match env.parseTime raw with
      | .ok t => .ok t
      | .error err => .abort err)
  | _ => .abort (.new "Time.UnmarshalJSON: input is not a JSON string")

/-- Decode the members of an object into a struct, in order; a later member
overwrites an earlier one, and the first recorded type error is the one
returned at the end. -/
def decodeObject {α : Type} (setField : α → String → JSON → FieldResult α) :
    List (String × JSON) → α → Option GoError → Option GoError × α
  | [], target, saved => (saved, target)
  | (key, v) :: rest, target, saved =>
    match setField target (unquote key) v with
    | .ok target1 => decodeObject setField rest target1 saved
    | .typeError err =>
      decodeObject setField rest target (match saved with
        | some first => some first
        | none => some err)
    | .abort err => (some err, target)

/-- The function `json.Unmarshal(data, &target)` for a struct target: the
error, if any, and the target afterwards. A syntax error leaves the target
untouched; its message is not modelled in detail. -/
def jsonUnmarshal {α : Type} (goType : String) (setField : α → String → JSON → FieldResult α)
    (data : String) (target : α) : Option GoError × α :=
  match parseJSON data with
  | none => (some (.new "json: syntax error"), target)
  | some .null => (none, target)
  | some (.obj members) => decodeObject setField members target none
  | some (.str _) =>
    (some (.new ("json: cannot unmarshal string into Go value of type " ++ goType)), target)
  | some (.num _) =>
    (some (.new ("json: cannot unmarshal number into Go value of type " ++ goType)), target)
  | some (.bool _) =>
    (some (.new ("json: cannot unmarshal bool into Go value of type " ++ goType)), target)
  | some (.arr _) =>
    (some (.new ("json: cannot unmarshal array into Go value of type " ++ goType)), target)

/-! ## Entities (`client.go`, lines 36 to 82) -/

/-- A NahCloud project. -/
structure Project where
  ID : String
  Name : String
  CreatedAt : Time
  UpdatedAt : Time
deriving DecidableEq, Repr

/-- A NahCloud compute instance. -/
structure Instance where
  ID : String
  ProjectID : String
  Name : String
  CPU : Int
  MemoryMB : Int
  Image : String
  Status : String
  CreatedAt : Time
  UpdatedAt : Time
deriving DecidableEq, Repr

/-- A NahCloud key-value metadata entry. -/
structure Metadata where
  ID : String
  Path : String
  Value : String
  CreatedAt : Time
  UpdatedAt : Time
deriving DecidableEq, Repr

/-- A NahCloud storage bucket. -/
structure Bucket where
  ID : String
  Name : String
  CreatedAt : Time
  UpdatedAt : Time
deriving DecidableEq, Repr

/-- A NahCloud storage object. -/
structure Object where
  ID : String
  BucketID : String
  Path : String
  Content : String
  CreatedAt : Time
  UpdatedAt : Time
deriving DecidableEq, Repr

/-- The zero `time.Time`. -/
def Time.zero : Time := ⟨0, 0, 0⟩

/-- The value of `var project Project`. -/
def Project.zero : Project := ⟨"", "", Time.zero, Time.zero⟩

/-- The value of `var instance Instance`. -/
def Instance.zero : Instance := ⟨"", "", "", 0, 0, "", "", Time.zero, Time.zero⟩

/-- The value of `var metadata Metadata`. -/
def Metadata.zero : Metadata := ⟨"", "", "", Time.zero, Time.zero⟩

/-- The value of `var bucket Bucket`. -/
def Bucket.zero : Bucket := ⟨"", "", Time.zero, Time.zero⟩

/-- The value of `var object Object`. -/
def Object.zero : Object := ⟨"", "", "", "", Time.zero, Time.zero⟩

/-- Store one member into a `Project`, by the struct's `json` tags. -/
def Project.setField (env : Env) (p : Project) (key : String) (v : JSON) :
    FieldResult Project :=
  match findField ["id", "name", "created_at", "updated_at"] key with
  | some "id" => (storeString "Project" "id" v p.ID).map (fun x => { p with ID := x })
  | some "name" => (storeString "Project" "name" v p.Name).map (fun x => { p with Name := x })
  | some "created_at" => (storeTime env v p.CreatedAt).map (fun x => { p with CreatedAt := x })
  | some "updated_at" => (storeTime env v p.UpdatedAt).map (fun x => { p with UpdatedAt := x })
  | _ => .ok p

/-- Store one member into an `Instance`, by the struct's `json` tags. -/
def Instance.setField (env : Env) (p : Instance) (key : String) (v : JSON) :
    FieldResult Instance :=
  match findField ["id", "project_id", "name", "cpu", "memory_mb", "image", "status",
      "created_at", "updated_at"] key with
  | some "id" => (storeString "Instance" "id" v p.ID).map (fun x => { p with ID := x })
  | some "project_id" =>
    (storeString "Instance" "project_id" v p.ProjectID).map (fun x => { p with ProjectID := x })
  | some "name" => (storeString "Instance" "name" v p.Name).map (fun x => { p with Name := x })
  | some "cpu" => (storeInt "Instance" "cpu" v p.CPU).map (fun x => { p with CPU := x })
  | some "memory_mb" =>
    (storeInt "Instance" "memory_mb" v p.MemoryMB).map (fun x => { p with MemoryMB := x })
  | some "image" => (storeString "Instance" "image" v p.Image).map (fun x => { p with Image := x })
  | some "status" =>
    (storeString "Instance" "status" v p.Status).map (fun x => { p with Status := x })
  | some "created_at" => (storeTime env v p.CreatedAt).map (fun x => { p with CreatedAt := x })
  | some "updated_at" => (storeTime env v p.UpdatedAt).map (fun x => { p with UpdatedAt := x })
  | _ => .ok p

/-- Store one member into a `Metadata`, by the struct's `json` tags. -/
def Metadata.setField (env : Env) (p : Metadata) (key : String) (v : JSON) :
    FieldResult Metadata :=
  match findField ["id", "path", "value", "created_at", "updated_at"] key with
  | some "id" => (storeString "Metadata" "id" v p.ID).map (fun x => { p with ID := x })
  | some "path" => (storeString "Metadata" "path" v p.Path).map (fun x => { p with Path := x })
  | some "value" => (storeString "Metadata" "value" v p.Value).map (fun x => { p with Value := x })
  | some "created_at" => (storeTime env v p.CreatedAt).map (fun x => { p with CreatedAt := x })
  | some "updated_at" => (storeTime env v p.UpdatedAt).map (fun x => { p with UpdatedAt := x })
  | _ => .ok p

/-- Store one member into a `Bucket`, by the struct's `json` tags. -/
def Bucket.setField (env : Env) (p : Bucket) (key : String) (v : JSON) :
    FieldResult Bucket :=
  match findField ["id", "name", "created_at", "updated_at"] key with
  | some "id" => (storeString "Bucket" "id" v p.ID).map (fun x => { p with ID := x })
  | some "name" => (storeString "Bucket" "name" v p.Name).map (fun x => { p with Name := x })
  | some "created_at" => (storeTime env v p.CreatedAt).map (fun x => { p with CreatedAt := x })
  | some "updated_at" => (storeTime env v p.UpdatedAt).map (fun x => { p with UpdatedAt := x })
  | _ => .ok p

/-- Store one member into an `Object`, by the struct's `json` tags. -/
def Object.setField (env : Env) (p : Object) (key : String) (v : JSON) :
    FieldResult Object :=
  match findField ["id", "bucket_id", "path", "content", "created_at", "updated_at"] key with
  | some "id" => (storeString "Object" "id" v p.ID).map (fun x => { p with ID := x })
  | some "bucket_id" =>
    (storeString "Object" "bucket_id" v p.BucketID).map (fun x => { p with BucketID := x })
  | some "path" => (storeString "Object" "path" v p.Path).map (fun x => { p with Path := x })
  | some "content" =>
    (storeString "Object" "content" v p.Content).map (fun x => { p with Content := x })
  | some "created_at" => (storeTime env v p.CreatedAt).map (fun x => { p with CreatedAt := x })
  | some "updated_at" => (storeTime env v p.UpdatedAt).map (fun x => { p with UpdatedAt := x })
  | _ => .ok p

/-- `json.Unmarshal` into a `*Project`. -/
def Project.unmarshal (env : Env) : String → Project → Option GoError × Project :=
  jsonUnmarshal "client.Project" (Project.setField env)

/-- `json.Unmarshal` into an `*Instance`. -/
def Instance.unmarshal (env : Env) : String → Instance → Option GoError × Instance :=
  jsonUnmarshal "client.Instance" (Instance.setField env)

/-- `json.Unmarshal` into a `*Metadata`. -/
def Metadata.unmarshal (env : Env) : String → Metadata → Option GoError × Metadata :=
  jsonUnmarshal "client.Metadata" (Metadata.setField env)

/-- `json.Unmarshal` into a `*Bucket`. -/
def Bucket.unmarshal (env : Env) : String → Bucket → Option GoError × Bucket :=
  jsonUnmarshal "client.Bucket" (Bucket.setField env)

/-- `json.Unmarshal` into an `*Object`. -/
def Object.unmarshal (env : Env) : String → Object → Option GoError × Object :=
  jsonUnmarshal "client.Object" (Object.setField env)

/-! ## Request payloads -/

/-- Body of a create-instance call; `Status` is tagged `omitempty`. -/
structure CreateInstanceRequest where
  ProjectID : String
  Name : String
  CPU : Int
  MemoryMB : Int
  Image : String
  Status : String
deriving DecidableEq, Repr

/-- Body of an update-instance call: every field is a pointer tagged
`omitempty`. -/
structure UpdateInstanceRequest where
  Name : Option String
  CPU : Option Int
  MemoryMB : Option Int
  Image : Option String
  Status : Option String
deriving DecidableEq, Repr

/-- Body of an update-metadata call. -/
structure UpdateMetadataRequest where
  Path : Option String
  Value : Option String
deriving DecidableEq, Repr

/-- Body of a create-object call. -/
structure CreateObjectRequest where
  Path : String
  Content : String
deriving DecidableEq, Repr

/-- Body of an update-object call. -/
structure UpdateObjectRequest where
  Path : Option String
  Content : Option String
deriving DecidableEq, Repr

/-- A JSON string value. -/
def jsonString (s : String) : JSON := .str (quote s)

/-- A JSON integer value. -/
def jsonInt (n : Int) : JSON := .num (formatInt n)

/-- The member of a pointer field tagged `omitempty`: absent for a nil
pointer, else the encoding of the value pointed to. -/
def omitNil {α : Type} (key : String) (encode : α → JSON) : Option α → List (String × JSON)
  | none => []
  | some x => [(key, encode x)]

/-- The member of a string field tagged `omitempty`: absent when the string
has length zero. -/
def omitEmpty (key : String) (s : String) : List (String × JSON) :=
  if len s = 0 then [] else [(key, jsonString s)]

/-- Members of a marshalled `CreateInstanceRequest`, in field order. -/
def CreateInstanceRequest.members (r : CreateInstanceRequest) : List (String × JSON) :=
  [("project_id", jsonString r.ProjectID), ("name", jsonString r.Name), ("cpu", jsonInt r.CPU),
    ("memory_mb", jsonInt r.MemoryMB), ("image", jsonString r.Image)]
    ++ omitEmpty "status" r.Status

/-- Members of a marshalled `UpdateInstanceRequest`, in field order. -/
def UpdateInstanceRequest.members (r : UpdateInstanceRequest) : List (String × JSON) :=
  omitNil "name" jsonString r.Name ++ omitNil "cpu" jsonInt r.CPU
    ++ omitNil "memory_mb" jsonInt r.MemoryMB ++ omitNil "image" jsonString r.Image
    ++ omitNil "status" jsonString r.Status

/-- Members of a marshalled `UpdateMetadataRequest`, in field order. -/
def UpdateMetadataRequest.members (r : UpdateMetadataRequest) : List (String × JSON) :=
  omitNil "path" jsonString r.Path ++ omitNil "value" jsonString r.Value

/-- Members of a marshalled `CreateObjectRequest`, in field order. -/
def CreateObjectRequest.members (r : CreateObjectRequest) : List (String × JSON) :=
  [("path", jsonString r.Path), ("content", jsonString r.Content)]

/-- Members of a marshalled `UpdateObjectRequest`, in field order. -/
def UpdateObjectRequest.members (r : UpdateObjectRequest) : List (String × JSON) :=
  omitNil "path" jsonString r.Path ++ omitNil "content" jsonString r.Content

/-- Byte-wise order of strings, which on valid UTF-8 is the order of the
code points. -/
def strLess : List Char → List Char → Bool
  | [], [] => false
  | [], _ :: _ => true
  | _ :: _, [] => false
  | a :: as, b :: bs => a.toNat < b.toNat || (a.toNat = b.toNat && strLess as bs)

/-- Insert an entry into a list of map entries sorted by key. -/
def insertEntry (e : String × String) : List (String × String) → List (String × String)
  | [] => [e]
  | x :: xs => if strLess e.1.data x.1.data then e :: x :: xs else x :: insertEntry e xs

/-- The entries of a map in the order `json.Marshal` writes them: sorted by
key. -/
def sortEntries : List (String × String) → List (String × String)
  | [] => []
  | e :: es => insertEntry e (sortEntries es)

/-- What the client passes as `body interface{}` to `doRequest`: the untyped
`nil`, a `map[string]string` given by its entries (with distinct keys), or a
pointer to one of the request structs. -/
inductive Payload where
  | nil
  | stringMap (entries : List (String × String))
  | createInstance (req : Option CreateInstanceRequest)
  | updateInstance (req : Option UpdateInstanceRequest)
  | updateMetadata (req : Option UpdateMetadataRequest)
  | createObject (req : Option CreateObjectRequest)
  | updateObject (req : Option UpdateObjectRequest)
deriving DecidableEq, Repr

/-- The JSON value of a struct pointer: `null` for a nil pointer. -/
def pointerJSON {α : Type} (members : α → List (String × JSON)) : Option α → JSON
  | none => .null
  | some r => .obj (members r)

/-- The JSON value `json.Marshal` writes for a payload. -/
def Payload.toJSON : Payload → JSON
  | .nil => .null
  | .stringMap entries =>
    .obj ((sortEntries entries).map (fun e => (quote e.1, jsonString e.2)))
  | .createInstance req => pointerJSON CreateInstanceRequest.members req
  | .updateInstance req => pointerJSON UpdateInstanceRequest.members req
  | .updateMetadata req => pointerJSON UpdateMetadataRequest.members req
  | .createObject req => pointerJSON CreateObjectRequest.members req
  | .updateObject req => pointerJSON UpdateObjectRequest.members req

/-- A Go value as `json.Marshal` sees it through reflection, for the kinds
that occur in the client's payloads and three kinds the encoder refuses.
Floating-point numbers, slices, arrays and types with their own `MarshalJSON`
are outside the model. A struct is given by its exported fields in order, each
with the name from its `json` tag (which needs no escaping) and whether the tag
says `omitempty`; a map has string keys and is not nil. -/
inductive GoValue where
  | nilInterface
  | bool (b : Bool)
  | int (n : Int)
  | string (s : String)
  | pointer (target : Option GoValue)
  | struct (fields : List (String × Bool × GoValue))
  | map (entries : List (String × GoValue))
  | chan
  | func
  | complex

/-- The function `isEmptyValue` of `encoding/json`, which decides whether a
field tagged `omitempty` is left out. -/
def GoValue.isEmptyValue : GoValue → Bool
  | .nilInterface => true
  | .bool b => !b
  | .int n => n == 0
  | .string s => len s == 0
  | .pointer target => target.isNone
  | .map entries => entries.isEmpty
  | _ => false

/-- The error `json.Marshal` returns for a type it cannot encode. -/
def unsupportedType (type : String) : GoError :=
  .new ("json: unsupported type: " ++ type)

/-- Insert an entry into a list sorted by key. -/
def insertByKey {α : Type} (e : String × α) : List (String × α) → List (String × α)
  | [] => [e]
  | x :: xs => if strLess e.1.data x.1.data then e :: x :: xs else x :: insertByKey e xs

/-- The entries of a map in the order `json.Marshal` visits them: sorted by
key. -/
def sortByKey {α : Type} : List (String × α) → List (String × α)
  | [] => []
  | e :: es => insertByKey e (sortByKey es)

/-- The members written so far, or the first error met. -/
def collectMembers : List (String × Except GoError JSON) → Except GoError (List (String × JSON))
  | [] => .ok []
  | (_, .error err) :: _ => .error err
  | (key, .ok v) :: rest =>
    match collectMembers rest with
    | .error err => .error err
    | .ok members => .ok ((key, v) :: members)

mutual
/-- The encoder of `json.Marshal`: the JSON value of a Go value, or the error
for a value of a kind that has none. -/
def GoValue.encode : GoValue → Except GoError JSON
  | .nilInterface => .ok .null
  | .bool b => .ok (.bool b)
  | .int n => .ok (jsonInt n)
  | .string s => .ok (jsonString s)
  | .pointer none => .ok .null
  | .pointer (some v) => v.encode
  | .struct fields =>
    match collectMembers (encodeFields fields) with
    | .error err => .error err
    | .ok members => .ok (.obj members)
  | .map entries =>
    match collectMembers (sortByKey (encodeEntries entries)) with
    | .error err => .error err
    | .ok members => .ok (.obj (members.map (fun m => (quote m.1, m.2))))
  | .chan => .error (unsupportedType "chan")
  | .func => .error (unsupportedType "func")
  | .complex => .error (unsupportedType "complex128")
/-- The fields of a struct in order, without the empty ones tagged
`omitempty`, each with its encoding. -/
def encodeFields : List (String × Bool × GoValue) → List (String × Except GoError JSON)
  | [] => []
  | (name, omitempty, v) :: rest =>
    if omitempty && v.isEmptyValue then encodeFields rest
    else (name, v.encode) :: encodeFields rest
/-- The entries of a map, each with its encoding. -/
def encodeEntries : List (String × GoValue) → List (String × Except GoError JSON)
  | [] => []
  | (key, v) :: rest => (key, v.encode) :: encodeEntries rest
end

/-- The Go value of a `*CreateInstanceRequest`'s target, by the struct's
declaration. -/
def CreateInstanceRequest.toValue (r : CreateInstanceRequest) : GoValue :=
  .struct [("project_id", false, .string r.ProjectID), ("name", false, .string r.Name),
    ("cpu", false, .int r.CPU), ("memory_mb", false, .int r.MemoryMB),
    ("image", false, .string r.Image), ("status", true, .string r.Status)]

/-- The Go value of an `*UpdateInstanceRequest`'s target. -/
def UpdateInstanceRequest.toValue (r : UpdateInstanceRequest) : GoValue :=
  .struct [("name", true, .pointer (r.Name.map .string)),
    ("cpu", true, .pointer (r.CPU.map .int)),
    ("memory_mb", true, .pointer (r.MemoryMB.map .int)),
    ("image", true, .pointer (r.Image.map .string)),
    ("status", true, .pointer (r.Status.map .string))]

/-- The Go value of an `*UpdateMetadataRequest`'s target. -/
def UpdateMetadataRequest.toValue (r : UpdateMetadataRequest) : GoValue :=
  .struct [("path", true, .pointer (r.Path.map .string)),
    ("value", true, .pointer (r.Value.map .string))]

/-- The Go value of a `*CreateObjectRequest`'s target. -/
def CreateObjectRequest.toValue (r : CreateObjectRequest) : GoValue :=
  .struct [("path", false, .string r.Path), ("content", false, .string r.Content)]

/-- The Go value of an `*UpdateObjectRequest`'s target. -/
def UpdateObjectRequest.toValue (r : UpdateObjectRequest) : GoValue :=
  .struct [("path", true, .pointer (r.Path.map .string)),
    ("content", true, .pointer (r.Content.map .string))]

/-- The Go value a payload is: the nil interface, a `map[string]string`, or a
pointer to a request struct. -/
def Payload.toValue : Payload → GoValue
  | .nil => .nilInterface
  | .stringMap entries => .map (entries.map (fun e => (e.1, .string e.2)))
  | .createInstance req => .pointer (req.map CreateInstanceRequest.toValue)
  | .updateInstance req => .pointer (req.map UpdateInstanceRequest.toValue)
  | .updateMetadata req => .pointer (req.map UpdateMetadataRequest.toValue)
  | .createObject req => .pointer (req.map CreateObjectRequest.toValue)
  | .updateObject req => .pointer (req.map UpdateObjectRequest.toValue)

/-- The function `json.Marshal` on a payload: the text of the encoder's value,
or the encoder's error. -/
def jsonMarshal (body : Payload) : Except GoError String :=
  match body.toValue.encode with
  | .error err => .error err
  | .ok v => .ok v.render

/-! ## The client (`client.go`) -/

/-- The constant `DefaultEndpoint`. -/
def DefaultEndpoint : String := "https://nahcloud.com"

/-- The NahCloud API client; `timeoutSeconds` is the `Timeout` of its
`http.Client`. -/
structure Client where
  endpoint : String
  token : String
  timeoutSeconds : Nat
deriving DecidableEq, Repr

/-- The function `NewClient`. -/
def NewClient (endpoint token : String) : Client :=
  let endpoint := if endpoint = "" then DefaultEndpoint else endpoint
  { endpoint := endpoint, token := token, timeoutSeconds := 30 }

/-- The method `doRequest`. The first component lists the requests handed to
`httpClient.Do`, the second is the pair `(*http.Response, error)`. The `URL`
of a request is the text given to `http.NewRequestWithContext`, which parses
it (`requestURI`), and `Do` may send further requests on the network when the
server redirects (`Network.outbound`). -/
def Client.doRequest (c : Client) (env : Env) (method path : String) (body : Payload) :
    List Request × Except GoError Response :=
  let marshalled : Except GoError (Option String) :=
    match body with
    | .nil => .ok none
    | b =>
      (match jsonMarshal b with
        | .error err => .error (.wrap "failed to marshal request body: " err)
        | .ok jsonBody => .ok (some jsonBody))
  match marshalled with
  | .error err => ([], .error err)
  | .ok reqBody =>
    match env.newRequestError method (c.endpoint ++ path) with
    | some err => ([], .error (.wrap "failed to create request: " err))
    | none =>
      let req : Request :=
        { Method := method, URL := c.endpoint ++ path, Header := [], Body := reqBody }
      let req : Request := { req with Header := req.Header.Set "Content-Type" "application/json" }
      let req : Request :=
        if c.token ≠ "" then
          { req with Header := req.Header.Set "Authorization" ("Bearer " ++ c.token) }
        else req
      ([req], env.Do req)

/-- The function `handleResponse`. The argument `result` is the target
pointer (`none` for `nil`) with the value it points to, `unmarshal` is
`json.Unmarshal` for the target's type; the outcome is the returned error and
the target afterwards. -/
def handleResponse {α : Type} (unmarshal : String → α → Option GoError × α)
    (resp : Response) (result : Option α) : Option GoError × Option α :=
  match resp.Body with
  | .error err => (some (.wrap "failed to read response body: " err), result)
  | .ok body =>
    if resp.StatusCode ≥ 400 then
      (some (.new ("API error (status " ++ formatInt resp.StatusCode ++ "): " ++ body)), result)
    else
      match result with
      | some target =>
        if len body > 0 then
          (match unmarshal body target with
            | (some err, target1) =>
              (some (.wrap "failed to unmarshal response: " err), some target1)
            | (none, target1) => (none, some target1))
        else (none, result)
      | none => (none, result)

/-- Outcome of a client method returning `(*T, error)`, with the requests it
handed to the transport. -/
structure Call (α : Type) where
  sent : List Request
  value : Option α
  err : Option GoError

/-- Outcome of a client method returning `error`, with the requests it handed
to the transport. -/
structure CallErr where
  sent : List Request
  err : Option GoError

/-- Stands for `json.Unmarshal` where the result target is the untyped `nil`
and nothing can be decoded. -/
def noTarget (_ : String) (target : Unit) : Option GoError × Unit :=
  (none, target)

/-- The method `CreateProject`. -/
def Client.CreateProject (c : Client) (env : Env) (name : String) : Call Project :=
  match c.doRequest env "POST" "/v1/projects"
    (.stringMap [("name", name)]) with
  | (sent, .error err) => ⟨sent, none, some err⟩
  | (sent, .ok resp) =>
    match handleResponse (Project.unmarshal env) resp (some Project.zero) with
    | (some err, _) => ⟨sent, none, some err⟩
    | (none, project) => ⟨sent, project, none⟩

/-- The method `GetProject`. -/
def Client.GetProject (c : Client) (env : Env) (id : String) : Call Project :=
  match c.doRequest env "GET" ("/v1/projects/" ++ id)
    .nil with
  | (sent, .error err) => ⟨sent, none, some err⟩
  | (sent, .ok resp) =>
    match handleResponse (Project.unmarshal env) resp (some Project.zero) with
    | (some err, _) => ⟨sent, none, some err⟩
    | (none, project) => ⟨sent, project, none⟩

/-- The method `UpdateProject`. -/
def Client.UpdateProject (c : Client) (env : Env) (id name : String) : Call Project :=
  match c.doRequest env "PATCH" ("/v1/projects/" ++ id)
    (.stringMap [("name", name)]) with
  | (sent, .error err) => ⟨sent, none, some err⟩
  | (sent, .ok resp) =>
    match handleResponse (Project.unmarshal env) resp (some Project.zero) with
    | (some err, _) => ⟨sent, none, some err⟩
    | (none, project) => ⟨sent, project, none⟩

/-- The method `DeleteProject`; it passes `nil` as the result target. -/
def Client.DeleteProject (c : Client) (env : Env) (id : String) : CallErr :=
  match c.doRequest env "DELETE" ("/v1/projects/" ++ id)
    .nil with
  | (sent, .error err) => ⟨sent, some err⟩
  | (sent, .ok resp) => ⟨sent, (handleResponse noTarget resp none).1⟩

/-- The method `CreateInstance`. -/
def Client.CreateInstance (c : Client) (env : Env) (req : Option CreateInstanceRequest) : Call Instance :=
  match c.doRequest env "POST" "/v1/instances"
    (.createInstance req) with
  | (sent, .error err) => ⟨sent, none, some err⟩
  | (sent, .ok resp) =>
    match handleResponse (Instance.unmarshal env) resp (some Instance.zero) with
    | (some err, _) => ⟨sent, none, some err⟩
    | (none, inst) => ⟨sent, inst, none⟩

/-- The method `GetInstance`. -/
def Client.GetInstance (c : Client) (env : Env) (id : String) : Call Instance :=
  match c.doRequest env "GET" ("/v1/instances/" ++ id)
    .nil with
  | (sent, .error err) => ⟨sent, none, some err⟩
  | (sent, .ok resp) =>
    match handleResponse (Instance.unmarshal env) resp (some Instance.zero) with
    | (some err, _) => ⟨sent, none, some err⟩
    | (none, inst) => ⟨sent, inst, none⟩

/-- The method `UpdateInstance`. -/
def Client.UpdateInstance (c : Client) (env : Env) (id : String) (req : Option UpdateInstanceRequest) : Call Instance :=
  match c.doRequest env "PATCH" ("/v1/instances/" ++ id)
    (.updateInstance req) with
  | (sent, .error err) => ⟨sent, none, some err⟩
  | (sent, .ok resp) =>
    match handleResponse (Instance.unmarshal env) resp (some Instance.zero) with
    | (some err, _) => ⟨sent, none, some err⟩
    | (none, inst) => ⟨sent, inst, none⟩

/-- The method `DeleteInstance`; it passes `nil` as the result target. -/
def Client.DeleteInstance (c : Client) (env : Env) (id : String) : CallErr :=
  match c.doRequest env "DELETE" ("/v1/instances/" ++ id)
    .nil with
  | (sent, .error err) => ⟨sent, some err⟩
  | (sent, .ok resp) => ⟨sent, (handleResponse noTarget resp none).1⟩

/-- The method `CreateMetadata`. -/
def Client.CreateMetadata (c : Client) (env : Env) (path value : String) : Call Metadata :=
  match c.doRequest env "POST" "/v1/metadata"
    (.stringMap [("path", path), ("value", value)]) with
  | (sent, .error err) => ⟨sent, none, some err⟩
  | (sent, .ok resp) =>
    match handleResponse (Metadata.unmarshal env) resp (some Metadata.zero) with
    | (some err, _) => ⟨sent, none, some err⟩
    | (none, metadata) => ⟨sent, metadata, none⟩

/-- The method `GetMetadata`. -/
def Client.GetMetadata (c : Client) (env : Env) (id : String) : Call Metadata :=
  match c.doRequest env "GET" ("/v1/metadata/" ++ id)
    .nil with
  | (sent, .error err) => ⟨sent, none, some err⟩
  | (sent, .ok resp) =>
    match handleResponse (Metadata.unmarshal env) resp (some Metadata.zero) with
    | (some err, _) => ⟨sent, none, some err⟩
    | (none, metadata) => ⟨sent, metadata, none⟩

/-- The method `UpdateMetadata`. -/
def Client.UpdateMetadata (c : Client) (env : Env) (id : String) (req : Option UpdateMetadataRequest) : Call Metadata :=
  match c.doRequest env "PATCH" ("/v1/metadata/" ++ id)
    (.updateMetadata req) with
  | (sent, .error err) => ⟨sent, none, some err⟩
  | (sent, .ok resp) =>
    match handleResponse (Metadata.unmarshal env) resp (some Metadata.zero) with
    | (some err, _) => ⟨sent, none, some err⟩
    | (none, metadata) => ⟨sent, metadata, none⟩

/-- The method `DeleteMetadata`; it passes `nil` as the result target. -/
def Client.DeleteMetadata (c : Client) (env : Env) (id : String) : CallErr :=
  match c.doRequest env "DELETE" ("/v1/metadata/" ++ id)
    .nil with
  | (sent, .error err) => ⟨sent, some err⟩
  | (sent, .ok resp) => ⟨sent, (handleResponse noTarget resp none).1⟩

/-- The method `CreateBucket`. -/
def Client.CreateBucket (c : Client) (env : Env) (name : String) : Call Bucket :=
  match c.doRequest env "POST" "/v1/buckets"
    (.stringMap [("name", name)]) with
  | (sent, .error err) => ⟨sent, none, some err⟩
  | (sent, .ok resp) =>
    match handleResponse (Bucket.unmarshal env) resp (some Bucket.zero) with
    | (some err, _) => ⟨sent, none, some err⟩
    | (none, bucket) => ⟨sent, bucket, none⟩

/-- The method `GetBucket`. -/
def Client.GetBucket (c : Client) (env : Env) (id : String) : Call Bucket :=
  match c.doRequest env "GET" ("/v1/buckets/" ++ id)
    .nil with
  | (sent, .error err) => ⟨sent, none, some err⟩
  | (sent, .ok resp) =>
    match handleResponse (Bucket.unmarshal env) resp (some Bucket.zero) with
    | (some err, _) => ⟨sent, none, some err⟩
    | (none, bucket) => ⟨sent, bucket, none⟩

/-- The method `UpdateBucket`. -/
def Client.UpdateBucket (c : Client) (env : Env) (id name : String) : Call Bucket :=
  match c.doRequest env "PATCH" ("/v1/buckets/" ++ id)
    (.stringMap [("name", name)]) with
  | (sent, .error err) => ⟨sent, none, some err⟩
  | (sent, .ok resp) =>
    match handleResponse (Bucket.unmarshal env) resp (some Bucket.zero) with
    | (some err, _) => ⟨sent, none, some err⟩
    | (none, bucket) => ⟨sent, bucket, none⟩

/-- The method `DeleteBucket`; it passes `nil` as the result target. -/
def Client.DeleteBucket (c : Client) (env : Env) (id : String) : CallErr :=
  match c.doRequest env "DELETE" ("/v1/buckets/" ++ id)
    .nil with
  | (sent, .error err) => ⟨sent, some err⟩
  | (sent, .ok resp) => ⟨sent, (handleResponse noTarget resp none).1⟩

/-- The method `CreateObject`. -/
def Client.CreateObject (c : Client) (env : Env) (bucketID : String) (req : Option CreateObjectRequest) : Call Object :=
  match c.doRequest env "POST" ("/v1/bucket/" ++ bucketID ++ "/objects")
    (.createObject req) with
  | (sent, .error err) => ⟨sent, none, some err⟩
  | (sent, .ok resp) =>
    match handleResponse (Object.unmarshal env) resp (some Object.zero) with
    | (some err, _) => ⟨sent, none, some err⟩
    | (none, object) => ⟨sent, object, none⟩

/-- The method `GetObject`. -/
def Client.GetObject (c : Client) (env : Env) (bucketID id : String) : Call Object :=
  match c.doRequest env "GET" ("/v1/bucket/" ++ bucketID ++ "/objects/" ++ id)
    .nil with
  | (sent, .error err) => ⟨sent, none, some err⟩
  | (sent, .ok resp) =>
    match handleResponse (Object.unmarshal env) resp (some Object.zero) with
    | (some err, _) => ⟨sent, none, some err⟩
    | (none, object) => ⟨sent, object, none⟩

/-- The method `UpdateObject`. -/
def Client.UpdateObject (c : Client) (env : Env) (bucketID id : String) (req : Option UpdateObjectRequest) : Call Object :=
  match c.doRequest env "PATCH" ("/v1/bucket/" ++ bucketID ++ "/objects/" ++ id)
    (.updateObject req) with
  | (sent, .error err) => ⟨sent, none, some err⟩
  | (sent, .ok resp) =>
    match handleResponse (Object.unmarshal env) resp (some Object.zero) with
    | (some err, _) => ⟨sent, none, some err⟩
    | (none, object) => ⟨sent, object, none⟩

/-- The method `DeleteObject`; it passes `nil` as the result target. -/
def Client.DeleteObject (c : Client) (env : Env) (bucketID id : String) : CallErr :=
  match c.doRequest env "DELETE" ("/v1/bucket/" ++ bucketID ++ "/objects/" ++ id)
    .nil with
  | (sent, .error err) => ⟨sent, some err⟩
  | (sent, .ok resp) => ⟨sent, (handleResponse noTarget resp none).1⟩

/-! ## Provider configuration (`provider.go`) -/

/-- The framework type `types.String`: null, unknown, or a known value. -/
inductive TFString where
  | null
  | unknown
  | value (s : String)
deriving DecidableEq, Repr

/-- The method `ValueString`: the known value, or the empty string. -/
def TFString.ValueString : TFString → String
  | .value s => s
  | _ => ""

/-- The provider data model `NahProviderModel`. -/
structure NahProviderModel where
  Endpoint : TFString
  Token : TFString
deriving DecidableEq, Repr

/-- A framework diagnostic: an error or a warning with summary and detail. -/
structure Diagnostic where
  isError : Bool
  Summary : String
  Detail : String
deriving DecidableEq, Repr

/-- The method `Diagnostics.Append`: add the diagnostics not yet present. -/
def Diagnostics.Append (ds : List Diagnostic) (more : List Diagnostic) : List Diagnostic :=
  more.foldl (fun acc d => if d ∈ acc then acc else acc ++ [d]) ds

/-- The method `Diagnostics.HasError`. -/
def Diagnostics.HasError (ds : List Diagnostic) : Bool :=
  ds.any (fun d => d.isError)

/-- The fields of `provider.ConfigureResponse` that `Configure` writes. -/
structure ConfigureResponse where
  Diagnostics : List Diagnostic
  DataSourceData : Option Client
  ResourceData : Option Client
deriving DecidableEq, Repr

/-- The method `NahProvider.Configure`. The argument `config` is what
`req.Config.Get(ctx, &data)` yields: its diagnostics and the decoded model;
`resp` is the response as the framework hands it in. -/
def NahProvider.Configure (env : Env) (config : List Diagnostic × NahProviderModel)
    (resp : ConfigureResponse) : ConfigureResponse :=
  let data := config.2
  let resp := { resp with Diagnostics := Diagnostics.Append resp.Diagnostics config.1 }
  if Diagnostics.HasError resp.Diagnostics then resp
  else
    let endpoint := data.Endpoint.ValueString
    let endpoint := if endpoint = "" then env.getenv "NAH_ENDPOINT" else endpoint
    let token := data.Token.ValueString
    let token := if token = "" then env.getenv "NAH_TOKEN" else token
    let nahClient := NewClient endpoint token
    { resp with DataSourceData := some nahClient, ResourceData := some nahClient }

/-- The default the provider schema documents for `endpoint`
(`MarkdownDescription` of the attribute). -/
def documentedDefaultEndpoint : String := "http://localhost:8080"

/-! ## The operations as one type -/

/-- One call of a client method, with its arguments. -/
inductive Op where
  | CreateProject (name : String)
  | GetProject (id : String)
  | UpdateProject (id name : String)
  | DeleteProject (id : String)
  | CreateInstance (req : Option CreateInstanceRequest)
  | GetInstance (id : String)
  | UpdateInstance (id : String) (req : Option UpdateInstanceRequest)
  | DeleteInstance (id : String)
  | CreateMetadata (path value : String)
  | GetMetadata (id : String)
  | UpdateMetadata (id : String) (req : Option UpdateMetadataRequest)
  | DeleteMetadata (id : String)
  | CreateBucket (name : String)
  | GetBucket (id : String)
  | UpdateBucket (id name : String)
  | DeleteBucket (id : String)
  | CreateObject (bucketID : String) (req : Option CreateObjectRequest)
  | GetObject (bucketID id : String)
  | UpdateObject (bucketID id : String) (req : Option UpdateObjectRequest)
  | DeleteObject (bucketID id : String)
deriving DecidableEq, Repr

/-- Run a call: the requests it handed to the transport and the error it
returned. -/
def Op.run (c : Client) (env : Env) : Op → CallErr
  | .CreateProject name => ⟨(c.CreateProject env name).sent, (c.CreateProject env name).err⟩
  | .GetProject id => ⟨(c.GetProject env id).sent, (c.GetProject env id).err⟩
  | .UpdateProject id name => ⟨(c.UpdateProject env id name).sent, (c.UpdateProject env id name).err⟩
  | .DeleteProject id => c.DeleteProject env id
  | .CreateInstance req => ⟨(c.CreateInstance env req).sent, (c.CreateInstance env req).err⟩
  | .GetInstance id => ⟨(c.GetInstance env id).sent, (c.GetInstance env id).err⟩
  | .UpdateInstance id req =>
    ⟨(c.UpdateInstance env id req).sent, (c.UpdateInstance env id req).err⟩
  | .DeleteInstance id => c.DeleteInstance env id
  | .CreateMetadata path value =>
    ⟨(c.CreateMetadata env path value).sent, (c.CreateMetadata env path value).err⟩
  | .GetMetadata id => ⟨(c.GetMetadata env id).sent, (c.GetMetadata env id).err⟩
  | .UpdateMetadata id req =>
    ⟨(c.UpdateMetadata env id req).sent, (c.UpdateMetadata env id req).err⟩
  | .DeleteMetadata id => c.DeleteMetadata env id
  | .CreateBucket name => ⟨(c.CreateBucket env name).sent, (c.CreateBucket env name).err⟩
  | .GetBucket id => ⟨(c.GetBucket env id).sent, (c.GetBucket env id).err⟩
  | .UpdateBucket id name => ⟨(c.UpdateBucket env id name).sent, (c.UpdateBucket env id name).err⟩
  | .DeleteBucket id => c.DeleteBucket env id
  | .CreateObject bucketID req =>
    ⟨(c.CreateObject env bucketID req).sent, (c.CreateObject env bucketID req).err⟩
  | .GetObject bucketID id => ⟨(c.GetObject env bucketID id).sent, (c.GetObject env bucketID id).err⟩
  | .UpdateObject bucketID id req =>
    ⟨(c.UpdateObject env bucketID id req).sent, (c.UpdateObject env bucketID id req).err⟩
  | .DeleteObject bucketID id => c.DeleteObject env bucketID id

/-- Whether the method returned a non-nil entity pointer (never, for the
delete methods, which return an error only). -/
def Op.hasValue (c : Client) (env : Env) : Op → Bool
  | .CreateProject name => (c.CreateProject env name).value.isSome
  | .GetProject id => (c.GetProject env id).value.isSome
  | .UpdateProject id name => (c.UpdateProject env id name).value.isSome
  | .DeleteProject _ => false
  | .CreateInstance req => (c.CreateInstance env req).value.isSome
  | .GetInstance id => (c.GetInstance env id).value.isSome
  | .UpdateInstance id req => (c.UpdateInstance env id req).value.isSome
  | .DeleteInstance _ => false
  | .CreateMetadata path value => (c.CreateMetadata env path value).value.isSome
  | .GetMetadata id => (c.GetMetadata env id).value.isSome
  | .UpdateMetadata id req => (c.UpdateMetadata env id req).value.isSome
  | .DeleteMetadata _ => false
  | .CreateBucket name => (c.CreateBucket env name).value.isSome
  | .GetBucket id => (c.GetBucket env id).value.isSome
  | .UpdateBucket id name => (c.UpdateBucket env id name).value.isSome
  | .DeleteBucket _ => false
  | .CreateObject bucketID req => (c.CreateObject env bucketID req).value.isSome
  | .GetObject bucketID id => (c.GetObject env bucketID id).value.isSome
  | .UpdateObject bucketID id req => (c.UpdateObject env bucketID id req).value.isSome
  | .DeleteObject _ _ => false

/-- The spec's table of methods: create is POST, get is GET, update is PATCH,
delete is DELETE. -/
def Op.specMethod : Op → String
  | .CreateProject _ | .CreateInstance _ | .CreateMetadata _ _ | .CreateBucket _
  | .CreateObject _ _ => "POST"
  | .GetProject _ | .GetInstance _ | .GetMetadata _ | .GetBucket _ | .GetObject _ _ => "GET"
  | .UpdateProject _ _ | .UpdateInstance _ _ | .UpdateMetadata _ _ | .UpdateBucket _ _
  | .UpdateObject _ _ _ => "PATCH"
  | .DeleteProject _ | .DeleteInstance _ | .DeleteMetadata _ | .DeleteBucket _
  | .DeleteObject _ _ => "DELETE"

/-- The spec's table of paths: the collection path for create, the collection
path followed by the identifier otherwise, objects nested under their
bucket. -/
def Op.specPath : Op → String
  | .CreateProject _ => "/v1/projects"
  | .GetProject id | .UpdateProject id _ | .DeleteProject id => "/v1/projects/" ++ id
  | .CreateInstance _ => "/v1/instances"
  | .GetInstance id | .UpdateInstance id _ | .DeleteInstance id => "/v1/instances/" ++ id
  | .CreateMetadata _ _ => "/v1/metadata"
  | .GetMetadata id | .UpdateMetadata id _ | .DeleteMetadata id => "/v1/metadata/" ++ id
  | .CreateBucket _ => "/v1/buckets"
  | .GetBucket id | .UpdateBucket id _ | .DeleteBucket id => "/v1/buckets/" ++ id
  | .CreateObject bucketID _ => "/v1/bucket/" ++ bucketID ++ "/objects"
  | .GetObject bucketID id | .UpdateObject bucketID id _ | .DeleteObject bucketID id =>
    "/v1/bucket/" ++ bucketID ++ "/objects/" ++ id

/-- The body an operation passes to `doRequest`. -/
def Op.payload : Op → Payload
  | .CreateProject name | .UpdateProject _ name | .CreateBucket name | .UpdateBucket _ name =>
    .stringMap [("name", name)]
  | .CreateMetadata path value => .stringMap [("path", path), ("value", value)]
  | .CreateInstance req => .createInstance req
  | .UpdateInstance _ req => .updateInstance req
  | .UpdateMetadata _ req => .updateMetadata req
  | .CreateObject _ req => .createObject req
  | .UpdateObject _ _ req => .updateObject req
  | .GetProject _ | .GetInstance _ | .GetMetadata _ | .GetBucket _ | .GetObject _ _
  | .DeleteProject _ | .DeleteInstance _ | .DeleteMetadata _ | .DeleteBucket _
  | .DeleteObject _ _ => .nil

/-- Whether an operation passes `nil` as result target to `handleResponse`. -/
def Op.isDelete : Op → Bool
  | .DeleteProject _ | .DeleteInstance _ | .DeleteMetadata _ | .DeleteBucket _
  | .DeleteObject _ _ => true
  | _ => false

/-- The request `doRequest` hands to the transport once the body is
marshalled and the request constructed: `Content-Type` always, and
`Authorization` for a non-empty token. -/
def Client.request (c : Client) (method path : String) (body : Payload) : Request :=
  { Method := method
    URL := c.endpoint ++ path
    Header :=
      if c.token = "" then [("Content-Type", ["application/json"])]
      else [("Content-Type", ["application/json"]), ("Authorization", ["Bearer " ++ c.token])]
    Body := match body with
      | .nil => none
      | b => some b.toJSON.render }

/-- The function `strings.HasPrefix`. -/
def startsWith (s p : String) : Bool :=
  p.data.isPrefixOf s.data

/-- An error in the form of the decoding error of `handleResponse`. -/
def isDecodingError (err : GoError) : Bool :=
  startsWith err.Error "failed to unmarshal response"

/-- An error in the form of the API error of `handleResponse`. -/
def isAPIError (err : GoError) : Bool :=
  startsWith err.Error "API error (status "

/-! ## Derived descriptions of the client -/

/-- The shape all create, get and update methods share, as one function of
what `doRequest` returned: `nil, err` on an error of `doRequest` or of
`handleResponse`, else the decoded entity. -/
def Call.after {α : Type} (unmarshal : String → α → Option GoError × α) (zero : α)
    (r : List Request × Except GoError Response) : Call α :=
  match r with
  | (sent, .error err) => ⟨sent, none, some err⟩
  | (sent, .ok resp) =>
    match handleResponse unmarshal resp (some zero) with
    | (some err, _) => ⟨sent, none, some err⟩
    | (none, entity) => ⟨sent, entity, none⟩

/-- The error `handleResponse` returns in an operation, for the response the
operation received: decoded into the operation's entity, or with no target in
the delete methods. -/
def Op.handle (env : Env) : Op → Response → Option GoError
  | .CreateProject _ | .GetProject _ | .UpdateProject _ _ => fun resp =>
    (handleResponse (Project.unmarshal env) resp (some Project.zero)).1
  | .CreateInstance _ | .GetInstance _ | .UpdateInstance _ _ => fun resp =>
    (handleResponse (Instance.unmarshal env) resp (some Instance.zero)).1
  | .CreateMetadata _ _ | .GetMetadata _ | .UpdateMetadata _ _ => fun resp =>
    (handleResponse (Metadata.unmarshal env) resp (some Metadata.zero)).1
  | .CreateBucket _ | .GetBucket _ | .UpdateBucket _ _ => fun resp =>
    (handleResponse (Bucket.unmarshal env) resp (some Bucket.zero)).1
  | .CreateObject _ _ | .GetObject _ _ | .UpdateObject _ _ _ => fun resp =>
    (handleResponse (Object.unmarshal env) resp (some Object.zero)).1
  | .DeleteProject _ | .DeleteInstance _ | .DeleteMetadata _ | .DeleteBucket _
  | .DeleteObject _ _ => fun resp => (handleResponse noTarget resp none).1

/-- An error in the form of the encoding error of `doRequest`. -/
def isEncodingError (err : GoError) : Bool :=
  startsWith err.Error "failed to marshal request body"

/-- The operation name `http.Client.Do` puts into its errors: the method with
only its first letter in upper case. -/
def urlErrorOp (method : String) : String :=
  if method = "GET" then "Get"
  else if method = "POST" then "Post"
  else if method = "PATCH" then "Patch"
  else if method = "DELETE" then "Delete"
  else method

/-- The error `http.Client.Do` returns when it obtains no response: a
`*url.Error` around the cause, whose text is the operation, the quoted URL and
the cause. -/
def urlError (method url : String) (cause : GoError) : GoError :=
  .wrap (urlErrorOp method ++ " \"" ++ url ++ "\": ") cause

/-! ## Redirects (`http.Client.Do` with the default policy)

`NewClient` builds its `http.Client` without `CheckRedirect`, so `Do` follows
redirects as the library does by default. Modelled on `net/http`. -/

/-- What `Transport.RoundTrip` returns for one request, as far as
`http.Client.Do` reads it: the status code, the value of the `Location` header
(empty when there is none) and the body. -/
structure HopResponse where
  StatusCode : Int
  Location : String
  Body : Except GoError String

/-- What `http.Client.Do` works with below it. -/
structure Network where
  /-- The method `Transport.RoundTrip`: one request on the network. -/
  RoundTrip : Request → Except GoError HopResponse
  /-- The method `URL.Parse` of a request's URL on a `Location` value: the URL
  the value denotes, as text. -/
  resolve : String → String → Except GoError String
  /-- The header of a redirected request, from the first request, the request
  just answered and the new URL: the headers `Do` copies, and `Referer`. -/
  redirectHeader : Request → Request → String → Header

/-- The function `redirectBehavior` for a request built by
`http.NewRequestWithContext`, whose body, if any, can be read again: the method
of the next request, whether to redirect, and whether the body goes along. -/
def redirectBehavior (reqMethod : String) (status : Int) : String × Bool × Bool :=
  if status = 301 ∨ status = 302 ∨ status = 303 then
    (if reqMethod ≠ "GET" ∧ reqMethod ≠ "HEAD" then "GET" else reqMethod, true, false)
  else if status = 307 ∨ status = 308 then (reqMethod, true, true)
  else ("", false, false)

/-- One turn of the loop of `http.Client.Do`: the answer to return, or the
next request with whether it may carry the body and the `Location` value that
led to it. -/
inductive Turn where
  | done (result : Except GoError Response)
  | next (req : Request) (includeBody : Bool) (loc : String)

/-- Send one request and decide what follows: a failure of the round trip, an
answer that is no redirect or has no `Location`, a `Location` that does not
parse, or the redirected request. -/
def Network.turn (net : Network) (ireq req : Request) (includeBody : Bool) : Turn :=
  match net.RoundTrip req with
  | .error err => .done (.error (urlError ireq.Method req.URL err))
  | .ok resp =>
    if (redirectBehavior req.Method resp.StatusCode).2.1 = false ∨ resp.Location = "" then
      .done (.ok ⟨resp.StatusCode, resp.Body⟩)
    else
      match net.resolve req.URL resp.Location with
      | .error err =>
        .done (.error (urlError ireq.Method req.URL
          (.wrap ("failed to parse Location header \"" ++ resp.Location ++ "\": ") err)))
      | .ok url =>
        let includeBody := includeBody && (redirectBehavior req.Method resp.StatusCode).2.2
        .next
          { Method := (redirectBehavior req.Method resp.StatusCode).1
            URL := url
            Header := net.redirectHeader ireq req url
            Body := if includeBody then ireq.Body else none }
          includeBody resp.Location

/-- The loop of `http.Client.Do` with the default redirect policy, from the
request `req` on, with `allowed` redirects still allowed: the requests sent on
the network, in order, and what `Do` returns. -/
def Network.hops (net : Network) (ireq : Request) :
    Nat → Request → Bool → List Request × Except GoError Response
  | 0, req, includeBody =>
    match net.turn ireq req includeBody with
    | .done result => ([req], result)
    | .next _ _ loc =>
      ([req], .error (urlError ireq.Method loc (.new "stopped after 10 redirects")))
  | allowed + 1, req, includeBody =>
    match net.turn ireq req includeBody with
    | .done result => ([req], result)
    | .next nextReq includeBody _ =>
      (req :: (net.hops ireq allowed nextReq includeBody).1,
        (net.hops ireq allowed nextReq includeBody).2)

/-- The method `http.Client.Do` of a client with no `CheckRedirect`, as the
one `NewClient` builds: the default policy stops at the tenth redirect. -/
def Network.Do (net : Network) (req : Request) : Except GoError Response :=
  (net.hops req 9 req true).2

/-- The requests `http.Client.Do` sends on the network for one request. -/
def Network.outbound (net : Network) (req : Request) : List Request :=
  (net.hops req 9 req true).1

/-- The requests an operation makes on the network: those `http.Client.Do`
sends for each request the operation hands to it. -/
def Op.outbound (c : Client) (env : Env) (net : Network) (op : Op) : List Request :=
  (op.run c env).sent.flatMap net.outbound

/-! ## The request target (`net/url`)

`http.NewRequestWithContext` parses the URL text it is given, and the request
goes out with the target `URL.RequestURI` makes of it. Modelled on `net/url`,
for the part of the text that follows the scheme and authority; the client's
endpoint is taken to be a scheme and authority, as `DefaultEndpoint` is. -/

/-- The bytes of a character in UTF-8. -/
def utf8Bytes (c : Char) : List Nat :=
  if c.toNat < 128 then [c.toNat]
  else if c.toNat < 2048 then [192 + c.toNat / 64, 128 + c.toNat % 64]
  else if c.toNat < 65536 then
    [224 + c.toNat / 4096, 128 + c.toNat / 64 % 64, 128 + c.toNat % 64]
  else [240 + c.toNat / 262144, 128 + c.toNat / 4096 % 64, 128 + c.toNat / 64 % 64,
    128 + c.toNat % 64]

/-- The bytes of a Go string. -/
def goBytes (s : String) : List Nat :=
  s.data.flatMap utf8Bytes

/-- The text of a sequence of ASCII bytes. -/
def asciiText (bs : List Nat) : String :=
  String.mk (bs.map Char.ofNat)

/-- The function `ishex` of `net/url`. -/
def ishex (b : Nat) : Bool :=
  (48 ≤ b && b ≤ 57) || (97 ≤ b && b ≤ 102) || (65 ≤ b && b ≤ 70)

/-- The function `unhex` of `net/url`. -/
def unhex (b : Nat) : Nat :=
  if 48 ≤ b ∧ b ≤ 57 then b - 48
  else if 97 ≤ b ∧ b ≤ 102 then b - 97 + 10
  else if 65 ≤ b ∧ b ≤ 70 then b - 65 + 10
  else 0

/-- The byte of `"0123456789ABCDEF"` at an index below 16. -/
def upperhex (n : Nat) : Nat :=
  if n < 10 then 48 + n else 55 + n

/-- The function `shouldEscape` of `net/url` in the mode of a path: letters,
digits, `-`, `_`, `.`, `~` and the reserved characters other than `?` are left as
they are. -/
def shouldEscapePath (b : Nat) : Bool :=
  if (97 ≤ b ∧ b ≤ 122) ∨ (65 ≤ b ∧ b ≤ 90) ∨ (48 ≤ b ∧ b ≤ 57) then false
  else if b = 45 ∨ b = 95 ∨ b = 46 ∨ b = 126 then false
  else if b = 36 ∨ b = 38 ∨ b = 43 ∨ b = 44 ∨ b = 47 ∨ b = 58 ∨ b = 59 ∨ b = 61 ∨ b = 64 then
    false
  else true

/-- The function `unescape` of `net/url` in the mode of a path: `%` with two
hexadecimal digits is the byte they denote, any other `%` is an error. -/
def unescapePath : List Nat → Option (List Nat)
  | [] => some []
  | 37 :: h1 :: h2 :: rest =>
    if ishex h1 && ishex h2 then
      (unescapePath rest).map (fun p => (unhex h1 * 16 + unhex h2) :: p)
    else none
  | 37 :: _ => none
  | b :: rest => (unescapePath rest).map (fun p => b :: p)

/-- The function `escape` of `net/url` in the mode of a path: a byte that
should be escaped becomes `%` and its two upper-case hexadecimal digits. -/
def escapePath : List Nat → List Nat
  | [] => []
  | b :: rest =>
    if shouldEscapePath b then 37 :: upperhex (b / 16) :: upperhex (b % 16) :: escapePath rest
    else b :: escapePath rest

/-- The function `validEncoded` of `net/url` in the mode of a path. -/
def validEncodedPath (bs : List Nat) : Bool :=
  bs.all (fun b =>
    b = 33 || b = 36 || b = 38 || b = 39 || b = 40 || b = 41 || b = 42 || b = 43 || b = 44
      || b = 59 || b = 61 || b = 58 || b = 64 || b = 91 || b = 93 || b = 37
      || !shouldEscapePath b)

/-- The method `URL.EscapedPath` on the URL that `url.Parse` makes of a path:
`setPath` keeps the raw path when it is not the default encoding of its
unescaped form, and `EscapedPath` returns it when it is validly encoded,
else the default encoding. An escape that is not `%` and two hexadecimal
digits makes `url.Parse` fail. -/
def escapedPath (raw : List Nat) : Option (List Nat) :=
  match unescapePath raw with
  | none => none
  | some path =>
    let rawPath := if raw = escapePath path then [] else raw
    if rawPath ≠ [] ∧ validEncodedPath rawPath = true ∧ unescapePath rawPath = some path then
      some rawPath
    else if path = [42] then some [42]
    else some (escapePath path)

/-- The request target `http.NewRequestWithContext` and `URL.RequestURI`
make of the text that follows the scheme and authority of a URL, for a text
that starts with a slash: the fragment after `#` is dropped, a control
character makes `url.Parse` fail, the path before the first `?` is
re-escaped, and the query is kept as it is. -/
def requestURI (text : String) : Option String :=
  let u := (goBytes text).takeWhile (fun b => b != 35)
  if u.any (fun b => b < 32 || b = 127) then none
  else
    (escapedPath (u.takeWhile (fun b => b != 63))).map (fun p =>
      asciiText ((if p = [] then [47] else p) ++ u.dropWhile (fun b => b != 63)))

/-- A character that `net/url` leaves as it is in a path: a letter or digit of
ASCII, or one of `-`, `_`, `.`, `~`, `$`, `&`, `+`, `,`, `/`, `:`, `;`, `=`, `@`. -/
def pathSafe (c : Char) : Bool :=
  decide (c.toNat < 128) && !shouldEscapePath c.toNat

/-! ## Resources (`instance_resource.go`, `metadata_resource.go`,
`object_resource.go`)

A resource method reads the plan with `req.Plan.Get`, calls the client, and
writes the new state with `resp.State.Set`, which cannot fail on a model that
has the schema's attributes. A method returns the requests its client call
handed to the transport and the response as it leaves it, or `none` where the
Go code would dereference a nil pointer. -/

/-- The framework type `types.Int64`: null, unknown, or a known value. -/
inductive TFInt64 where
  | null
  | unknown
  | value (n : Int)
deriving DecidableEq, Repr

/-- The method `ValueInt64`: the known value, or zero. -/
def TFInt64.ValueInt64 : TFInt64 → Int
  | .value n => n
  | _ => 0

/-- The struct `InstanceResourceModel`. -/
structure InstanceResourceModel where
  ID : TFString
  ProjectID : TFString
  Name : TFString
  CPU : TFInt64
  MemoryMB : TFInt64
  Image : TFString
  Status : TFString
deriving DecidableEq, Repr

/-- The struct `MetadataResourceModel`. -/
structure MetadataResourceModel where
  ID : TFString
  Path : TFString
  Value : TFString
deriving DecidableEq, Repr

/-- The struct `ObjectResourceModel`. -/
structure ObjectResourceModel where
  ID : TFString
  BucketID : TFString
  Path : TFString
  Content : TFString
deriving DecidableEq, Repr

/-- What a resource method reads of `resource.UpdateRequest`: the outcome of
`req.Plan.Get(ctx, &data)` (its diagnostics and the decoded plan) and the prior
state, which the framework supplies as `req.State`. -/
structure UpdateRequest (M : Type) where
  Plan : List Diagnostic × M
  State : Option M

/-- What a resource method writes of its response: the diagnostics and the
state (`none` for a null state). -/
structure ResourceResponse (M : Type) where
  Diagnostics : List Diagnostic
  State : Option M

/-- The method `Diagnostics.AddError`. -/
def Diagnostics.AddError (ds : List Diagnostic) (summary detail : String) : List Diagnostic :=
  Diagnostics.Append ds [⟨true, summary, detail⟩]

/-- The struct `InstanceResource`, configured with a client. -/
structure InstanceResource where
  client : Client

/-- The struct `MetadataResource`, configured with a client. -/
structure MetadataResource where
  client : Client

/-- The struct `ObjectResource`, configured with a client. -/
structure ObjectResource where
  client : Client

/-- The method `InstanceResource.Update`. -/
def InstanceResource.Update (r : InstanceResource) (env : Env)
    (req : UpdateRequest InstanceResourceModel) (resp : ResourceResponse InstanceResourceModel) :
    List Request × Option (ResourceResponse InstanceResourceModel) :=
  let data := req.Plan.2
  let resp := { resp with Diagnostics := Diagnostics.Append resp.Diagnostics req.Plan.1 }
  if Diagnostics.HasError resp.Diagnostics then ([], some resp)
  else
    let name := data.Name.ValueString
    let cpu := data.CPU.ValueInt64
    let memoryMB := data.MemoryMB.ValueInt64
    let image := data.Image.ValueString
    let status := data.Status.ValueString
    let updateReq : UpdateInstanceRequest :=
      { Name := some name, CPU := some cpu, MemoryMB := some memoryMB, Image := some image,
        Status := some status }
    let call := r.client.UpdateInstance env data.ID.ValueString (some updateReq)
    match call.err with
    | some err =>
      (call.sent, some { resp with
        Diagnostics := Diagnostics.AddError resp.Diagnostics "Client Error"
          ("Unable to update instance: " ++ err.Error) })
    | none =>
      match call.value with
      | none => (call.sent, none)
      | some inst =>
        let data := { data with
          Name := .value inst.Name, CPU := .value inst.CPU, MemoryMB := .value inst.MemoryMB,
          Image := .value inst.Image, Status := .value inst.Status }
        (call.sent, some { resp with State := some data })

/-- The method `MetadataResource.Update`. -/
def MetadataResource.Update (r : MetadataResource) (env : Env)
    (req : UpdateRequest MetadataResourceModel) (resp : ResourceResponse MetadataResourceModel) :
    List Request × Option (ResourceResponse MetadataResourceModel) :=
  let data := req.Plan.2
  let resp := { resp with Diagnostics := Diagnostics.Append resp.Diagnostics req.Plan.1 }
  if Diagnostics.HasError resp.Diagnostics then ([], some resp)
  else
    let pathVal := data.Path.ValueString
    let value := data.Value.ValueString
    let updateReq : UpdateMetadataRequest := { Path := some pathVal, Value := some value }
    let call := r.client.UpdateMetadata env data.ID.ValueString (some updateReq)
    match call.err with
    | some err =>
      (call.sent, some { resp with
        Diagnostics := Diagnostics.AddError resp.Diagnostics "Client Error"
          ("Unable to update metadata: " ++ err.Error) })
    | none =>
      match call.value with
      | none => (call.sent, none)
      | some metadata =>
        let data := { data with Path := .value metadata.Path, Value := .value metadata.Value }
        (call.sent, some { resp with State := some data })

/-- The method `ObjectResource.Update`. -/
def ObjectResource.Update (r : ObjectResource) (env : Env)
    (req : UpdateRequest ObjectResourceModel) (resp : ResourceResponse ObjectResourceModel) :
    List Request × Option (ResourceResponse ObjectResourceModel) :=
  let data := req.Plan.2
  let resp := { resp with Diagnostics := Diagnostics.Append resp.Diagnostics req.Plan.1 }
  if Diagnostics.HasError resp.Diagnostics then ([], some resp)
  else
    let pathVal := data.Path.ValueString
    let content := data.Content.ValueString
    let updateReq : UpdateObjectRequest := { Path := some pathVal, Content := some content }
    let call :=
      r.client.UpdateObject env data.BucketID.ValueString data.ID.ValueString (some updateReq)
    match call.err with
    | some err =>
      (call.sent, some { resp with
        Diagnostics := Diagnostics.AddError resp.Diagnostics "Client Error"
          ("Unable to update object: " ++ err.Error) })
    | none =>
      match call.value with
      | none => (call.sent, none)
      | some object =>
        let data := { data with Path := .value object.Path, Content := .value object.Content }
        (call.sent, some { resp with State := some data })

/-! ## Resources, continued (`bucket_resource.go`, and the methods `Create`,
`Read` and `Delete` of the four resources)

`Create` reads the plan, `Read` and `Delete` read the prior state with
`req.State.Get`. `Delete` writes no state; the framework removes the state
after a `Delete` that reports no error. -/

/-- The struct `BucketResourceModel`. -/
structure BucketResourceModel where
  ID : TFString
  Name : TFString
deriving DecidableEq, Repr

/-- The struct `BucketResource`, configured with a client. -/
structure BucketResource where
  client : Client

/-- What a resource method reads of `resource.CreateRequest`: the outcome of
`req.Plan.Get(ctx, &data)`. -/
structure CreateRequest (M : Type) where
  Plan : List Diagnostic × M

/-- What a resource method reads of `resource.ReadRequest`: the outcome of
`req.State.Get(ctx, &data)`. -/
structure ReadRequest (M : Type) where
  State : List Diagnostic × M

/-- What a resource method reads of `resource.DeleteRequest`: the outcome of
`req.State.Get(ctx, &data)`. -/
structure DeleteRequest (M : Type) where
  State : List Diagnostic × M

/-- The method `InstanceResource.Create`. -/
def InstanceResource.Create (r : InstanceResource) (env : Env)
    (req : CreateRequest InstanceResourceModel) (resp : ResourceResponse InstanceResourceModel) :
    List Request × Option (ResourceResponse InstanceResourceModel) :=
  let data := req.Plan.2
  let resp := { resp with Diagnostics := Diagnostics.Append resp.Diagnostics req.Plan.1 }
  if Diagnostics.HasError resp.Diagnostics then ([], some resp)
  else
    let createReq : CreateInstanceRequest :=
      { ProjectID := data.ProjectID.ValueString, Name := data.Name.ValueString,
        CPU := data.CPU.ValueInt64, MemoryMB := data.MemoryMB.ValueInt64,
        Image := data.Image.ValueString, Status := data.Status.ValueString }
    let call := r.client.CreateInstance env (some createReq)
    match call.err with
    | some err =>
      (call.sent, some { resp with
        Diagnostics := Diagnostics.AddError resp.Diagnostics "Client Error"
          ("Unable to create instance: " ++ err.Error) })
    | none =>
      match call.value with
      | none => (call.sent, none)
      | some inst =>
        let data := { data with
          ID := .value inst.ID
          ProjectID := .value inst.ProjectID
          Name := .value inst.Name
          CPU := .value inst.CPU
          MemoryMB := .value inst.MemoryMB
          Image := .value inst.Image
          Status := .value inst.Status }
        (call.sent, some { resp with State := some data })

/-- The method `InstanceResource.Read`. -/
def InstanceResource.Read (r : InstanceResource) (env : Env)
    (req : ReadRequest InstanceResourceModel) (resp : ResourceResponse InstanceResourceModel) :
    List Request × Option (ResourceResponse InstanceResourceModel) :=
  let data := req.State.2
  let resp := { resp with Diagnostics := Diagnostics.Append resp.Diagnostics req.State.1 }
  if Diagnostics.HasError resp.Diagnostics then ([], some resp)
  else
    let call := r.client.GetInstance env data.ID.ValueString
    match call.err with
    | some err =>
      (call.sent, some { resp with
        Diagnostics := Diagnostics.AddError resp.Diagnostics "Client Error"
          ("Unable to read instance: " ++ err.Error) })
    | none =>
      match call.value with
      | none => (call.sent, none)
      | some inst =>
        let data := { data with
          ProjectID := .value inst.ProjectID
          Name := .value inst.Name
          CPU := .value inst.CPU
          MemoryMB := .value inst.MemoryMB
          Image := .value inst.Image
          Status := .value inst.Status }
        (call.sent, some { resp with State := some data })

/-- The method `InstanceResource.Delete`. -/
def InstanceResource.Delete (r : InstanceResource) (env : Env)
    (req : DeleteRequest InstanceResourceModel) (resp : ResourceResponse InstanceResourceModel) :
    List Request × Option (ResourceResponse InstanceResourceModel) :=
  let data := req.State.2
  let resp := { resp with Diagnostics := Diagnostics.Append resp.Diagnostics req.State.1 }
  if Diagnostics.HasError resp.Diagnostics then ([], some resp)
  else
    let call := r.client.DeleteInstance env data.ID.ValueString
    match call.err with
    | some err =>
      (call.sent, some { resp with
        Diagnostics := Diagnostics.AddError resp.Diagnostics "Client Error"
          ("Unable to delete instance: " ++ err.Error) })
    | none => (call.sent, some resp)

/-- The method `MetadataResource.Create`. -/
def MetadataResource.Create (r : MetadataResource) (env : Env)
    (req : CreateRequest MetadataResourceModel) (resp : ResourceResponse MetadataResourceModel) :
    List Request × Option (ResourceResponse MetadataResourceModel) :=
  let data := req.Plan.2
  let resp := { resp with Diagnostics := Diagnostics.Append resp.Diagnostics req.Plan.1 }
  if Diagnostics.HasError resp.Diagnostics then ([], some resp)
  else
    let call := r.client.CreateMetadata env data.Path.ValueString data.Value.ValueString
    match call.err with
    | some err =>
      (call.sent, some { resp with
        Diagnostics := Diagnostics.AddError resp.Diagnostics "Client Error"
          ("Unable to create metadata: " ++ err.Error) })
    | none =>
      match call.value with
      | none => (call.sent, none)
      | some metadata =>
        let data := { data with
          ID := .value metadata.ID
          Path := .value metadata.Path
          Value := .value metadata.Value }
        (call.sent, some { resp with State := some data })

/-- The method `MetadataResource.Read`. -/
def MetadataResource.Read (r : MetadataResource) (env : Env)
    (req : ReadRequest MetadataResourceModel) (resp : ResourceResponse MetadataResourceModel) :
    List Request × Option (ResourceResponse MetadataResourceModel) :=
  let data := req.State.2
  let resp := { resp with Diagnostics := Diagnostics.Append resp.Diagnostics req.State.1 }
  if Diagnostics.HasError resp.Diagnostics then ([], some resp)
  else
    let call := r.client.GetMetadata env data.ID.ValueString
    match call.err with
    | some err =>
      (call.sent, some { resp with
        Diagnostics := Diagnostics.AddError resp.Diagnostics "Client Error"
          ("Unable to read metadata: " ++ err.Error) })
    | none =>
      match call.value with
      | none => (call.sent, none)
      | some metadata =>
        let data := { data with
          Path := .value metadata.Path
          Value := .value metadata.Value }
        (call.sent, some { resp with State := some data })

/-- The method `MetadataResource.Delete`. -/
def MetadataResource.Delete (r : MetadataResource) (env : Env)
    (req : DeleteRequest MetadataResourceModel) (resp : ResourceResponse MetadataResourceModel) :
    List Request × Option (ResourceResponse MetadataResourceModel) :=
  let data := req.State.2
  let resp := { resp with Diagnostics := Diagnostics.Append resp.Diagnostics req.State.1 }
  if Diagnostics.HasError resp.Diagnostics then ([], some resp)
  else
    let call := r.client.DeleteMetadata env data.ID.ValueString
    match call.err with
    | some err =>
      (call.sent, some { resp with
        Diagnostics := Diagnostics.AddError resp.Diagnostics "Client Error"
          ("Unable to delete metadata: " ++ err.Error) })
    | none => (call.sent, some resp)

/-- The method `BucketResource.Create`. -/
def BucketResource.Create (r : BucketResource) (env : Env)
    (req : CreateRequest BucketResourceModel) (resp : ResourceResponse BucketResourceModel) :
    List Request × Option (ResourceResponse BucketResourceModel) :=
  let data := req.Plan.2
  let resp := { resp with Diagnostics := Diagnostics.Append resp.Diagnostics req.Plan.1 }
  if Diagnostics.HasError resp.Diagnostics then ([], some resp)
  else
    let call := r.client.CreateBucket env data.Name.ValueString
    match call.err with
    | some err =>
      (call.sent, some { resp with
        Diagnostics := Diagnostics.AddError resp.Diagnostics "Client Error"
          ("Unable to create bucket: " ++ err.Error) })
    | none =>
      match call.value with
      | none => (call.sent, none)
      | some bucket =>
        let data := { data with
          ID := .value bucket.ID
          Name := .value bucket.Name }
        (call.sent, some { resp with State := some data })

/-- The method `BucketResource.Read`. -/
def BucketResource.Read (r : BucketResource) (env : Env)
    (req : ReadRequest BucketResourceModel) (resp : ResourceResponse BucketResourceModel) :
    List Request × Option (ResourceResponse BucketResourceModel) :=
  let data := req.State.2
  let resp := { resp with Diagnostics := Diagnostics.Append resp.Diagnostics req.State.1 }
  if Diagnostics.HasError resp.Diagnostics then ([], some resp)
  else
    let call := r.client.GetBucket env data.ID.ValueString
    match call.err with
    | some err =>
      (call.sent, some { resp with
        Diagnostics := Diagnostics.AddError resp.Diagnostics "Client Error"
          ("Unable to read bucket: " ++ err.Error) })
    | none =>
      match call.value with
      | none => (call.sent, none)
      | some bucket =>
        let data := { data with
          Name := .value bucket.Name }
        (call.sent, some { resp with State := some data })

/-- The method `BucketResource.Update`. -/
def BucketResource.Update (r : BucketResource) (env : Env)
    (req : UpdateRequest BucketResourceModel) (resp : ResourceResponse BucketResourceModel) :
    List Request × Option (ResourceResponse BucketResourceModel) :=
  let data := req.Plan.2
  let resp := { resp with Diagnostics := Diagnostics.Append resp.Diagnostics req.Plan.1 }
  if Diagnostics.HasError resp.Diagnostics then ([], some resp)
  else
    let call := r.client.UpdateBucket env data.ID.ValueString data.Name.ValueString
    match call.err with
    | some err =>
      (call.sent, some { resp with
        Diagnostics := Diagnostics.AddError resp.Diagnostics "Client Error"
          ("Unable to update bucket: " ++ err.Error) })
    | none =>
      match call.value with
      | none => (call.sent, none)
      | some bucket =>
        let data := { data with
          Name := .value bucket.Name }
        (call.sent, some { resp with State := some data })

/-- The method `BucketResource.Delete`. -/
def BucketResource.Delete (r : BucketResource) (env : Env)
    (req : DeleteRequest BucketResourceModel) (resp : ResourceResponse BucketResourceModel) :
    List Request × Option (ResourceResponse BucketResourceModel) :=
  let data := req.State.2
  let resp := { resp with Diagnostics := Diagnostics.Append resp.Diagnostics req.State.1 }
  if Diagnostics.HasError resp.Diagnostics then ([], some resp)
  else
    let call := r.client.DeleteBucket env data.ID.ValueString
    match call.err with
    | some err =>
      (call.sent, some { resp with
        Diagnostics := Diagnostics.AddError resp.Diagnostics "Client Error"
          ("Unable to delete bucket: " ++ err.Error) })
    | none => (call.sent, some resp)

/-- The method `ObjectResource.Create`. -/
def ObjectResource.Create (r : ObjectResource) (env : Env)
    (req : CreateRequest ObjectResourceModel) (resp : ResourceResponse ObjectResourceModel) :
    List Request × Option (ResourceResponse ObjectResourceModel) :=
  let data := req.Plan.2
  let resp := { resp with Diagnostics := Diagnostics.Append resp.Diagnostics req.Plan.1 }
  if Diagnostics.HasError resp.Diagnostics then ([], some resp)
  else
    let createReq : CreateObjectRequest :=
      { Path := data.Path.ValueString, Content := data.Content.ValueString }
    let call := r.client.CreateObject env data.BucketID.ValueString (some createReq)
    match call.err with
    | some err =>
      (call.sent, some { resp with
        Diagnostics := Diagnostics.AddError resp.Diagnostics "Client Error"
          ("Unable to create object: " ++ err.Error) })
    | none =>
      match call.value with
      | none => (call.sent, none)
      | some object =>
        let data := { data with
          ID := .value object.ID
          BucketID := .value object.BucketID
          Path := .value object.Path
          Content := .value object.Content }
        (call.sent, some { resp with State := some data })

/-- The method `ObjectResource.Read`. -/
def ObjectResource.Read (r : ObjectResource) (env : Env)
    (req : ReadRequest ObjectResourceModel) (resp : ResourceResponse ObjectResourceModel) :
    List Request × Option (ResourceResponse ObjectResourceModel) :=
  let data := req.State.2
  let resp := { resp with Diagnostics := Diagnostics.Append resp.Diagnostics req.State.1 }
  if Diagnostics.HasError resp.Diagnostics then ([], some resp)
  else
    let call := r.client.GetObject env data.BucketID.ValueString data.ID.ValueString
    match call.err with
    | some err =>
      (call.sent, some { resp with
        Diagnostics := Diagnostics.AddError resp.Diagnostics "Client Error"
          ("Unable to read object: " ++ err.Error) })
    | none =>
      match call.value with
      | none => (call.sent, none)
      | some object =>
        let data := { data with
          BucketID := .value object.BucketID
          Path := .value object.Path
          Content := .value object.Content }
        (call.sent, some { resp with State := some data })

/-- The method `ObjectResource.Delete`. -/
def ObjectResource.Delete (r : ObjectResource) (env : Env)
    (req : DeleteRequest ObjectResourceModel) (resp : ResourceResponse ObjectResourceModel) :
    List Request × Option (ResourceResponse ObjectResourceModel) :=
  let data := req.State.2
  let resp := { resp with Diagnostics := Diagnostics.Append resp.Diagnostics req.State.1 }
  if Diagnostics.HasError resp.Diagnostics then ([], some resp)
  else
    let call := r.client.DeleteObject env data.BucketID.ValueString data.ID.ValueString
    match call.err with
    | some err =>
      (call.sent, some { resp with
        Diagnostics := Diagnostics.AddError resp.Diagnostics "Client Error"
          ("Unable to delete object: " ++ err.Error) })
    | none => (call.sent, some resp)

/-! ## Import (`ImportState` of the four resources)

Each resource's `ImportState` only calls the framework's
`resource.ImportStatePassthroughID` with the attribute path `id`, which writes
the identifier of the import request into the attribute `id` of the response's
state; the other attributes of a state that was null become null. -/

/-- What a resource method reads of `resource.ImportStateRequest`: the
identifier given to `terraform import`. -/
structure ImportStateRequest where
  ID : String
deriving DecidableEq, Repr

/-- The `InstanceResourceModel` of a null state: every attribute null. -/
def InstanceResourceModel.null : InstanceResourceModel :=
  ⟨.null, .null, .null, .null, .null, .null, .null⟩

/-- The `MetadataResourceModel` of a null state: every attribute null. -/
def MetadataResourceModel.null : MetadataResourceModel :=
  ⟨.null, .null, .null⟩

/-- The `BucketResourceModel` of a null state: every attribute null. -/
def BucketResourceModel.null : BucketResourceModel :=
  ⟨.null, .null⟩

/-- The `ObjectResourceModel` of a null state: every attribute null. -/
def ObjectResourceModel.null : ObjectResourceModel :=
  ⟨.null, .null, .null, .null⟩

/-- The method `InstanceResource.ImportState`, with the framework's
`ImportStatePassthroughID` at the path `id`. -/
def InstanceResource.ImportState (_ : InstanceResource) (req : ImportStateRequest)
    (resp : ResourceResponse InstanceResourceModel) : ResourceResponse InstanceResourceModel :=
  { resp with State := some { resp.State.getD InstanceResourceModel.null with ID := .value req.ID } }

/-- The method `MetadataResource.ImportState`, with the framework's
`ImportStatePassthroughID` at the path `id`. -/
def MetadataResource.ImportState (_ : MetadataResource) (req : ImportStateRequest)
    (resp : ResourceResponse MetadataResourceModel) : ResourceResponse MetadataResourceModel :=
  { resp with State := some { resp.State.getD MetadataResourceModel.null with ID := .value req.ID } }

/-- The method `BucketResource.ImportState`, with the framework's
`ImportStatePassthroughID` at the path `id`. -/
def BucketResource.ImportState (_ : BucketResource) (req : ImportStateRequest)
    (resp : ResourceResponse BucketResourceModel) : ResourceResponse BucketResourceModel :=
  { resp with State := some { resp.State.getD BucketResourceModel.null with ID := .value req.ID } }

/-- The method `ObjectResource.ImportState`, with the framework's
`ImportStatePassthroughID` at the path `id`. -/
def ObjectResource.ImportState (_ : ObjectResource) (req : ImportStateRequest)
    (resp : ResourceResponse ObjectResourceModel) : ResourceResponse ObjectResourceModel :=
  { resp with State := some { resp.State.getD ObjectResourceModel.null with ID := .value req.ID } }

/-! ## Timestamps as text (`time.Time.Format`, `time.Parse`)

Modelled on the Go standard library, for the elements of the one layout the
repository uses, `2006-01-02T15:04:05Z07:00`: a four-digit year, two-digit
month, day, hour, minute and second, and the zone as `Z` or as a signed
`hh:mm`. -/

/-- The elements of a layout that occur in the repository, under the names
the library gives them, and literal characters. -/
inductive LayoutElem where
  | stdLongYear
  | stdZeroMonth
  | stdZeroDay
  | stdHour
  | stdZeroMinute
  | stdZeroSecond
  | stdISO8601ColonTZ
  | text (c : Char)
deriving DecidableEq, Repr

/-- The layout every data source passes to `Format`. -/
def timeLayout : String := "2006-01-02T15:04:05Z07:00"

/-- The function `nextStdChunk`, repeated to the end of a layout: the elements
of the layout in order. Of the elements the library knows, those of the
repository's layout are recognised (`2006`, `01`, `02`, `15`, `04`, `05`,
`Z07:00`); any other character stands for itself. -/
def layoutElems : List Char → List LayoutElem
  | [] => []
  | '2' :: '0' :: '0' :: '6' :: rest => .stdLongYear :: layoutElems rest
  | '0' :: '1' :: rest => .stdZeroMonth :: layoutElems rest
  | '0' :: '2' :: rest => .stdZeroDay :: layoutElems rest
  | '1' :: '5' :: rest => .stdHour :: layoutElems rest
  | '0' :: '4' :: rest => .stdZeroMinute :: layoutElems rest
  | '0' :: '5' :: rest => .stdZeroSecond :: layoutElems rest
  | 'Z' :: '0' :: '7' :: ':' :: '0' :: '0' :: rest => .stdISO8601ColonTZ :: layoutElems rest
  | c :: rest => .text c :: layoutElems rest

/-- The function `isLeap`. -/
def isLeap (year : Int) : Bool :=
  decide (year % 4 = 0 ∧ (year % 100 ≠ 0 ∨ year % 400 = 0))

/-- The table `daysBefore`: the days of a common year before the month with
the given index counted from zero; index 12 holds the length of the year. -/
def daysBefore (i : Int) : Int :=
  if i ≤ 0 then 0
  else if i = 1 then 31
  else if i = 2 then 59
  else if i = 3 then 90
  else if i = 4 then 120
  else if i = 5 then 151
  else if i = 6 then 181
  else if i = 7 then 212
  else if i = 8 then 243
  else if i = 9 then 273
  else if i = 10 then 304
  else if i = 11 then 334
  else 365

/-- The function `daysIn`: the length of a month, from 1 to 12, in a year. -/
def daysIn (month year : Int) : Int :=
  if month = 2 ∧ isLeap year = true then 29 else daysBefore month - daysBefore (month - 1)

/-- Days from 0001-01-01 to the first day of a year. -/
def daysBeforeYear (year : Int) : Int :=
  365 * (year - 1) + (year - 1) / 4 - (year - 1) / 100 + (year - 1) / 400

/-- The function `Date` in UTC, in seconds since 0001-01-01T00:00:00Z, for
fields in their ranges. -/
def dateSeconds (year month day hour min sec : Int) : Int :=
  (daysBeforeYear year + daysBefore (month - 1)
      + (if isLeap year = true ∧ month ≥ 3 then 1 else 0) + (day - 1)) * 86400
    + hour * 3600 + min * 60 + sec

/-- The year and the day within the year, counted from zero, of a day counted
from 0001-01-01, as `absDate` computes them: cut off cycles of 400, 100 and 4
years, then single years. -/
def yearDay (days : Int) : Int × Int :=
  let n400 := days / 146097
  let d1 := days - 146097 * n400
  let n100 := d1 / 36524 - d1 / 36524 / 4
  let d2 := d1 - 36524 * n100
  let n4 := d2 / 1461
  let d3 := d2 - 1461 * n4
  let n1 := d3 / 365 - d3 / 365 / 4
  let d4 := d3 - 365 * n1
  (400 * n400 + 100 * n100 + 4 * n4 + n1 + 1, d4)

/-- The month, from 1 to 12, and the day of the month of a day within a year,
as `absDate` computes them: the leap day apart, estimate the month as if all
had 31 days and correct the estimate by at most one. -/
def monthDay (year yday : Int) : Int × Int :=
  if isLeap year = true ∧ yday = 59 then (2, 29)
  else
    let day := if isLeap year = true ∧ yday > 59 then yday - 1 else yday
    let month := day / 31
    if day ≥ daysBefore (month + 1) then (month + 2, day - daysBefore (month + 1) + 1)
    else (month + 1, day - daysBefore month + 1)

/-- The function `appendInt`: the decimal digits of a number, with a minus
sign if it is negative, padded with zeros to a width. -/
def appendInt (x : Int) (width : Nat) : List Char :=
  (if x < 0 then ['-'] else [])
    ++ List.replicate (width - (Nat.toDigits 10 x.natAbs).length) '0'
    ++ Nat.toDigits 10 x.natAbs

/-- The zone of the layout element `Z07:00`: `Z` for the offset zero, else the
sign and the offset's whole minutes as `hh:mm`. -/
def zoneText (offset : Int) : List Char :=
  if offset = 0 then ['Z']
  else
    let zone := Int.tdiv offset 60
    if zone < 0 then '-' :: (appendInt (-zone / 60) 2 ++ ':' :: appendInt (-zone % 60) 2)
    else '+' :: (appendInt (zone / 60) 2 ++ ':' :: appendInt (zone % 60) 2)

/-- What `Format` writes for one element of a layout. The nanoseconds of the
time enter none of these elements. -/
def Time.elemText (t : Time) : LayoutElem → List Char
  | .stdLongYear => appendInt (yearDay ((t.sec + t.offset) / 86400)).1 4
  | .stdZeroMonth =>
    appendInt (monthDay (yearDay ((t.sec + t.offset) / 86400)).1
      (yearDay ((t.sec + t.offset) / 86400)).2).1 2
  | .stdZeroDay =>
    appendInt (monthDay (yearDay ((t.sec + t.offset) / 86400)).1
      (yearDay ((t.sec + t.offset) / 86400)).2).2 2
  | .stdHour => appendInt ((t.sec + t.offset) % 86400 / 3600) 2
  | .stdZeroMinute => appendInt ((t.sec + t.offset) % 86400 % 3600 / 60) 2
  | .stdZeroSecond => appendInt ((t.sec + t.offset) % 86400 % 60) 2
  | .stdISO8601ColonTZ => zoneText t.offset
  | .text c => [c]

/-- The method `Time.Format`: the texts of the elements of the layout. -/
def Time.Format (t : Time) (layout : String) : String :=
  String.mk ((layoutElems layout.data).flatMap t.elemText)

/-- The function `getnum`: a number of two digits, or of one digit when the
width is not fixed and no second digit follows. -/
def getnum (fixed : Bool) : List Char → Option (Int × List Char)
  | [] => none
  | [a] => if isDigit a && !fixed then some ((a.toNat - 48 : Nat), []) else none
  | a :: b :: rest =>
    if isDigit a then
      if isDigit b then some (((a.toNat - 48) * 10 + (b.toNat - 48) : Nat), rest)
      else if fixed then none
      else some ((a.toNat - 48 : Nat), b :: rest)
    else none

/-- The four digits of the layout element `2006`. -/
def getYear : List Char → Option (Int × List Char)
  | a :: b :: c :: d :: rest =>
    if isDigit a && isDigit b && isDigit c && isDigit d then
      some ((digitsValue [a, b, c, d] : Nat), rest)
    else none
  | _ => none

/-- A literal character of the layout. -/
def expectChar (c : Char) : List Char → Option (List Char)
  | a :: rest => if a = c then some rest else none
  | [] => none

/-- A fractional second in the value where the layout has none: a period or
comma and digits, of which nine count. -/
def getFraction : List Char → Nat × List Char
  | sep :: d :: rest =>
    if (sep = '.' ∨ sep = ',') ∧ isDigit d = true then
      let ds := d :: (rest.span isDigit).1
      (digitsValue (ds.take 9) * 10 ^ (9 - (ds.take 9).length), (rest.span isDigit).2)
    else (0, sep :: d :: rest)
  | rest => (0, rest)

/-- The zone of the layout element `Z07:00` in a value: the offset in seconds
and what follows. -/
def getZone : List Char → Option (Int × List Char)
  | 'Z' :: rest => some (0, rest)
  | sign :: h1 :: h2 :: ':' :: m1 :: m2 :: rest =>
    match getnum true [h1, h2], getnum true [m1, m2] with
    | some (hr, _), some (mm, _) =>
      if hr > 24 ∨ mm > 60 then none
      else if sign = '+' then some ((hr * 60 + mm) * 60, rest)
      else if sign = '-' then some (-((hr * 60 + mm) * 60), rest)
      else none
    | _, _ => none
  | _ => none

/-- The function `time.Parse` at the layout `timeLayout`; `none` stands for
its error. -/
def parseTimeLayout (value : String) : Option Time :=
  match getYear value.data with
  | none => none
  | some (year, r1) =>
  match (expectChar '-' r1).bind (getnum true) with
  | none => none
  | some (month, r2) =>
  match (expectChar '-' r2).bind (getnum true) with
  | none => none
  | some (day, r3) =>
  match (expectChar 'T' r3).bind (getnum false) with
  | none => none
  | some (hour, r4) =>
  match (expectChar ':' r4).bind (getnum true) with
  | none => none
  | some (min, r5) =>
  match (expectChar ':' r5).bind (getnum true) with
  | none => none
  | some (sec, r6) =>
  match getZone (getFraction r6).2 with
  | none => none
  | some (offset, r7) =>
    if r7 ≠ [] then none
    else if month < 1 ∨ 12 < month then none
    else if 24 ≤ hour ∨ 60 ≤ min ∨ 60 ≤ sec then none
    else if day < 1 ∨ day > daysIn month year then none
    else some ⟨dateSeconds year month day hour min sec - offset, (getFraction r6).1, offset⟩

/-- A timestamp as RFC 3339 text can denote it: nanoseconds below a second, a
zone offset of whole minutes below 24 hours, and a year from 0 to 9999 in that
zone. -/
def Time.isRFC3339 (t : Time) : Bool :=
  decide (t.nsec < 1000000000 ∧ t.offset % 60 = 0 ∧ -86400 < t.offset ∧ t.offset < 86400
    ∧ daysBeforeYear 0 * 86400 ≤ t.sec + t.offset
    ∧ t.sec + t.offset < daysBeforeYear 10000 * 86400)

/-! ## Data sources (`*_data_source.go`)

A data source reads its configuration with `req.Config.Get`, fetches the
entity with the client and writes the state with `resp.State.Set`. The
conventions are those of the resources. -/

/-- The struct `ProjectDataSourceModel`. -/
structure ProjectDataSourceModel where
  ID : TFString
  Name : TFString
  CreatedAt : TFString
  UpdatedAt : TFString
deriving DecidableEq, Repr

/-- The struct `InstanceDataSourceModel`. -/
structure InstanceDataSourceModel where
  ID : TFString
  ProjectID : TFString
  Name : TFString
  CPU : TFInt64
  MemoryMB : TFInt64
  Image : TFString
  Status : TFString
  CreatedAt : TFString
  UpdatedAt : TFString
deriving DecidableEq, Repr

/-- The struct `MetadataDataSourceModel`. -/
structure MetadataDataSourceModel where
  ID : TFString
  Path : TFString
  Value : TFString
  CreatedAt : TFString
  UpdatedAt : TFString
deriving DecidableEq, Repr

/-- The struct `BucketDataSourceModel`. -/
structure BucketDataSourceModel where
  ID : TFString
  Name : TFString
  CreatedAt : TFString
  UpdatedAt : TFString
deriving DecidableEq, Repr

/-- The struct `ObjectDataSourceModel`. -/
structure ObjectDataSourceModel where
  ID : TFString
  BucketID : TFString
  Path : TFString
  Content : TFString
  CreatedAt : TFString
  UpdatedAt : TFString
deriving DecidableEq, Repr

/-- The struct `ProjectDataSource`, configured with a client. -/
structure ProjectDataSource where
  client : Client

/-- The struct `InstanceDataSource`, configured with a client. -/
structure InstanceDataSource where
  client : Client

/-- The struct `MetadataDataSource`, configured with a client. -/
structure MetadataDataSource where
  client : Client

/-- The struct `BucketDataSource`, configured with a client. -/
structure BucketDataSource where
  client : Client

/-- The struct `ObjectDataSource`, configured with a client. -/
structure ObjectDataSource where
  client : Client

/-- The method `ProjectDataSource.Read`; `config` is what
`req.Config.Get(ctx, &data)` yields. -/
def ProjectDataSource.Read (d : ProjectDataSource) (env : Env)
    (config : List Diagnostic × ProjectDataSourceModel)
    (resp : ResourceResponse ProjectDataSourceModel) :
    List Request × Option (ResourceResponse ProjectDataSourceModel) :=
  let data := config.2
  let resp := { resp with Diagnostics := Diagnostics.Append resp.Diagnostics config.1 }
  if Diagnostics.HasError resp.Diagnostics then ([], some resp)
  else
    let call := d.client.GetProject env data.ID.ValueString
    match call.err with
    | some err =>
      (call.sent, some { resp with
        Diagnostics := Diagnostics.AddError resp.Diagnostics "Client Error"
          ("Unable to read project: " ++ err.Error) })
    | none =>
      match call.value with
      | none => (call.sent, none)
      | some project =>
        let data := { data with
          Name := .value project.Name
          CreatedAt := .value (project.CreatedAt.Format "2006-01-02T15:04:05Z07:00")
          UpdatedAt := .value (project.UpdatedAt.Format "2006-01-02T15:04:05Z07:00") }
        (call.sent, some { resp with State := some data })

/-- The method `InstanceDataSource.Read`. -/
def InstanceDataSource.Read (d : InstanceDataSource) (env : Env)
    (config : List Diagnostic × InstanceDataSourceModel)
    (resp : ResourceResponse InstanceDataSourceModel) :
    List Request × Option (ResourceResponse InstanceDataSourceModel) :=
  let data := config.2
  let resp := { resp with Diagnostics := Diagnostics.Append resp.Diagnostics config.1 }
  if Diagnostics.HasError resp.Diagnostics then ([], some resp)
  else
    let call := d.client.GetInstance env data.ID.ValueString
    match call.err with
    | some err =>
      (call.sent, some { resp with
        Diagnostics := Diagnostics.AddError resp.Diagnostics "Client Error"
          ("Unable to read instance: " ++ err.Error) })
    | none =>
      match call.value with
      | none => (call.sent, none)
      | some inst =>
        let data := { data with
          ProjectID := .value inst.ProjectID
          Name := .value inst.Name
          CPU := .value inst.CPU
          MemoryMB := .value inst.MemoryMB
          Image := .value inst.Image
          Status := .value inst.Status
          CreatedAt := .value (inst.CreatedAt.Format "2006-01-02T15:04:05Z07:00")
          UpdatedAt := .value (inst.UpdatedAt.Format "2006-01-02T15:04:05Z07:00") }
        (call.sent, some { resp with State := some data })

/-- The method `MetadataDataSource.Read`. -/
def MetadataDataSource.Read (d : MetadataDataSource) (env : Env)
    (config : List Diagnostic × MetadataDataSourceModel)
    (resp : ResourceResponse MetadataDataSourceModel) :
    List Request × Option (ResourceResponse MetadataDataSourceModel) :=
  let data := config.2
  let resp := { resp with Diagnostics := Diagnostics.Append resp.Diagnostics config.1 }
  if Diagnostics.HasError resp.Diagnostics then ([], some resp)
  else
    let call := d.client.GetMetadata env data.ID.ValueString
    match call.err with
    | some err =>
      (call.sent, some { resp with
        Diagnostics := Diagnostics.AddError resp.Diagnostics "Client Error"
          ("Unable to read metadata: " ++ err.Error) })
    | none =>
      match call.value with
      | none => (call.sent, none)
      | some metadata =>
        let data := { data with
          Path := .value metadata.Path
          Value := .value metadata.Value
          CreatedAt := .value (metadata.CreatedAt.Format "2006-01-02T15:04:05Z07:00")
          UpdatedAt := .value (metadata.UpdatedAt.Format "2006-01-02T15:04:05Z07:00") }
        (call.sent, some { resp with State := some data })

/-- The method `BucketDataSource.Read`. -/
def BucketDataSource.Read (d : BucketDataSource) (env : Env)
    (config : List Diagnostic × BucketDataSourceModel)
    (resp : ResourceResponse BucketDataSourceModel) :
    List Request × Option (ResourceResponse BucketDataSourceModel) :=
  let data := config.2
  let resp := { resp with Diagnostics := Diagnostics.Append resp.Diagnostics config.1 }
  if Diagnostics.HasError resp.Diagnostics then ([], some resp)
  else
    let call := d.client.GetBucket env data.ID.ValueString
    match call.err with
    | some err =>
      (call.sent, some { resp with
        Diagnostics := Diagnostics.AddError resp.Diagnostics "Client Error"
          ("Unable to read bucket: " ++ err.Error) })
    | none =>
      match call.value with
      | none => (call.sent, none)
      | some bucket =>
        let data := { data with
          Name := .value bucket.Name
          CreatedAt := .value (bucket.CreatedAt.Format "2006-01-02T15:04:05Z07:00")
          UpdatedAt := .value (bucket.UpdatedAt.Format "2006-01-02T15:04:05Z07:00") }
        (call.sent, some { resp with State := some data })

/-- The method `ObjectDataSource.Read`. -/
def ObjectDataSource.Read (d : ObjectDataSource) (env : Env)
    (config : List Diagnostic × ObjectDataSourceModel)
    (resp : ResourceResponse ObjectDataSourceModel) :
    List Request × Option (ResourceResponse ObjectDataSourceModel) :=
  let data := config.2
  let resp := { resp with Diagnostics := Diagnostics.Append resp.Diagnostics config.1 }
  if Diagnostics.HasError resp.Diagnostics then ([], some resp)
  else
    let call := d.client.GetObject env data.BucketID.ValueString data.ID.ValueString
    match call.err with
    | some err =>
      (call.sent, some { resp with
        Diagnostics := Diagnostics.AddError resp.Diagnostics "Client Error"
          ("Unable to read object: " ++ err.Error) })
    | none =>
      match call.value with
      | none => (call.sent, none)
      | some object =>
        let data := { data with
          Path := .value object.Path
          Content := .value object.Content
          CreatedAt := .value (object.CreatedAt.Format "2006-01-02T15:04:05Z07:00")
          UpdatedAt := .value (object.UpdatedAt.Format "2006-01-02T15:04:05Z07:00") }
        (call.sent, some { resp with State := some data })

/-! ## Sample surroundings for concrete evaluations -/

/-- Surroundings in which no environment variable is set, every request can
be constructed, the server answers every request with `resp`, and no
timestamp parses. -/
def answering (resp : Response) : Env :=
  { getenv := fun _ => ""
    newRequestError := fun _ _ => none
    Do := fun _ => .ok resp
    parseTime := fun _ => .error (.new "parsing time: not modelled") }

/-- Surroundings in which the transport fails with `err` on every request. -/
def failing (err : GoError) : Env :=
  { getenv := fun _ => ""
    newRequestError := fun _ _ => none
    Do := fun _ => .error err
    parseTime := fun _ => .error (.new "parsing time: not modelled") }

/-- Surroundings in which `NAH_ENDPOINT` and `NAH_TOKEN` are set. -/
def withEnvironment : Env :=
  { answering ⟨200, .ok ""⟩ with
    getenv := fun name =>
      if name = "NAH_ENDPOINT" then "http://from-env" else
      if name = "NAH_TOKEN" then "env-token" else "" }

/-- Surroundings like `answering resp` in which a timestamp is parsed by
`parseTimeLayout`. -/
def readingTimes (resp : Response) : Env :=
  { answering resp with
    parseTime := fun raw =>
      match parseTimeLayout raw with
      | some t => .ok t
      | none => .error (.new "parsing time: not in the layout") }

/-- A network on which `/v1/projects/p1` has moved to `/v1/projects/p2`. -/
def movedNetwork : Network :=
  { RoundTrip := fun req =>
      if req.URL = "http://nah/v1/projects/p1" then .ok ⟨302, "/v1/projects/p2", .ok ""⟩
      else .ok ⟨200, "", .ok "\x7b\"id\":\"p2\"\x7d"⟩
    resolve := fun _ loc => .ok ("http://nah" ++ loc)
    redirectHeader := fun ireq _ _ => ireq.Header }

/-- A network that answers every request with the status 503. -/
def busyNetwork : Network :=
  { RoundTrip := fun _ => .ok ⟨503, "", .ok "busy"⟩
    resolve := fun _ loc => .ok loc
    redirectHeader := fun ireq _ _ => ireq.Header }

/-- Surroundings like `answering` whose `http.Client.Do` works on a network. -/
def onNetwork (net : Network) : Env :=
  { answering ⟨200, .ok ""⟩ with Do := net.Do }

/-! # Theorems -/

/-! ## Auxiliary facts -/

/-- Encoding the entries of a `map[string]string`. -/
theorem encodeEntries_strings (entries : List (String × String)) :
    encodeEntries (entries.map (fun e => (e.1, GoValue.string e.2)))
      = entries.map (fun e => (e.1, Except.ok (jsonString e.2))) := by
  induction entries with
  | nil => rfl
  | cons e es ih =>
    rcases e with ⟨k, v⟩
    simp only [List.map_cons, encodeEntries, GoValue.encode, ih]

/-- Inserting by key commutes with a map that keeps the keys. -/
theorem insertByKey_map {α : Type} (g : String → α) (e : String × String)
    (es : List (String × String)) :
    insertByKey (e.1, g e.2) (es.map (fun x => (x.1, g x.2)))
      = (insertEntry e es).map (fun x => (x.1, g x.2)) := by
  induction es with
  | nil => rfl
  | cons x xs ih =>
    simp only [List.map_cons, insertByKey, insertEntry]
    split_ifs
    · rfl
    · simp only [List.map_cons, ih]

/-- Sorting by key commutes with a map that keeps the keys. -/
theorem sortByKey_map {α : Type} (g : String → α) (es : List (String × String)) :
    sortByKey (es.map (fun x => (x.1, g x.2))) = (sortEntries es).map (fun x => (x.1, g x.2)) := by
  induction es with
  | nil => rfl
  | cons e es ih =>
    simp only [List.map_cons, sortByKey, sortEntries, ih]
    exact insertByKey_map g e (sortEntries es)

/-- Members that all have a value are collected without error. -/
theorem collectMembers_ok (h : String → JSON) (es : List (String × String)) :
    collectMembers (es.map (fun x => (x.1, Except.ok (h x.2))))
      = .ok (es.map (fun x => (x.1, h x.2))) := by
  induction es with
  | nil => rfl
  | cons e es ih =>
    rcases e with ⟨k, v⟩
    simp only [List.map_cons, collectMembers, ih]

/-- The encoder succeeds on every payload, with the JSON value `toJSON`. -/
theorem encode_payload (body : Payload) : body.toValue.encode = .ok body.toJSON := by
  cases body with
  | nil => rfl
  | stringMap entries =>
    simp only [Payload.toValue, GoValue.encode, encodeEntries_strings,
      sortByKey_map (fun v => Except.ok (jsonString v)), collectMembers_ok jsonString,
      Payload.toJSON, List.map_map]
    rfl
  | createInstance req =>
    cases req with
    | none => rfl
    | some r =>
      simp only [Payload.toValue, Option.map, GoValue.encode, CreateInstanceRequest.toValue,
        encodeFields, GoValue.isEmptyValue, Bool.false_and, Bool.true_and, Payload.toJSON,
        pointerJSON, CreateInstanceRequest.members, omitEmpty]
      by_cases h : len r.Status = 0 <;> simp [h, collectMembers]
  | updateInstance req =>
    cases req with
    | none => rfl
    | some r =>
      rcases r with ⟨a, b, c, d, e⟩
      cases a <;> cases b <;> cases c <;> cases d <;> cases e <;> rfl
  | updateMetadata req =>
    cases req with
    | none => rfl
    | some r =>
      rcases r with ⟨a, b⟩
      cases a <;> cases b <;> rfl
  | createObject req =>
    cases req with
    | none => rfl
    | some r => rfl
  | updateObject req =>
    cases req with
    | none => rfl
    | some r =>
      rcases r with ⟨a, b⟩
      cases a <;> cases b <;> rfl

/-- The function `json.Marshal` returns the text of `toJSON` on every
payload. -/
theorem jsonMarshal_eq (body : Payload) : jsonMarshal body = .ok body.toJSON.render := by
  simp only [jsonMarshal, encode_payload]

/-- The encoder does refuse values: a channel has no JSON value, also inside
a struct. -/
theorem encode_refuses :
    GoValue.chan.encode = .error (unsupportedType "chan")
      ∧ (GoValue.struct [("name", false, .string "x"), ("done", true, .chan)]).encode
        = .error (unsupportedType "chan") := by
  exact ⟨rfl, rfl⟩

/-- Only the empty string has length zero. -/
theorem len_eq_zero_iff (s : String) : len s = 0 ↔ s = "" := by
  rcases s with ⟨cs⟩
  cases cs with
  | nil => simp [len, String.utf8ByteSize, String.utf8ByteSize.go]
  | cons c cs =>
    have h := Char.utf8Size_pos c
    have hne : (⟨c :: cs⟩ : String) ≠ "" := by
      intro h2
      have h3 := congrArg String.data h2
      simp at h3
    simp only [len, String.utf8ByteSize, String.utf8ByteSize.go]
    constructor
    · intro h1; omega
    · intro h1; exact absurd h1 hne

/-- A call of `doRequest` either fails to construct the request, or hands the one
request `Client.request` to the transport and returns the transport's answer. -/
theorem doRequest_eq (c : Client) (env : Env) (method path : String) (body : Payload) :
    c.doRequest env method path body =
      match env.newRequestError method (c.endpoint ++ path) with
      | some err => ([], .error (.wrap "failed to create request: " err))
      | none => ([c.request method path body], env.Do (c.request method path body)) := by
  cases hnew : env.newRequestError method (c.endpoint ++ path) with
  | some err => cases body <;> simp [Client.doRequest, jsonMarshal_eq, hnew]
  | none =>
    by_cases htok : c.token = ""
    · cases body <;>
        simp [Client.doRequest, jsonMarshal_eq, hnew, htok, Header.Set, Client.request]
    · cases body <;>
        simp [Client.doRequest, jsonMarshal_eq, hnew, htok, Header.Set, Client.request]

/-- The request carries the one `Content-Type` value `application/json`. -/
theorem request_contentType (c : Client) (method path : String) (body : Payload) :
    Header.Values (c.request method path body).Header "Content-Type" = ["application/json"] := by
  by_cases htok : c.token = "" <;> simp [Client.request, Header.Values, htok] 

/-- The `Authorization` values of the request. -/
theorem request_authorization (c : Client) (method path : String) (body : Payload) :
    Header.Values (c.request method path body).Header "Authorization" =
      if c.token = "" then [] else ["Bearer " ++ c.token] := by
  by_cases htok : c.token = "" <;> simp [Client.request, Header.Values, htok] 

/-- Every operation is one call of `doRequest` with the method, path and payload
of the operation, followed by `handleResponse` on the answer. -/
theorem op_run_eq (c : Client) (env : Env) (op : Op) :
    ∃ (α : Type) (unmarshal : String → α → Option GoError × α) (result : Option α),
      result.isSome = !op.isDelete ∧
      op.run c env =
        (match c.doRequest env op.specMethod op.specPath op.payload with
          | (sent, .error err) => ⟨sent, some err⟩
          | (sent, .ok resp) => ⟨sent, (handleResponse unmarshal resp result).1⟩) := by
  cases op
  all_goals first
    | exact ⟨_, noTarget, none, rfl, rfl⟩
    | (refine ⟨_, Project.unmarshal env, some Project.zero, rfl, ?_⟩
       simp only [Op.run, Client.CreateProject, Client.GetProject, Client.UpdateProject,
         Op.specMethod, Op.specPath, Op.payload]
       generalize c.doRequest env _ _ _ = r
       rcases r with ⟨sent, err | resp⟩
       · rfl
       · simp only []
         rcases handleResponse (Project.unmarshal env) resp (some Project.zero)
           with ⟨_ | e, t⟩ <;> rfl)
    | (refine ⟨_, Instance.unmarshal env, some Instance.zero, rfl, ?_⟩
       simp only [Op.run, Client.CreateInstance, Client.GetInstance, Client.UpdateInstance,
         Op.specMethod, Op.specPath, Op.payload]
       generalize c.doRequest env _ _ _ = r
       rcases r with ⟨sent, err | resp⟩
       · rfl
       · simp only []
         rcases handleResponse (Instance.unmarshal env) resp (some Instance.zero)
           with ⟨_ | e, t⟩ <;> rfl)
    | (refine ⟨_, Metadata.unmarshal env, some Metadata.zero, rfl, ?_⟩
       simp only [Op.run, Client.CreateMetadata, Client.GetMetadata, Client.UpdateMetadata,
         Op.specMethod, Op.specPath, Op.payload]
       generalize c.doRequest env _ _ _ = r
       rcases r with ⟨sent, err | resp⟩
       · rfl
       · simp only []
         rcases handleResponse (Metadata.unmarshal env) resp (some Metadata.zero)
           with ⟨_ | e, t⟩ <;> rfl)
    | (refine ⟨_, Bucket.unmarshal env, some Bucket.zero, rfl, ?_⟩
       simp only [Op.run, Client.CreateBucket, Client.GetBucket, Client.UpdateBucket,
         Op.specMethod, Op.specPath, Op.payload]
       generalize c.doRequest env _ _ _ = r
       rcases r with ⟨sent, err | resp⟩
       · rfl
       · simp only []
         rcases handleResponse (Bucket.unmarshal env) resp (some Bucket.zero)
           with ⟨_ | e, t⟩ <;> rfl)
    | (refine ⟨_, Object.unmarshal env, some Object.zero, rfl, ?_⟩
       simp only [Op.run, Client.CreateObject, Client.GetObject, Client.UpdateObject,
         Op.specMethod, Op.specPath, Op.payload]
       generalize c.doRequest env _ _ _ = r
       rcases r with ⟨sent, err | resp⟩
       · rfl
       · simp only []
         rcases handleResponse (Object.unmarshal env) resp (some Object.zero)
           with ⟨_ | e, t⟩ <;> rfl)

/-- The error of `handleResponse` on a readable body with status 400 or more. -/
theorem handleResponse_api {α : Type} (unmarshal : String → α → Option GoError × α)
    (resp : Response) (body : String) (result : Option α)
    (hbody : resp.Body = .ok body) (hstatus : resp.StatusCode ≥ 400) :
    handleResponse unmarshal resp result =
      (some (.new ("API error (status " ++ formatInt resp.StatusCode ++ "): " ++ body)), result) := by
  simp [handleResponse, hbody, hstatus]

/-- Status below 400 and no target: nil. -/
theorem handleResponse_nil {α : Type} (unmarshal : String → α → Option GoError × α)
    (resp : Response) (body : String)
    (hbody : resp.Body = .ok body) (hstatus : resp.StatusCode < 400) :
    handleResponse unmarshal resp none = (none, none) := by
  have h : ¬ resp.StatusCode ≥ 400 := by omega
  simp [handleResponse, hbody, h]

/-- Status below 400 and an empty body: nil, target untouched. -/
theorem handleResponse_empty {α : Type} (unmarshal : String → α → Option GoError × α)
    (resp : Response) (body : String) (target : α)
    (hbody : resp.Body = .ok body) (hstatus : resp.StatusCode < 400) (hlen : len body = 0) :
    handleResponse unmarshal resp (some target) = (none, some target) := by
  have h : ¬ resp.StatusCode ≥ 400 := by omega
  simp [handleResponse, hbody, h, hlen]

/-- Status below 400, a body, and a decoder that succeeds. -/
theorem handleResponse_decoded {α : Type} (unmarshal : String → α → Option GoError × α)
    (resp : Response) (body : String) (target target1 : α)
    (hbody : resp.Body = .ok body) (hstatus : resp.StatusCode < 400) (hlen : len body > 0)
    (hdec : unmarshal body target = (none, target1)) :
    handleResponse unmarshal resp (some target) = (none, some target1) := by
  have h : ¬ resp.StatusCode ≥ 400 := by omega
  simp [handleResponse, hbody, h, hlen, hdec]

/-- Status below 400, a body, and a decoder that fails. -/
theorem handleResponse_undecoded {α : Type} (unmarshal : String → α → Option GoError × α)
    (resp : Response) (body : String) (target target1 : α) (err : GoError)
    (hbody : resp.Body = .ok body) (hstatus : resp.StatusCode < 400) (hlen : len body > 0)
    (hdec : unmarshal body target = (some err, target1)) :
    handleResponse unmarshal resp (some target) =
      (some (.wrap "failed to unmarshal response: " err), some target1) := by
  have h : ¬ resp.StatusCode ≥ 400 := by omega
  simp [handleResponse, hbody, h, hlen, hdec]

/-- A body that cannot be read. -/
theorem handleResponse_unread {α : Type} (unmarshal : String → α → Option GoError × α)
    (resp : Response) (err : GoError) (result : Option α) (hbody : resp.Body = .error err) :
    handleResponse unmarshal resp result =
      (some (.wrap "failed to read response body: " err), result) := by
  simp [handleResponse, hbody]

/-- An operation whose request the transport answered returns the error of
`handleResponse` on the answer. -/
theorem op_run_answered (c : Client) (env : Env) (op : Op) (resp : Response)
    (hsent : (op.run c env).sent ≠ [])
    (hdo : ∀ req ∈ (op.run c env).sent, env.Do req = .ok resp) :
    ∃ (α : Type) (unmarshal : String → α → Option GoError × α) (result : Option α),
      result.isSome = !op.isDelete ∧
      (op.run c env).err = (handleResponse unmarshal resp result).1 := by
  obtain ⟨α, unmarshal, result, hres, hrun⟩ := op_run_eq c env op
  refine ⟨α, unmarshal, result, hres, ?_⟩
  rw [doRequest_eq] at hrun
  cases hnew : env.newRequestError op.specMethod (c.endpoint ++ op.specPath) with
  | some err =>
    rw [hnew] at hrun
    simp only [] at hrun
    rw [hrun] at hsent
    exact absurd rfl hsent
  | none =>
    rw [hnew] at hrun
    simp only [] at hrun
    have h1 : env.Do (c.request op.specMethod op.specPath op.payload) = .ok resp := by
      apply hdo
      rw [hrun]
      cases env.Do (c.request op.specMethod op.specPath op.payload) <;> simp
    rw [h1] at hrun
    rw [hrun]

/-- The API error is not of the decoding form. -/
theorem apiError_not_decoding (code body : String) :
    isDecodingError (.new ("API error (status " ++ code ++ "): " ++ body)) = false := by
  simp [isDecodingError, startsWith, GoError.Error, String.data_append, List.isPrefixOf]

/-- The API error is of the API form. -/
theorem apiError_isAPIError (code body : String) :
    isAPIError (.new ("API error (status " ++ code ++ "): " ++ body)) = true := by
  simp [isAPIError, startsWith, GoError.Error, String.data_append, List.isPrefixOf]

/-- The read error is not of the decoding form. -/
theorem readError_not_decoding (err : GoError) :
    isDecodingError (.wrap "failed to read response body: " err) = false := by
  simp [isDecodingError, startsWith, GoError.Error, String.data_append, List.isPrefixOf]

/-- The decoding error is of the decoding form. -/
theorem decodingError_isDecodingError (err : GoError) :
    isDecodingError (.wrap "failed to unmarshal response: " err) = true := by
  simp [isDecodingError, startsWith, GoError.Error, String.data_append, List.isPrefixOf]

/-- The decoding error is not of the API form. -/
theorem decodingError_not_api (err : GoError) :
    isAPIError (.wrap "failed to unmarshal response: " err) = false := by
  simp [isAPIError, startsWith, GoError.Error, String.data_append, List.isPrefixOf]

/-- An operation whose request the transport failed on returns the
transport's error. -/
theorem op_run_failed (c : Client) (env : Env) (op : Op) (terr : GoError)
    (hsent : (op.run c env).sent ≠ [])
    (hdo : ∀ req ∈ (op.run c env).sent, env.Do req = .error terr) :
    (op.run c env).err = some terr := by
  obtain ⟨α, unmarshal, result, _, hrun⟩ := op_run_eq c env op
  rw [doRequest_eq] at hrun
  cases hnew : env.newRequestError op.specMethod (c.endpoint ++ op.specPath) with
  | some err =>
    rw [hnew] at hrun
    simp only [] at hrun
    rw [hrun] at hsent
    exact absurd rfl hsent
  | none =>
    rw [hnew] at hrun
    simp only [] at hrun
    have h1 : env.Do (c.request op.specMethod op.specPath op.payload) = .error terr := by
      apply hdo
      rw [hrun]
      cases env.Do (c.request op.specMethod op.specPath op.payload) <;> simp
    rw [h1] at hrun
    rw [hrun]

/-- The requests an operation hands to the transport are those of its one
call of `doRequest`. -/
theorem op_sent (c : Client) (env : Env) (op : Op) :
    (op.run c env).sent = (c.doRequest env op.specMethod op.specPath op.payload).1 := by
  obtain ⟨α, unmarshal, result, _, hrun⟩ := op_run_eq c env op
  rw [hrun]
  rcases c.doRequest env op.specMethod op.specPath op.payload with ⟨sent, err | resp⟩ <;> rfl

/-- The requests `doRequest` hands to the transport. -/
theorem doRequest_sent (c : Client) (env : Env) (method path : String) (body : Payload) :
    (c.doRequest env method path body).1 =
      if env.newRequestError method (c.endpoint ++ path) = none then
        [c.request method path body]
      else [] := by
  rw [doRequest_eq]
  cases env.newRequestError method (c.endpoint ++ path) <;> simp

/-- Without a token no header of the request is named `Authorization`. -/
theorem request_no_authorization (c : Client) (method path : String) (body : Payload)
    (htok : c.token = "") :
    ∀ kv ∈ (c.request method path body).Header, kv.1 ≠ "Authorization" := by
  intro kv hkv
  simp [Client.request, htok] at hkv
  rw [hkv]
  decide

/-- With a token exactly one header of the request is named `Authorization`. -/
theorem request_one_authorization (c : Client) (method path : String) (body : Payload)
    (htok : c.token ≠ "") :
    (c.request method path body).Header.filter (fun kv => kv.1 == "Authorization")
      = [("Authorization", ["Bearer " ++ c.token])] := by
  simp [Client.request, htok, List.filter]

/-- Any request of `doRequest` is `Client.request`. -/
theorem mem_doRequest_sent (c : Client) (env : Env) (method path : String) (body : Payload)
    (req : Request) (hreq : req ∈ (c.doRequest env method path body).1) :
    req = c.request method path body := by
  rw [doRequest_sent] at hreq
  split at hreq
  · simpa using hreq
  · simp at hreq

/-- The members of a marshalled `UpdateInstanceRequest`. -/
theorem updateInstance_members (r : UpdateInstanceRequest) :
    r.members.lookup "name" = r.Name.map jsonString
      ∧ r.members.lookup "cpu" = r.CPU.map jsonInt
      ∧ r.members.lookup "memory_mb" = r.MemoryMB.map jsonInt
      ∧ r.members.lookup "image" = r.Image.map jsonString
      ∧ r.members.lookup "status" = r.Status.map jsonString
      ∧ (∀ k ∈ r.members.map Prod.fst, k ∈ ["name", "cpu", "memory_mb", "image", "status"])
      ∧ (r.members.map Prod.fst).Nodup := by
  rcases r with ⟨n, c, m, i, s⟩
  cases n <;> cases c <;> cases m <;> cases i <;> cases s <;>
    simp [UpdateInstanceRequest.members, omitNil, List.lookup]

/-- The members of a marshalled `UpdateMetadataRequest`. -/
theorem updateMetadata_members (r : UpdateMetadataRequest) :
    r.members.lookup "path" = r.Path.map jsonString
      ∧ r.members.lookup "value" = r.Value.map jsonString
      ∧ (∀ k ∈ r.members.map Prod.fst, k ∈ ["path", "value"])
      ∧ (r.members.map Prod.fst).Nodup := by
  rcases r with ⟨p, v⟩
  cases p <;> cases v <;> simp [UpdateMetadataRequest.members, omitNil, List.lookup]

/-- The members of a marshalled `UpdateObjectRequest`. -/
theorem updateObject_members (r : UpdateObjectRequest) :
    r.members.lookup "path" = r.Path.map jsonString
      ∧ r.members.lookup "content" = r.Content.map jsonString
      ∧ (∀ k ∈ r.members.map Prod.fst, k ∈ ["path", "content"])
      ∧ (r.members.map Prod.fst).Nodup := by
  rcases r with ⟨p, v⟩
  cases p <;> cases v <;> simp [UpdateObjectRequest.members, omitNil, List.lookup]

/-- The one request of an operation, when it sends one. -/
theorem mem_op_sent (c : Client) (env : Env) (op : Op) (req : Request)
    (hreq : req ∈ (op.run c env).sent) :
    req = c.request op.specMethod op.specPath op.payload := by
  rw [op_sent] at hreq
  exact mem_doRequest_sent c env _ _ _ req hreq

/-- A hexadecimal digit has the value it was written for. -/
theorem hexVal_hexDigit (n : Nat) (h : n < 16) : hexVal (hexDigit n) = n := by
  interval_cases n <;> decide

/-- A character other than the backslash stands for itself. -/
theorem unquoteChars_plain (c : Char) (cs : List Char) (h : c ≠ '\\') :
    unquoteChars 0 (c :: cs) = c :: unquoteChars 0 cs := by
  rw [unquoteChars.eq_def]
  split <;> simp_all

/-- A `\u` escape outside the surrogate range stands for its code point. -/
theorem unquoteChars_u4 (a b c d : Char) (cs : List Char)
    (h : ¬ (0xD800 ≤ hex4 a b c d ∧ hex4 a b c d < 0xE000)) :
    unquoteChars 0 ('\\' :: 'u' :: a :: b :: c :: d :: cs)
      = Char.ofNat (hex4 a b c d) :: unquoteChars 0 cs := by
  rw [unquoteChars.eq_def]
  simp only []
  rw [if_neg h]

/-- The escape written for a code point below 256 has that value. -/
theorem hex4_low (n : Nat) (h : n < 256) :
    hex4 '0' '0' (hexDigit (n / 16)) (hexDigit (n % 16)) = n := by
  have h1 := hexVal_hexDigit (n / 16) (by omega)
  have h2 := hexVal_hexDigit (n % 16) (by omega)
  have h0 : hexVal '0' = 0 := by decide
  simp only [hex4, h1, h2, h0]
  omega

/-- The escape written for U+2028 and U+2029 has that value. -/
theorem hex4_line (n : Nat) (h : n = 0x2028 ∨ n = 0x2029) :
    hex4 '2' '0' '2' (hexDigit (n % 16)) = n := by
  rcases h with h | h <;> subst h <;> decide

/-- What `quoteChar` writes for a character is read back as that character. -/
theorem unquoteChars_quoteChar (c : Char) (cs : List Char) :
    unquoteChars 0 (quoteChar c ++ cs) = c :: unquoteChars 0 cs := by
  unfold quoteChar
  split_ifs with h1 h2 h3 h4 h5 h6 h7 h8
  · rcases h1 with h | h <;> subst h <;> simp [unquoteChars]
  · subst h2; simp [unquoteChars]
  · subst h3; simp [unquoteChars]
  · subst h4; simp [unquoteChars]
  · subst h5; simp [unquoteChars]
  · subst h6; simp [unquoteChars]
  · have hn : c.toNat < 256 := by
      rcases h7 with h | h | h | h
      · omega
      · subst h; decide
      · subst h; decide
      · subst h; decide
    have hv := hex4_low c.toNat hn
    simp only [List.cons_append, List.nil_append]
    rw [unquoteChars_u4 _ _ _ _ _ (by rw [hv]; omega), hv, Char.ofNat_toNat]
  · have hv := hex4_line c.toNat h8
    simp only [List.cons_append, List.nil_append]
    rw [unquoteChars_u4 _ _ _ _ _ (by rw [hv]; omega), hv, Char.ofNat_toNat]
  · have hc : c ≠ '\\' := fun h => h1 (Or.inl h)
    simpa using unquoteChars_plain c cs hc

/-- Reading back what `json.Marshal` wrote for a string gives the string. -/
theorem unquote_quote (s : String) : unquote (quote s) = s := by
  rcases s with ⟨cs⟩
  simp only [unquote, quote]
  congr 1
  induction cs with
  | nil => rfl
  | cons c cs ih =>
    rw [List.flatMap_cons, unquoteChars_quoteChar, ih]

/-- Each decimal digit character is a digit with its own value. -/
theorem digitChar_digit (d : Nat) (h : d < 10) :
    isDigit (Nat.digitChar d) = true ∧ (Nat.digitChar d).toNat - 48 = d
      ∧ Nat.digitChar d ≠ '-' := by
  interval_cases d <;> decide

/-- Reading digits from an accumulator shifts the accumulator. -/
theorem digits_foldl_shift (ds : List Char) (acc : Nat) :
    ds.foldl (fun a c => 10 * a + (c.toNat - 48)) acc
      = acc * 10 ^ ds.length + digitsValue ds := by
  unfold digitsValue
  induction ds generalizing acc with
  | nil => simp
  | cons c cs ih =>
    simp only [List.foldl_cons, List.length_cons]
    rw [ih (10 * acc + (c.toNat - 48)), ih (10 * 0 + (c.toNat - 48))]
    ring

/-- The digits `Nat.toDigitsCore` puts before `ds`, given enough fuel, are
digits that denote `n`. -/
theorem toDigitsCore_value (fuel n : Nat) (ds : List Char) (hfuel : n < fuel)
    (hds : ds.all isDigit = true) :
    (Nat.toDigitsCore 10 fuel n ds).all isDigit = true
      ∧ digitsValue (Nat.toDigitsCore 10 fuel n ds) = n * 10 ^ ds.length + digitsValue ds
      ∧ Nat.toDigitsCore 10 fuel n ds ≠ []
      ∧ (Nat.toDigitsCore 10 fuel n ds).head? ≠ some '-' := by
  induction fuel generalizing n ds with
  | zero => omega
  | succ fuel ih =>
    have hd := digitChar_digit (n % 10) (Nat.mod_lt _ (by decide))
    have hcons : (Nat.digitChar (n % 10) :: ds).all isDigit = true := by
      simp only [List.all_cons, hd.1, hds, Bool.and_self]
    have hval : digitsValue (Nat.digitChar (n % 10) :: ds)
        = (n % 10) * 10 ^ ds.length + digitsValue ds := by
      rw [digitsValue, List.foldl_cons, digits_foldl_shift, hd.2.1]
      ring
    unfold Nat.toDigitsCore
    by_cases h0 : n / 10 = 0
    · simp only [h0, if_true]
      refine ⟨hcons, ?_, by simp, ?_⟩
      · rw [hval]
        have : n % 10 = n := by omega
        rw [this]
      · simp only [List.head?_cons]
        intro h
        exact hd.2.2 (Option.some.inj h)
    · simp only [h0, if_false]
      have hlt : n / 10 < fuel := by omega
      obtain ⟨h1, h2, h3, h4⟩ := ih (n / 10) (Nat.digitChar (n % 10) :: ds) hlt hcons
      refine ⟨h1, ?_, h3, h4⟩
      rw [h2, hval, List.length_cons, pow_succ]
      have hn : n = 10 * (n / 10) + n % 10 := (Nat.div_add_mod n 10).symm
      generalize digitsValue ds = v
      generalize 10 ^ ds.length = p
      generalize n / 10 = q at hn ⊢
      generalize n % 10 = r at hn ⊢
      subst hn
      ring

/-- The decimal text of a natural number: digits that denote it. -/
theorem repr_value (n : Nat) :
    (Nat.repr n).data.all isDigit = true
      ∧ digitsValue (Nat.repr n).data = n
      ∧ (Nat.repr n).data ≠ []
      ∧ (Nat.repr n).data.head? ≠ some '-' := by
  have h := toDigitsCore_value (n + 1) n [] (by omega) rfl
  simpa [Nat.repr, Nat.toDigits, List.asString, digitsValue] using h

/-- A literal that does not begin with a minus sign has none to split off. -/
theorem splitSign_unsigned (ds : List Char) (h : ds.head? ≠ some '-') :
    splitSign ds = (false, ds) := by
  unfold splitSign
  split
  · exact absurd rfl h
  · rfl

/-- Reading back what `json.Marshal` wrote for an `int` gives the `int`. -/
theorem parseInt_formatInt (n : Int) (hlo : -(2 ^ 63 : Int) ≤ n) (hhi : n < (2 ^ 63 : Int)) :
    parseInt (formatInt n) = some n := by
  cases n with
  | ofNat m =>
    obtain ⟨h1, h2, h3, h4⟩ := repr_value m
    simp only [parseInt, formatInt, splitSign_unsigned _ h4, h1, h2]
    simp [h3]
    have hlo1 : -(2 ^ 63 : Int) ≤ (m : Int) := hlo
    have hhi1 : (m : Int) < (2 ^ 63 : Int) := hhi
    refine ⟨?_, ?_⟩
    · omega
    · omega
  | negSucc m =>
    obtain ⟨h1, h2, h3, h4⟩ := repr_value (m + 1)
    have hdata : ("-" ++ Nat.repr (m + 1)).data = '-' :: (Nat.repr (m + 1)).data := by
      rw [String.data_append]; rfl
    simp only [parseInt, formatInt, hdata, splitSign, h1, h2]
    simp [h3]
    have hneg : Int.negSucc m = -1 + -(m : Int) := by
      rw [Int.negSucc_eq]; ring
    rw [hneg] at hlo
    refine ⟨⟨?_, ?_⟩, hneg.symm⟩
    · omega
    · omega

/-! ## The claims -/

/-- C1: a response with status 400 or more and a readable body makes
`handleResponse` return the error whose message is exactly
`API error (status <code>): <raw body>`, for any body, any decoder and any
result target (which it leaves untouched); the error is not of the decoding
form; and every client operation whose request was answered by such a response
returns an error with that same message. -/
theorem C1_api_error_carries_status_and_body {α : Type}
    (unmarshal : String → α → Option GoError × α) (resp : Response) (body : String)
    (result : Option α) (c : Client) (env : Env) (op : Op)
    (hbody : resp.Body = .ok body) (hstatus : resp.StatusCode ≥ 400) :
    (handleResponse unmarshal resp result).1.map GoError.Error =
        some ("API error (status " ++ formatInt resp.StatusCode ++ "): " ++ body)
      ∧ (handleResponse unmarshal resp result).2 = result
      ∧ (∀ err, (handleResponse unmarshal resp result).1 = some err →
          isDecodingError err = false ∧ isAPIError err = true)
      ∧ ((op.run c env).sent ≠ [] →
          (∀ req ∈ (op.run c env).sent, env.Do req = .ok resp) →
          (op.run c env).err.map GoError.Error =
            some ("API error (status " ++ formatInt resp.StatusCode ++ "): " ++ body)) := by
  refine ⟨?_, ?_, ?_, ?_⟩
  · rw [handleResponse_api unmarshal resp body result hbody hstatus]
    rfl
  · rw [handleResponse_api unmarshal resp body result hbody hstatus]
  · intro err herr
    rw [handleResponse_api unmarshal resp body result hbody hstatus] at herr
    have h : err = .new ("API error (status " ++ formatInt resp.StatusCode ++ "): " ++ body) := by
      simpa using herr.symm
    rw [h]
    exact ⟨apiError_not_decoding _ _, apiError_isAPIError _ _⟩
  · intro hsent hdo
    obtain ⟨β, um, res, _, hrun⟩ := op_run_answered c env op resp hsent hdo
    rw [hrun, handleResponse_api um resp body res hbody hstatus]
    rfl

/-- C1, at a concrete input: status 500 with an HTML body, seen by
`handleResponse` with a `Project` target and by `GetProject`. -/
theorem C1_witness :
    (handleResponse (Project.unmarshal (answering ⟨500, .ok "<html>boom</html>"⟩))
        ⟨500, .ok "<html>boom</html>"⟩ (some Project.zero)).1.map GoError.Error
        = some "API error (status 500): <html>boom</html>"
      ∧ ((Op.GetProject "p1").run (NewClient "" "secret")
          (answering ⟨500, .ok "<html>boom</html>"⟩)).err.map GoError.Error
        = some "API error (status 500): <html>boom</html>" :=
  have h := C1_api_error_carries_status_and_body
    (Project.unmarshal (answering ⟨500, .ok "<html>boom</html>"⟩))
    ⟨500, .ok "<html>boom</html>"⟩ "<html>boom</html>" (some Project.zero)
    (NewClient "" "secret") (answering ⟨500, .ok "<html>boom</html>"⟩) (Op.GetProject "p1")
    rfl (by decide)
  ⟨h.1.trans (by decide), (h.2.2.2 (by decide) (fun _ _ => rfl)).trans (by decide)⟩

/-- C2 as stated fails: status 200 is below 400 and the body is readable and
non-empty, yet with a `Project` target `handleResponse` does not succeed on a
body that is not JSON; it returns the decoding error. -/
theorem C2_counterexample :
    (200 : Int) < 400 ∧ len "not json" > 0 ∧
      (handleResponse (Project.unmarshal (answering ⟨200, .ok "not json"⟩))
        ⟨200, .ok "not json"⟩ (some Project.zero)).1
        = some (.wrap "failed to unmarshal response: " (.new "json: syntax error")) := by
  decide

/-- C2, amended: for a readable body, a status below 400 never gives an API
error. With a target and a non-empty body the decoder runs once on the body
and the target: if it succeeds `handleResponse` returns nil and the target
holds the decoding, if it fails the result is not nil. With an empty body, or
without a target, `handleResponse` returns nil and leaves the target as it
was. The boundary is exactly 400: from 400 on the result is an error. -/
theorem C2_success_below_400 {α : Type} (unmarshal : String → α → Option GoError × α)
    (resp : Response) (body : String) (hbody : resp.Body = .ok body) :
    (resp.StatusCode < 400 →
        (∀ target target1, len body > 0 → unmarshal body target = (none, target1) →
          handleResponse unmarshal resp (some target) = (none, some target1))
        ∧ (∀ target target1 err, len body > 0 → unmarshal body target = (some err, target1) →
          (handleResponse unmarshal resp (some target)).1
            = some (.wrap "failed to unmarshal response: " err))
        ∧ (∀ target, len body = 0 →
          handleResponse unmarshal resp (some target) = (none, some target))
        ∧ handleResponse unmarshal resp none = (none, none)
        ∧ (∀ result err, (handleResponse unmarshal resp result).1 = some err →
          isAPIError err = false))
      ∧ (resp.StatusCode ≥ 400 → ∀ result,
          ∃ err, (handleResponse unmarshal resp result).1 = some err ∧ isAPIError err = true) := by
  constructor
  · intro hstatus
    refine ⟨?_, ?_, ?_, ?_, ?_⟩
    · intro target target1 hlen hdec
      exact handleResponse_decoded unmarshal resp body target target1 hbody hstatus hlen hdec
    · intro target target1 err hlen hdec
      rw [handleResponse_undecoded unmarshal resp body target target1 err hbody hstatus hlen hdec]
    · intro target hlen
      exact handleResponse_empty unmarshal resp body target hbody hstatus hlen
    · exact handleResponse_nil unmarshal resp body hbody hstatus
    · intro result err herr
      cases result with
      | none =>
        rw [handleResponse_nil unmarshal resp body hbody hstatus] at herr
        simp at herr
      | some target =>
        by_cases hlen : len body > 0
        · rcases hdec : unmarshal body target with ⟨_ | cause, target1⟩
          · rw [handleResponse_decoded unmarshal resp body target target1 hbody hstatus hlen hdec]
              at herr
            simp at herr
          · rw [handleResponse_undecoded unmarshal resp body target target1 cause hbody hstatus
              hlen hdec] at herr
            have h : err = .wrap "failed to unmarshal response: " cause := by
              simpa using herr.symm
            rw [h]
            exact decodingError_not_api cause
        · have hz : len body = 0 := by omega
          rw [handleResponse_empty unmarshal resp body target hbody hstatus hz] at herr
          simp at herr
  · intro hstatus result
    refine ⟨_, ?_, apiError_isAPIError (formatInt resp.StatusCode) body⟩
    rw [handleResponse_api unmarshal resp body result hbody hstatus]

/-- C2 amended, at concrete inputs: status 399 with a JSON body fills the
target, status 399 with an empty body leaves it, status 400 is an error. -/
theorem C2_witness :
    handleResponse (Project.unmarshal (answering ⟨399, .ok ""⟩))
        ⟨399, .ok "\x7b\"id\":\"p1\",\"name\":\"demo\"\x7d"⟩ (some Project.zero)
        = (none, some { Project.zero with ID := "p1", Name := "demo" })
      ∧ handleResponse (Project.unmarshal (answering ⟨399, .ok ""⟩)) ⟨399, .ok ""⟩
        (some Project.zero) = (none, some Project.zero)
      ∧ ∃ err, (handleResponse (Project.unmarshal (answering ⟨399, .ok ""⟩)) ⟨400, .ok ""⟩
        (some Project.zero)).1 = some err ∧ isAPIError err = true :=
  ⟨((C2_success_below_400 (Project.unmarshal (answering ⟨399, .ok ""⟩))
      ⟨399, .ok "\x7b\"id\":\"p1\",\"name\":\"demo\"\x7d"⟩ _ rfl).1 (by decide)).1
      Project.zero { Project.zero with ID := "p1", Name := "demo" } (by decide) (by decide),
    ((C2_success_below_400 (Project.unmarshal (answering ⟨399, .ok ""⟩))
      ⟨399, .ok ""⟩ _ rfl).1 (by decide)).2.2.1 Project.zero (by decide),
    (C2_success_below_400 (Project.unmarshal (answering ⟨399, .ok ""⟩))
      ⟨400, .ok ""⟩ _ rfl).2 (by decide) (some Project.zero)⟩

/-- C3: on a response with status below 400, a non-empty readable body that
the JSON decoder rejects for the target, and a non-nil target,
`handleResponse` returns the decoder's error wrapped behind
`failed to unmarshal response: `; this error has the decoding form and not the
API form. Conversely an error of the decoding form comes out of
`handleResponse` only in that situation (not from a read failure, not from a
status of 400 or more). And when the transport fails, an operation returns the
transport's own error: nothing is decoded and nothing is wrapped. -/
theorem C3_decoding_error_only_on_bad_body {α : Type}
    (unmarshal : String → α → Option GoError × α) :
    (∀ (resp : Response) (body : String) (target target1 : α) (cause : GoError),
        resp.Body = .ok body → resp.StatusCode < 400 → len body > 0 →
        unmarshal body target = (some cause, target1) →
        (handleResponse unmarshal resp (some target)).1
            = some (.wrap "failed to unmarshal response: " cause)
          ∧ (GoError.wrap "failed to unmarshal response: " cause).Error
            = "failed to unmarshal response: " ++ cause.Error
          ∧ isDecodingError (.wrap "failed to unmarshal response: " cause) = true
          ∧ isAPIError (.wrap "failed to unmarshal response: " cause) = false)
      ∧ (∀ (resp : Response) (result : Option α) (err : GoError),
          (handleResponse unmarshal resp result).1 = some err → isDecodingError err = true →
          ∃ body target cause, resp.Body = .ok body ∧ resp.StatusCode < 400
            ∧ len body > 0 ∧ result = some target
            ∧ (unmarshal body target).1 = some cause
            ∧ err = .wrap "failed to unmarshal response: " cause)
      ∧ (∀ (c : Client) (env : Env) (op : Op) (terr : GoError),
          (op.run c env).sent ≠ [] →
          (∀ req ∈ (op.run c env).sent, env.Do req = .error terr) →
          (op.run c env).err = some terr) := by
  refine ⟨?_, ?_, ?_⟩
  · intro resp body target target1 cause hbody hstatus hlen hdec
    refine ⟨?_, rfl, decodingError_isDecodingError cause, decodingError_not_api cause⟩
    rw [handleResponse_undecoded unmarshal resp body target target1 cause hbody hstatus hlen hdec]
  · intro resp1 result err herr hform
    rcases hb : resp1.Body with rerr | body1
    · rw [handleResponse_unread unmarshal resp1 rerr result hb] at herr
      have h : err = .wrap "failed to read response body: " rerr := by simpa using herr.symm
      rw [h, readError_not_decoding] at hform
      exact absurd hform (by decide)
    · by_cases hs : resp1.StatusCode ≥ 400
      · rw [handleResponse_api unmarshal resp1 body1 result hb hs] at herr
        have h : err = .new ("API error (status " ++ formatInt resp1.StatusCode ++ "): "
            ++ body1) := by
          simpa using herr.symm
        rw [h, apiError_not_decoding] at hform
        exact absurd hform (by decide)
      · have hs1 : resp1.StatusCode < 400 := by omega
        cases result with
        | none =>
          rw [handleResponse_nil unmarshal resp1 body1 hb hs1] at herr
          simp at herr
        | some target2 =>
          by_cases hl : len body1 > 0
          · rcases hd : unmarshal body1 target2 with ⟨_ | cause1, target3⟩
            · rw [handleResponse_decoded unmarshal resp1 body1 target2 target3 hb hs1 hl hd] at herr
              simp at herr
            · rw [handleResponse_undecoded unmarshal resp1 body1 target2 target3 cause1 hb hs1 hl
                hd] at herr
              refine ⟨body1, target2, cause1, rfl, hs1, hl, rfl, by rw [hd], ?_⟩
              simpa using herr.symm
          · have hz : len body1 = 0 := by omega
            rw [handleResponse_empty unmarshal resp1 body1 target2 hb hs1 hz] at herr
            simp at herr
  · intro c env op terr hsent hdo
    exact op_run_failed c env op terr hsent hdo

/-- C3, at concrete inputs: status 200 with a body that is JSON of the wrong
shape for a `Project` (the identifier is a number) gives the decoding error,
and a failing transport gives its own error back from `CreateBucket`. -/
theorem C3_witness :
    (handleResponse (Project.unmarshal (answering ⟨200, .ok ""⟩))
        ⟨200, .ok "\x7b\"id\":7\x7d"⟩ (some Project.zero)).1.map GoError.Error
      = some ("failed to unmarshal response: json: cannot unmarshal number into Go struct "
          ++ "field Project.id of type string")
      ∧ ((Op.CreateBucket "logs").run (NewClient "" "") (failing (.new "dial tcp: refused"))).err
        = some (.new "dial tcp: refused") :=
  ⟨(congrArg (Option.map GoError.Error)
    ((C3_decoding_error_only_on_bad_body (Project.unmarshal (answering ⟨200, .ok ""⟩))).1
      ⟨200, .ok "\x7b\"id\":7\x7d"⟩ "\x7b\"id\":7\x7d" Project.zero Project.zero
      (.new ("json: cannot unmarshal number into Go struct field Project.id of type string"))
      rfl (by decide) (by decide) (by decide)).1).trans (by decide),
    (C3_decoding_error_only_on_bad_body (Project.unmarshal (answering ⟨200, .ok ""⟩))).2.2
      (NewClient "" "") (failing (.new "dial tcp: refused")) (Op.CreateBucket "logs")
      (.new "dial tcp: refused") (by decide) (fun _ _ => rfl)⟩

/-- C4: every request `doRequest` builds has no `Authorization` header at all
when the client's token is empty, and exactly one, with the value `Bearer `
followed by the unchanged token, when it is not; a request is built whenever
the request can be constructed; and the same holds for the requests of every
client operation. -/
theorem C4_authorization_header (c : Client) (env : Env) (method path : String)
    (body : Payload) (op : Op) :
    (∀ req ∈ (c.doRequest env method path body).1,
        (c.token = "" → Header.Values req.Header "Authorization" = []
          ∧ ∀ kv ∈ req.Header, kv.1 ≠ "Authorization")
        ∧ (c.token ≠ "" → Header.Values req.Header "Authorization" = ["Bearer " ++ c.token]
          ∧ req.Header.filter (fun kv => kv.1 == "Authorization")
            = [("Authorization", ["Bearer " ++ c.token])]))
      ∧ (env.newRequestError method (c.endpoint ++ path) = none →
          ∃ req, (c.doRequest env method path body).1 = [req])
      ∧ (∀ req ∈ (op.run c env).sent,
          Header.Values req.Header "Authorization"
            = if c.token = "" then [] else ["Bearer " ++ c.token]) := by
  refine ⟨?_, ?_, ?_⟩
  · intro req hreq
    rw [mem_doRequest_sent c env method path body req hreq]
    constructor
    · intro htok
      refine ⟨?_, request_no_authorization c method path body htok⟩
      rw [request_authorization, if_pos htok]
    · intro htok
      refine ⟨?_, request_one_authorization c method path body htok⟩
      rw [request_authorization, if_neg htok]
  · intro hnew
    refine ⟨c.request method path body, ?_⟩
    rw [doRequest_sent, if_pos hnew]
  · intro req hreq
    rw [op_sent] at hreq
    rw [mem_doRequest_sent c env _ _ _ req hreq, request_authorization]

/-- C4, at concrete inputs: the request of `GetProject` without a token has no
`Authorization` header, and with the token `secret` it has the one value
`Bearer secret`. -/
theorem C4_witness :
    (∀ req ∈ ((NewClient "" "").doRequest (answering ⟨200, .ok ""⟩) "GET" "/v1/projects/p1"
        .nil).1, Header.Values req.Header "Authorization" = [])
      ∧ (∃ req, ((NewClient "" "").doRequest (answering ⟨200, .ok ""⟩) "GET" "/v1/projects/p1"
        .nil).1 = [req])
      ∧ (∀ req ∈ ((NewClient "" "secret").doRequest (answering ⟨200, .ok ""⟩) "GET"
        "/v1/projects/p1" .nil).1, Header.Values req.Header "Authorization" = ["Bearer secret"]) :=
  ⟨fun req hreq =>
      (((C4_authorization_header (NewClient "" "") (answering ⟨200, .ok ""⟩) "GET"
        "/v1/projects/p1" .nil (.GetProject "p1")).1 req hreq).1 rfl).1,
    (C4_authorization_header (NewClient "" "") (answering ⟨200, .ok ""⟩) "GET"
        "/v1/projects/p1" .nil (.GetProject "p1")).2.1 rfl,
    fun req hreq =>
      (((C4_authorization_header (NewClient "" "secret") (answering ⟨200, .ok ""⟩) "GET"
        "/v1/projects/p1" .nil (.GetProject "p1")).1 req hreq).2 (by decide)).1⟩

/-- C5: every request a client operation hands to the transport has the
method and the URL the spec's table fixes for the operation: the client's
endpoint followed by the operation's path; and the operation hands over such a
request whenever the request can be constructed. -/
theorem C5_method_and_url_fixed (c : Client) (env : Env) (op : Op) :
    (∀ req ∈ (op.run c env).sent,
        req.Method = op.specMethod ∧ req.URL = c.endpoint ++ op.specPath)
      ∧ (env.newRequestError op.specMethod (c.endpoint ++ op.specPath) = none →
          ∃ req, (op.run c env).sent = [req]) := by
  constructor
  · intro req hreq
    rw [op_sent] at hreq
    rw [mem_doRequest_sent c env _ _ _ req hreq]
    exact ⟨rfl, rfl⟩
  · intro hnew
    refine ⟨c.request op.specMethod op.specPath op.payload, ?_⟩
    rw [op_sent, doRequest_sent, if_pos hnew]

/-- C5, at concrete inputs: the requests of `UpdateObject` and `CreateMetadata`
against the endpoint `http://nah`. -/
theorem C5_witness :
    ((Op.UpdateObject "b1" "o1" none).run (NewClient "http://nah" "")
        (answering ⟨200, .ok ""⟩)).sent.map (fun req => (req.Method, req.URL))
        = [("PATCH", "http://nah/v1/bucket/b1/objects/o1")]
      ∧ ((Op.CreateMetadata "k" "v").run (NewClient "http://nah" "")
        (answering ⟨200, .ok ""⟩)).sent.map (fun req => (req.Method, req.URL))
        = [("POST", "http://nah/v1/metadata")]
      ∧ ∀ req ∈ ((Op.DeleteInstance "i9").run (NewClient "http://nah" "")
        (answering ⟨200, .ok ""⟩)).sent,
          req.Method = "DELETE" ∧ req.URL = "http://nah/v1/instances/i9" :=
  ⟨by decide, by decide,
    (C5_method_and_url_fixed (NewClient "http://nah" "") (answering ⟨200, .ok ""⟩)
      (.DeleteInstance "i9")).1⟩

/-- C6: in the JSON object marshalled from an `UpdateInstanceRequest`, an
`UpdateMetadataRequest` or an `UpdateObjectRequest`, a field's key is present
exactly when the field's pointer is not nil, its value is then the encoding of
the value pointed to (also for `""` and `0`; a string, and an integer of the
64-bit range, is written so that the decoder reads the same value back), no
other key occurs and no key occurs twice; the PATCH request of the update method carries the text of that
object as its body; and a metadata update with only `Value` set is the object
with the single key `value`. -/
theorem C6_patch_body_has_exactly_the_set_fields (c : Client) (env : Env)
    (id bucketID : String) (ri : UpdateInstanceRequest) (rm : UpdateMetadataRequest)
    (ro : UpdateObjectRequest) :
    (ri.members.lookup "name" = ri.Name.map jsonString
        ∧ ri.members.lookup "cpu" = ri.CPU.map jsonInt
        ∧ ri.members.lookup "memory_mb" = ri.MemoryMB.map jsonInt
        ∧ ri.members.lookup "image" = ri.Image.map jsonString
        ∧ ri.members.lookup "status" = ri.Status.map jsonString
        ∧ (∀ k ∈ ri.members.map Prod.fst, k ∈ ["name", "cpu", "memory_mb", "image", "status"])
        ∧ (ri.members.map Prod.fst).Nodup)
      ∧ (rm.members.lookup "path" = rm.Path.map jsonString
        ∧ rm.members.lookup "value" = rm.Value.map jsonString
        ∧ (∀ k ∈ rm.members.map Prod.fst, k ∈ ["path", "value"])
        ∧ (rm.members.map Prod.fst).Nodup)
      ∧ (ro.members.lookup "path" = ro.Path.map jsonString
        ∧ ro.members.lookup "content" = ro.Content.map jsonString
        ∧ (∀ k ∈ ro.members.map Prod.fst, k ∈ ["path", "content"])
        ∧ (ro.members.map Prod.fst).Nodup)
      ∧ (∀ req ∈ (c.UpdateInstance env id (some ri)).sent,
          req.Method = "PATCH" ∧ req.Body = some (JSON.obj ri.members).render)
      ∧ (∀ req ∈ (c.UpdateMetadata env id (some rm)).sent,
          req.Method = "PATCH" ∧ req.Body = some (JSON.obj rm.members).render)
      ∧ (∀ req ∈ (c.UpdateObject env bucketID id (some ro)).sent,
          req.Method = "PATCH" ∧ req.Body = some (JSON.obj ro.members).render)
      ∧ (∀ v : String, (UpdateMetadataRequest.mk none (some v)).members
          = [("value", jsonString v)])
      ∧ (∀ v : String, jsonString v = .str (quote v) ∧ unquote (quote v) = v)
      ∧ (∀ n : Int, jsonInt n = .num (formatInt n)
          ∧ (-(2 ^ 63 : Int) ≤ n → n < (2 ^ 63 : Int) → parseInt (formatInt n) = some n))
      ∧ jsonString "" = .str "" ∧ jsonInt 0 = .num "0" := by
  refine ⟨updateInstance_members ri, updateMetadata_members rm, updateObject_members ro,
    ?_, ?_, ?_, fun _ => rfl, fun v => ⟨rfl, unquote_quote v⟩,
    fun n => ⟨rfl, parseInt_formatInt n⟩, rfl, rfl⟩
  · intro req hreq
    rw [mem_op_sent c env (.UpdateInstance id (some ri)) req hreq]
    exact ⟨rfl, rfl⟩
  · intro req hreq
    rw [mem_op_sent c env (.UpdateMetadata id (some rm)) req hreq]
    exact ⟨rfl, rfl⟩
  · intro req hreq
    rw [mem_op_sent c env (.UpdateObject bucketID id (some ro)) req hreq]
    exact ⟨rfl, rfl⟩

/-- C6, at concrete inputs: the bodies of a metadata update with only `Value`
set, of an instance update setting the name to the empty string and the CPU
count to zero, and of an object update with nothing set. -/
theorem C6_witness :
    ((NewClient "" "").UpdateMetadata (answering ⟨200, .ok ""⟩) "m1" (some ⟨none, some "v2"⟩)).sent.map
        (fun req => req.Body) = [some "\x7b\"value\":\"v2\"\x7d"]
      ∧ ((NewClient "" "").UpdateInstance (answering ⟨200, .ok ""⟩) "i1"
          (some ⟨some "", some 0, none, none, none⟩)).sent.map (fun req => req.Body)
        = [some "\x7b\"name\":\"\",\"cpu\":0\x7d"]
      ∧ ((NewClient "" "").UpdateObject (answering ⟨200, .ok ""⟩) "b1" "o1"
          (some ⟨none, none⟩)).sent.map (fun req => req.Body) = [some "\x7b\x7d"]
      ∧ (UpdateMetadataRequest.mk none (some "v2")).members.lookup "path" = none :=
  ⟨by decide, by decide, by decide,
    (C6_patch_body_has_exactly_the_set_fields (NewClient "" "") (answering ⟨200, .ok ""⟩) "m1" "b1"
      ⟨none, none, none, none, none⟩ ⟨none, some "v2"⟩ ⟨none, none⟩).2.1.1⟩

/-- C7: every request `doRequest` builds carries the one `Content-Type` value
`application/json`; it has a body exactly when the payload is not the untyped
nil, and that body is the text `json.Marshal` returns for the payload. The
same holds for the requests of every client operation and its payload. -/
theorem C7_body_is_marshalled_json (c : Client) (env : Env) (method path : String)
    (body : Payload) (op : Op) :
    (∀ req ∈ (c.doRequest env method path body).1,
        Header.Values req.Header "Content-Type" = ["application/json"]
        ∧ (∀ text, req.Body = some text → body ≠ .nil ∧ jsonMarshal body = .ok text)
        ∧ (body ≠ .nil → ∃ text, jsonMarshal body = .ok text ∧ req.Body = some text))
      ∧ (∀ req ∈ (op.run c env).sent, ∀ text, req.Body = some text →
          Header.Values req.Header "Content-Type" = ["application/json"]
          ∧ jsonMarshal op.payload = .ok text) := by
  have key : ∀ (m p : String) (b : Payload) (text : String),
      (c.request m p b).Body = some text → b ≠ .nil ∧ jsonMarshal b = .ok text := by
    intro m p b text h
    cases b <;> simp [Client.request, jsonMarshal_eq] at h ⊢ <;> exact h
  constructor
  · intro req hreq
    rw [mem_doRequest_sent c env method path body req hreq]
    refine ⟨request_contentType c method path body, key method path body, ?_⟩
    intro hne
    cases body <;> simp [Client.request, jsonMarshal_eq] at hne ⊢
  · intro req hreq text htext
    rw [op_sent] at hreq
    rw [mem_doRequest_sent c env _ _ _ req hreq] at htext ⊢
    exact ⟨request_contentType c _ _ _, (key _ _ _ text htext).2⟩

/-- C7, at a concrete input: the one request of `CreateMetadata`, with its
header and its body. -/
theorem C7_witness :
    ((Op.CreateMetadata "a/b" "x\"y").run (NewClient "http://nah" "") (answering ⟨200, .ok ""⟩)).sent
        = [⟨"POST", "http://nah/v1/metadata", [("Content-Type", ["application/json"])],
            some "\x7b\"path\":\"a/b\",\"value\":\"x\\\"y\"\x7d"⟩]
      ∧ ∀ req ∈ ((Op.CreateMetadata "a/b" "x\"y").run (NewClient "http://nah" "")
          (answering ⟨200, .ok ""⟩)).sent, ∀ text, req.Body = some text →
          Header.Values req.Header "Content-Type" = ["application/json"]
          ∧ jsonMarshal (.stringMap [("path", "a/b"), ("value", "x\"y")]) = .ok text :=
  ⟨by decide,
    (C7_body_is_marshalled_json (NewClient "http://nah" "") (answering ⟨200, .ok ""⟩) "POST"
      "/v1/metadata" .nil (.CreateMetadata "a/b" "x\"y")).2⟩

/-- C8: `NewClient` takes `DefaultEndpoint`, which is `https://nahcloud.com`,
as base URL when the endpoint is the empty string, and keeps every non-empty
endpoint unchanged, so the default replaces the argument exactly when the
argument is empty; the token is stored unchanged in both cases. -/
theorem C8_default_endpoint_iff_empty (endpoint token : String) :
    DefaultEndpoint = "https://nahcloud.com"
      ∧ (endpoint = "" → (NewClient endpoint token).endpoint = DefaultEndpoint)
      ∧ (endpoint ≠ "" → (NewClient endpoint token).endpoint = endpoint)
      ∧ ((NewClient endpoint token).endpoint ≠ endpoint ↔ endpoint = "")
      ∧ (NewClient endpoint token).token = token := by
  refine ⟨rfl, ?_, ?_, ?_, rfl⟩
  · intro h
    simp [NewClient, h]
  · intro h
    simp [NewClient, h]
  · by_cases h : endpoint = ""
    · subst h
      simp [NewClient, DefaultEndpoint]
    · simp [NewClient, h]

/-- C8, at concrete inputs. -/
theorem C8_witness :
    (NewClient "" "tok").endpoint = "https://nahcloud.com"
      ∧ (NewClient "http://localhost:8080" "tok").endpoint = "http://localhost:8080"
      ∧ (NewClient "" "tok").token = "tok" :=
  ⟨(C8_default_endpoint_iff_empty "" "tok").2.1 rfl,
    (C8_default_endpoint_iff_empty "http://localhost:8080" "tok").2.2.1 (by decide),
    (C8_default_endpoint_iff_empty "" "tok").2.2.2.2⟩

/-- C9, the code at the failing input: with no endpoint in the provider
configuration and `NAH_ENDPOINT` unset, the client `Configure` constructs has
base URL `https://nahcloud.com`, and its requests go there, not to the
`http://localhost:8080` the schema documents as default. -/
theorem C9_configure_default_is_not_localhost :
    (NahProvider.Configure (answering ⟨200, .ok ""⟩) ([], ⟨.null, .null⟩) ⟨[], none, none⟩).ResourceData
        = some ⟨"https://nahcloud.com", "", 30⟩
      ∧ (NahProvider.Configure (answering ⟨200, .ok ""⟩) ([], ⟨.null, .null⟩)
          ⟨[], none, none⟩).ResourceData.map Client.endpoint ≠ some documentedDefaultEndpoint
      ∧ ((Client.mk "https://nahcloud.com" "" 30).GetProject (answering ⟨200, .ok ""⟩) "p1").sent.map
          (fun req => req.URL) = ["https://nahcloud.com/v1/projects/p1"] := by
  decide

/-- C10: when reading the configuration gave no error, `Configure` hands the
same client to data sources and resources, and that client is `NewClient` of
the configured endpoint if it is non-empty and of the value of `NAH_ENDPOINT`
otherwise, and of the configured token if it is non-empty and of the value of
`NAH_TOKEN` otherwise. A non-empty configured endpoint or token is the
client's, whatever the environment holds. -/
theorem C10_environment_is_fallback_only (env : Env) (diags : List Diagnostic)
    (data : NahProviderModel) (resp : ConfigureResponse)
    (hok : Diagnostics.HasError (Diagnostics.Append resp.Diagnostics diags) = false) :
    (NahProvider.Configure env (diags, data) resp).ResourceData
        = some (NewClient
            (if data.Endpoint.ValueString ≠ "" then data.Endpoint.ValueString
              else env.getenv "NAH_ENDPOINT")
            (if data.Token.ValueString ≠ "" then data.Token.ValueString
              else env.getenv "NAH_TOKEN"))
      ∧ (NahProvider.Configure env (diags, data) resp).DataSourceData
        = (NahProvider.Configure env (diags, data) resp).ResourceData
      ∧ (data.Endpoint.ValueString ≠ "" →
          (NahProvider.Configure env (diags, data) resp).ResourceData.map Client.endpoint
            = some data.Endpoint.ValueString)
      ∧ (data.Token.ValueString ≠ "" →
          (NahProvider.Configure env (diags, data) resp).ResourceData.map Client.token
            = some data.Token.ValueString) := by
  refine ⟨?_, ?_, ?_, ?_⟩
  · by_cases he : data.Endpoint.ValueString = "" <;> by_cases ht : data.Token.ValueString = "" <;>
      simp [NahProvider.Configure, hok, he, ht]
  · simp [NahProvider.Configure, hok]
  · intro he
    by_cases ht : data.Token.ValueString = "" <;>
      simp [NahProvider.Configure, hok, he, ht, NewClient]
  · intro ht
    by_cases he : data.Endpoint.ValueString = "" <;>
      simp [NahProvider.Configure, hok, he, ht, NewClient]

/-- C10, at concrete inputs: with both variables set, a configured endpoint
wins over `NAH_ENDPOINT` while the missing token is taken from `NAH_TOKEN`. -/
theorem C10_witness :
    (NahProvider.Configure withEnvironment ([], ⟨.value "http://configured", .null⟩)
        ⟨[], none, none⟩).ResourceData
      = some ⟨"http://configured", "env-token", 30⟩ :=
  (C10_environment_is_fallback_only withEnvironment [] ⟨.value "http://configured", .null⟩
    ⟨[], none, none⟩ (by decide)).1.trans (by decide)

/-! ## Auxiliary facts on the shape of the operations -/

/-- The method `CreateProject` in the shared shape. -/
theorem CreateProject_eq (c : Client) (env : Env) (name : String) :
    c.CreateProject env name =
      Call.after (Project.unmarshal env) Project.zero
        (c.doRequest env "POST" "/v1/projects"
          (.stringMap [("name", name)])) := by
  unfold Client.CreateProject Call.after
  generalize c.doRequest env _ _ _ = r
  rcases r with ⟨sent, err | resp⟩
  · rfl
  · simp only []
    rcases handleResponse (Project.unmarshal env) resp (some Project.zero) with ⟨_ | e, t⟩ <;> rfl

/-- The method `GetProject` in the shared shape. -/
theorem GetProject_eq (c : Client) (env : Env) (id : String) :
    c.GetProject env id =
      Call.after (Project.unmarshal env) Project.zero
        (c.doRequest env "GET" ("/v1/projects/" ++ id)
          .nil) := by
  unfold Client.GetProject Call.after
  generalize c.doRequest env _ _ _ = r
  rcases r with ⟨sent, err | resp⟩
  · rfl
  · simp only []
    rcases handleResponse (Project.unmarshal env) resp (some Project.zero) with ⟨_ | e, t⟩ <;> rfl

/-- The method `UpdateProject` in the shared shape. -/
theorem UpdateProject_eq (c : Client) (env : Env) (id name : String) :
    c.UpdateProject env id name =
      Call.after (Project.unmarshal env) Project.zero
        (c.doRequest env "PATCH" ("/v1/projects/" ++ id)
          (.stringMap [("name", name)])) := by
  unfold Client.UpdateProject Call.after
  generalize c.doRequest env _ _ _ = r
  rcases r with ⟨sent, err | resp⟩
  · rfl
  · simp only []
    rcases handleResponse (Project.unmarshal env) resp (some Project.zero) with ⟨_ | e, t⟩ <;> rfl

/-- The method `CreateInstance` in the shared shape. -/
theorem CreateInstance_eq (c : Client) (env : Env) (req : Option CreateInstanceRequest) :
    c.CreateInstance env req =
      Call.after (Instance.unmarshal env) Instance.zero
        (c.doRequest env "POST" "/v1/instances"
          (.createInstance req)) := by
  unfold Client.CreateInstance Call.after
  generalize c.doRequest env _ _ _ = r
  rcases r with ⟨sent, err | resp⟩
  · rfl
  · simp only []
    rcases handleResponse (Instance.unmarshal env) resp (some Instance.zero) with ⟨_ | e, t⟩ <;> rfl

/-- The method `GetInstance` in the shared shape. -/
theorem GetInstance_eq (c : Client) (env : Env) (id : String) :
    c.GetInstance env id =
      Call.after (Instance.unmarshal env) Instance.zero
        (c.doRequest env "GET" ("/v1/instances/" ++ id)
          .nil) := by
  unfold Client.GetInstance Call.after
  generalize c.doRequest env _ _ _ = r
  rcases r with ⟨sent, err | resp⟩
  · rfl
  · simp only []
    rcases handleResponse (Instance.unmarshal env) resp (some Instance.zero) with ⟨_ | e, t⟩ <;> rfl

/-- The method `UpdateInstance` in the shared shape. -/
theorem UpdateInstance_eq (c : Client) (env : Env) (id : String) (req : Option UpdateInstanceRequest) :
    c.UpdateInstance env id req =
      Call.after (Instance.unmarshal env) Instance.zero
        (c.doRequest env "PATCH" ("/v1/instances/" ++ id)
          (.updateInstance req)) := by
  unfold Client.UpdateInstance Call.after
  generalize c.doRequest env _ _ _ = r
  rcases r with ⟨sent, err | resp⟩
  · rfl
  · simp only []
    rcases handleResponse (Instance.unmarshal env) resp (some Instance.zero) with ⟨_ | e, t⟩ <;> rfl

/-- The method `CreateMetadata` in the shared shape. -/
theorem CreateMetadata_eq (c : Client) (env : Env) (path value : String) :
    c.CreateMetadata env path value =
      Call.after (Metadata.unmarshal env) Metadata.zero
        (c.doRequest env "POST" "/v1/metadata"
          (.stringMap [("path", path), ("value", value)])) := by
  unfold Client.CreateMetadata Call.after
  generalize c.doRequest env _ _ _ = r
  rcases r with ⟨sent, err | resp⟩
  · rfl
  · simp only []
    rcases handleResponse (Metadata.unmarshal env) resp (some Metadata.zero) with ⟨_ | e, t⟩ <;> rfl

/-- The method `GetMetadata` in the shared shape. -/
theorem GetMetadata_eq (c : Client) (env : Env) (id : String) :
    c.GetMetadata env id =
      Call.after (Metadata.unmarshal env) Metadata.zero
        (c.doRequest env "GET" ("/v1/metadata/" ++ id)
          .nil) := by
  unfold Client.GetMetadata Call.after
  generalize c.doRequest env _ _ _ = r
  rcases r with ⟨sent, err | resp⟩
  · rfl
  · simp only []
    rcases handleResponse (Metadata.unmarshal env) resp (some Metadata.zero) with ⟨_ | e, t⟩ <;> rfl

/-- The method `UpdateMetadata` in the shared shape. -/
theorem UpdateMetadata_eq (c : Client) (env : Env) (id : String) (req : Option UpdateMetadataRequest) :
    c.UpdateMetadata env id req =
      Call.after (Metadata.unmarshal env) Metadata.zero
        (c.doRequest env "PATCH" ("/v1/metadata/" ++ id)
          (.updateMetadata req)) := by
  unfold Client.UpdateMetadata Call.after
  generalize c.doRequest env _ _ _ = r
  rcases r with ⟨sent, err | resp⟩
  · rfl
  · simp only []
    rcases handleResponse (Metadata.unmarshal env) resp (some Metadata.zero) with ⟨_ | e, t⟩ <;> rfl

/-- The method `CreateBucket` in the shared shape. -/
theorem CreateBucket_eq (c : Client) (env : Env) (name : String) :
    c.CreateBucket env name =
      Call.after (Bucket.unmarshal env) Bucket.zero
        (c.doRequest env "POST" "/v1/buckets"
          (.stringMap [("name", name)])) := by
  unfold Client.CreateBucket Call.after
  generalize c.doRequest env _ _ _ = r
  rcases r with ⟨sent, err | resp⟩
  · rfl
  · simp only []
    rcases handleResponse (Bucket.unmarshal env) resp (some Bucket.zero) with ⟨_ | e, t⟩ <;> rfl

/-- The method `GetBucket` in the shared shape. -/
theorem GetBucket_eq (c : Client) (env : Env) (id : String) :
    c.GetBucket env id =
      Call.after (Bucket.unmarshal env) Bucket.zero
        (c.doRequest env "GET" ("/v1/buckets/" ++ id)
          .nil) := by
  unfold Client.GetBucket Call.after
  generalize c.doRequest env _ _ _ = r
  rcases r with ⟨sent, err | resp⟩
  · rfl
  · simp only []
    rcases handleResponse (Bucket.unmarshal env) resp (some Bucket.zero) with ⟨_ | e, t⟩ <;> rfl

/-- The method `UpdateBucket` in the shared shape. -/
theorem UpdateBucket_eq (c : Client) (env : Env) (id name : String) :
    c.UpdateBucket env id name =
      Call.after (Bucket.unmarshal env) Bucket.zero
        (c.doRequest env "PATCH" ("/v1/buckets/" ++ id)
          (.stringMap [("name", name)])) := by
  unfold Client.UpdateBucket Call.after
  generalize c.doRequest env _ _ _ = r
  rcases r with ⟨sent, err | resp⟩
  · rfl
  · simp only []
    rcases handleResponse (Bucket.unmarshal env) resp (some Bucket.zero) with ⟨_ | e, t⟩ <;> rfl

/-- The method `CreateObject` in the shared shape. -/
theorem CreateObject_eq (c : Client) (env : Env) (bucketID : String) (req : Option CreateObjectRequest) :
    c.CreateObject env bucketID req =
      Call.after (Object.unmarshal env) Object.zero
        (c.doRequest env "POST" ("/v1/bucket/" ++ bucketID ++ "/objects")
          (.createObject req)) := by
  unfold Client.CreateObject Call.after
  generalize c.doRequest env _ _ _ = r
  rcases r with ⟨sent, err | resp⟩
  · rfl
  · simp only []
    rcases handleResponse (Object.unmarshal env) resp (some Object.zero) with ⟨_ | e, t⟩ <;> rfl

/-- The method `GetObject` in the shared shape. -/
theorem GetObject_eq (c : Client) (env : Env) (bucketID id : String) :
    c.GetObject env bucketID id =
      Call.after (Object.unmarshal env) Object.zero
        (c.doRequest env "GET" ("/v1/bucket/" ++ bucketID ++ "/objects/" ++ id)
          .nil) := by
  unfold Client.GetObject Call.after
  generalize c.doRequest env _ _ _ = r
  rcases r with ⟨sent, err | resp⟩
  · rfl
  · simp only []
    rcases handleResponse (Object.unmarshal env) resp (some Object.zero) with ⟨_ | e, t⟩ <;> rfl

/-- The method `UpdateObject` in the shared shape. -/
theorem UpdateObject_eq (c : Client) (env : Env) (bucketID id : String) (req : Option UpdateObjectRequest) :
    c.UpdateObject env bucketID id req =
      Call.after (Object.unmarshal env) Object.zero
        (c.doRequest env "PATCH" ("/v1/bucket/" ++ bucketID ++ "/objects/" ++ id)
          (.updateObject req)) := by
  unfold Client.UpdateObject Call.after
  generalize c.doRequest env _ _ _ = r
  rcases r with ⟨sent, err | resp⟩
  · rfl
  · simp only []
    rcases handleResponse (Object.unmarshal env) resp (some Object.zero) with ⟨_ | e, t⟩ <;> rfl

/-- With a target, `handleResponse` leaves a target. -/
theorem handleResponse_target {α : Type} (unmarshal : String → α → Option GoError × α)
    (resp : Response) (target : α) :
    ∃ target1, (handleResponse unmarshal resp (some target)).2 = some target1 := by
  unfold handleResponse
  rcases resp.Body with rerr | body
  · exact ⟨target, rfl⟩
  · simp only []
    split
    · exact ⟨target, rfl⟩
    · split
      · rcases unmarshal body target with ⟨_ | e, t⟩
        · exact ⟨t, rfl⟩
        · exact ⟨t, rfl⟩
      · exact ⟨target, rfl⟩

/-- In the shared shape the entity is nil exactly when the error is not. -/
theorem Call.after_value_iff {α : Type} (unmarshal : String → α → Option GoError × α) (zero : α)
    (r : List Request × Except GoError Response) :
    ((Call.after unmarshal zero r).value.isSome = true ↔ (Call.after unmarshal zero r).err = none)
      ∧ (Call.after unmarshal zero r).sent = r.1 := by
  rcases r with ⟨sent, err | resp⟩
  · simp [Call.after]
  · obtain ⟨t, ht⟩ := handleResponse_target unmarshal resp zero
    rcases h : handleResponse unmarshal resp (some zero) with ⟨_ | e, t1⟩
    · rw [h] at ht
      simp only at ht
      simp [Call.after, h, ht]
    · simp [Call.after, h]

/-- The value and error of the shared shape, case by case. -/
theorem Call.after_ok {α : Type} (unmarshal : String → α → Option GoError × α) (zero : α)
    (sent : List Request) (resp : Response) :
    (Call.after unmarshal zero (sent, .ok resp)).err
        = (handleResponse unmarshal resp (some zero)).1
      ∧ ((handleResponse unmarshal resp (some zero)).1 = none →
        (Call.after unmarshal zero (sent, .ok resp)).value
          = (handleResponse unmarshal resp (some zero)).2) := by
  rcases h : handleResponse unmarshal resp (some zero) with ⟨_ | e, t1⟩ <;> simp [Call.after, h]

/-- Every operation is `doRequest` followed by `Op.handle` on the answer. -/
theorem op_run_handle (c : Client) (env : Env) (op : Op) :
    op.run c env =
      (match c.doRequest env op.specMethod op.specPath op.payload with
        | (sent, .error err) => ⟨sent, some err⟩
        | (sent, .ok resp) => ⟨sent, op.handle env resp⟩) := by
  cases op
  all_goals first
    | rfl
    | (simp only [Op.run, CreateProject_eq, GetProject_eq, UpdateProject_eq, CreateInstance_eq,
         GetInstance_eq, UpdateInstance_eq, CreateMetadata_eq, GetMetadata_eq, UpdateMetadata_eq,
         CreateBucket_eq, GetBucket_eq, UpdateBucket_eq, CreateObject_eq, GetObject_eq,
         UpdateObject_eq, Op.specMethod, Op.specPath, Op.payload, Op.handle]
       generalize c.doRequest env _ _ _ = r
       rcases r with ⟨sent, err | resp⟩
       · rfl
       · simp only [(Call.after_ok _ _ sent resp).1, Call.after]
         rcases handleResponse _ resp (some _) with ⟨_ | e, t⟩ <;> rfl)

/-- In the shared shape an entity is returned exactly when no error is. -/
theorem Call.after_isSome {α : Type} (unmarshal : String → α → Option GoError × α) (zero : α)
    (r : List Request × Except GoError Response) :
    (Call.after unmarshal zero r).value.isSome = (Call.after unmarshal zero r).err.isNone := by
  have h := (Call.after_value_iff unmarshal zero r).1
  revert h
  generalize Call.after unmarshal zero r = call
  intro h
  rcases call with ⟨sent, value, err⟩
  cases value <;> cases err <;> simp_all

/-- An operation returns an entity exactly when it is not a delete and returns
no error. -/
theorem op_hasValue (c : Client) (env : Env) (op : Op) :
    op.hasValue c env = (!op.isDelete && (op.run c env).err.isNone) := by
  cases op
  all_goals first
    | rfl
    | (simp only [Op.hasValue, Op.run, Op.isDelete, CreateProject_eq, GetProject_eq,
         UpdateProject_eq, CreateInstance_eq, GetInstance_eq, UpdateInstance_eq,
         CreateMetadata_eq, GetMetadata_eq, UpdateMetadata_eq, CreateBucket_eq, GetBucket_eq,
         UpdateBucket_eq, CreateObject_eq, GetObject_eq, UpdateObject_eq, Call.after_isSome,
         Bool.not_false, Bool.true_and])

/-- The outcome of an operation, by what happens to its request. -/
theorem op_run_cases (c : Client) (env : Env) (op : Op) :
    (∀ e, env.newRequestError op.specMethod (c.endpoint ++ op.specPath) = some e →
        op.run c env = ⟨[], some (.wrap "failed to create request: " e)⟩)
      ∧ (env.newRequestError op.specMethod (c.endpoint ++ op.specPath) = none →
        (∀ e, env.Do (c.request op.specMethod op.specPath op.payload) = .error e →
          op.run c env = ⟨[c.request op.specMethod op.specPath op.payload], some e⟩)
        ∧ (∀ resp, env.Do (c.request op.specMethod op.specPath op.payload) = .ok resp →
          op.run c env
            = ⟨[c.request op.specMethod op.specPath op.payload], op.handle env resp⟩)) := by
  refine ⟨?_, ?_⟩
  · intro e he
    rw [op_run_handle, doRequest_eq, he]
  · intro hnew
    refine ⟨?_, ?_⟩
    · intro e he
      rw [op_run_handle, doRequest_eq, hnew]
      simp only [he]
    · intro resp he
      rw [op_run_handle, doRequest_eq, hnew]
      simp only [he]

/-- The error to create a request is not of the API form. -/
theorem createError_not_api (err : GoError) :
    isAPIError (.wrap "failed to create request: " err) = false := by
  simp [isAPIError, startsWith, GoError.Error, String.data_append, List.isPrefixOf]

/-- The read error is not of the API form. -/
theorem readError_not_api (err : GoError) :
    isAPIError (.wrap "failed to read response body: " err) = false := by
  simp [isAPIError, startsWith, GoError.Error, String.data_append, List.isPrefixOf]

/-- The errors `handleResponse` makes: the read error, the API error on a
status of 400 or more, or the decoding error. -/
theorem handleResponse_error {α : Type} (unmarshal : String → α → Option GoError × α)
    (resp : Response) (result : Option α) (e : GoError)
    (h : (handleResponse unmarshal resp result).1 = some e) :
    (∃ rerr, resp.Body = .error rerr ∧ e = .wrap "failed to read response body: " rerr)
      ∨ (∃ body, resp.Body = .ok body ∧ resp.StatusCode ≥ 400
        ∧ e = .new ("API error (status " ++ formatInt resp.StatusCode ++ "): " ++ body))
      ∨ (∃ body cause, resp.Body = .ok body ∧ resp.StatusCode < 400
        ∧ e = .wrap "failed to unmarshal response: " cause) := by
  rcases hb : resp.Body with rerr | body
  · rw [handleResponse_unread unmarshal resp rerr result hb] at h
    exact Or.inl ⟨rerr, rfl, by simpa using h.symm⟩
  · by_cases hs : resp.StatusCode ≥ 400
    · rw [handleResponse_api unmarshal resp body result hb hs] at h
      exact Or.inr (Or.inl ⟨body, rfl, hs, by simpa using h.symm⟩)
    · have hs1 : resp.StatusCode < 400 := by omega
      cases result with
      | none =>
        rw [handleResponse_nil unmarshal resp body hb hs1] at h
        simp at h
      | some target =>
        by_cases hl : len body > 0
        · rcases hd : unmarshal body target with ⟨_ | cause, target1⟩
          · rw [handleResponse_decoded unmarshal resp body target target1 hb hs1 hl hd] at h
            simp at h
          · rw [handleResponse_undecoded unmarshal resp body target target1 cause hb hs1 hl hd]
              at h
            exact Or.inr (Or.inr ⟨body, cause, rfl, hs1, by simpa using h.symm⟩)
        · have hz : len body = 0 := by omega
          rw [handleResponse_empty unmarshal resp body target hb hs1 hz] at h
          simp at h

/-- The errors `Op.handle` makes. -/
theorem op_handle_error (env : Env) (op : Op) (resp : Response) (e : GoError)
    (h : op.handle env resp = some e) :
    (∃ rerr, resp.Body = .error rerr ∧ e = .wrap "failed to read response body: " rerr)
      ∨ (∃ body, resp.Body = .ok body ∧ resp.StatusCode ≥ 400
        ∧ e = .new ("API error (status " ++ formatInt resp.StatusCode ++ "): " ++ body))
      ∨ (∃ body cause, resp.Body = .ok body ∧ resp.StatusCode < 400
        ∧ e = .wrap "failed to unmarshal response: " cause) := by
  cases op <;> exact handleResponse_error _ resp _ e h

/-- The error to create a request is not of the encoding form. -/
theorem createError_not_encoding (err : GoError) :
    isEncodingError (.wrap "failed to create request: " err) = false := by
  simp [isEncodingError, startsWith, GoError.Error, String.data_append, List.isPrefixOf]

/-- The read error is not of the encoding form. -/
theorem readError_not_encoding (err : GoError) :
    isEncodingError (.wrap "failed to read response body: " err) = false := by
  simp [isEncodingError, startsWith, GoError.Error, String.data_append, List.isPrefixOf]

/-- The API error is not of the encoding form. -/
theorem apiError_not_encoding (code body : String) :
    isEncodingError (.new ("API error (status " ++ code ++ "): " ++ body)) = false := by
  simp [isEncodingError, startsWith, GoError.Error, String.data_append, List.isPrefixOf]

/-- The decoding error is not of the encoding form. -/
theorem decodingError_not_encoding (err : GoError) :
    isEncodingError (.wrap "failed to unmarshal response: " err) = false := by
  simp [isEncodingError, startsWith, GoError.Error, String.data_append, List.isPrefixOf]

/-- The delete methods pass no target to `handleResponse`. -/
theorem op_handle_delete (env : Env) (op : Op) (resp : Response) (h : op.isDelete = true) :
    op.handle env resp = (handleResponse noTarget resp none).1 := by
  cases op <;> first | rfl | (simp [Op.isDelete] at h)

/-- The members of a marshalled `CreateInstanceRequest`. -/
theorem createInstance_members (r : CreateInstanceRequest) :
    r.members.lookup "project_id" = some (jsonString r.ProjectID)
      ∧ r.members.lookup "name" = some (jsonString r.Name)
      ∧ r.members.lookup "cpu" = some (jsonInt r.CPU)
      ∧ r.members.lookup "memory_mb" = some (jsonInt r.MemoryMB)
      ∧ r.members.lookup "image" = some (jsonString r.Image)
      ∧ r.members.lookup "status" = (if r.Status = "" then none else some (jsonString r.Status))
      ∧ (∀ k ∈ r.members.map Prod.fst,
          k ∈ ["project_id", "name", "cpu", "memory_mb", "image", "status"])
      ∧ (r.members.map Prod.fst).Nodup := by
  rcases r with ⟨p, n, c, m, i, s⟩
  by_cases hs : s = ""
  · have hl : len s = 0 := (len_eq_zero_iff s).2 hs
    simp [CreateInstanceRequest.members, omitEmpty, List.lookup, hs, hl]
    simp [← hs, hl]
  · have hl : ¬ len s = 0 := fun h => hs ((len_eq_zero_iff s).1 h)
    simp [CreateInstanceRequest.members, omitEmpty, List.lookup, hs, hl]

/-- The errors of `http.Client.Do` for the client's methods are not of the
API form. -/
theorem urlError_not_api (method url : String) (cause : GoError)
    (hm : method ∈ ["GET", "POST", "PATCH", "DELETE"]) :
    isAPIError (urlError method url cause) = false := by
  simp only [List.mem_cons, List.mem_singleton, List.not_mem_nil, or_false] at hm
  rcases hm with h | h | h | h <;> subst h <;>
    simp [isAPIError, startsWith, urlError, urlErrorOp, GoError.Error, String.data_append,
      List.isPrefixOf]

/-- A call in the shared shape that returns no error got a response with a
readable body and a status below 400, and returns the zero entity for an empty
body and what the decoder made of the zero entity otherwise. -/
theorem Call.after_success {α : Type} (unmarshal : String → α → Option GoError × α) (zero : α)
    (r : List Request × Except GoError Response)
    (h : (Call.after unmarshal zero r).err = none) :
    ∃ resp body, r.2 = .ok resp ∧ resp.Body = .ok body ∧ resp.StatusCode < 400
      ∧ (len body > 0 → (unmarshal body zero).1 = none)
      ∧ (Call.after unmarshal zero r).value
        = some (if len body > 0 then (unmarshal body zero).2 else zero) := by
  rcases r with ⟨sent, err | resp⟩
  · simp [Call.after] at h
  · have herr := (Call.after_ok unmarshal zero sent resp).1
    rw [h] at herr
    have hval := (Call.after_ok unmarshal zero sent resp).2 herr.symm
    rcases hb : resp.Body with rerr | body
    · rw [handleResponse_unread unmarshal resp rerr _ hb] at herr
      simp at herr
    · by_cases hs : resp.StatusCode ≥ 400
      · rw [handleResponse_api unmarshal resp body _ hb hs] at herr
        simp at herr
      · have hs1 : resp.StatusCode < 400 := by omega
        refine ⟨resp, body, rfl, hb, hs1, ?_⟩
        by_cases hl : len body > 0
        · rcases hd : unmarshal body zero with ⟨_ | cause, target1⟩
          · rw [handleResponse_decoded unmarshal resp body zero target1 hb hs1 hl hd] at hval
            simp [hval, hl]
          · rw [handleResponse_undecoded unmarshal resp body zero target1 cause hb hs1 hl hd]
              at herr
            simp at herr
        · have hz : len body = 0 := by omega
          rw [handleResponse_empty unmarshal resp body zero hb hs1 hz] at hval
          simp [hval, hl]

/-- The answer `doRequest` returns is the transport's. -/
theorem doRequest_ok (c : Client) (env : Env) (method path : String) (body : Payload)
    (resp : Response) (h : (c.doRequest env method path body).2 = .ok resp) :
    env.Do (c.request method path body) = .ok resp := by
  rw [doRequest_eq] at h
  cases hn : env.newRequestError method (c.endpoint ++ path) with
  | some e =>
    rw [hn] at h
    simp at h
  | none =>
    rw [hn] at h
    exact h

/-- The request an instance update builds from a plan: every field set. -/
theorem instanceUpdate_sent (r : InstanceResource) (env : Env)
    (req : UpdateRequest InstanceResourceModel) (resp : ResourceResponse InstanceResourceModel) :
    (r.Update env req resp).1 =
      if Diagnostics.HasError (Diagnostics.Append resp.Diagnostics req.Plan.1) then []
      else (r.client.UpdateInstance env req.Plan.2.ID.ValueString
        (some ⟨some req.Plan.2.Name.ValueString, some req.Plan.2.CPU.ValueInt64,
          some req.Plan.2.MemoryMB.ValueInt64, some req.Plan.2.Image.ValueString,
          some req.Plan.2.Status.ValueString⟩)).sent := by
  unfold InstanceResource.Update
  simp only []
  split
  · rfl
  · generalize r.client.UpdateInstance env _ _ = call
    rcases call with ⟨sent, value, err⟩
    cases err
    · cases value <;> rfl
    · rfl

/-- The state an instance update leaves: the one it found, or the plan with
the five updatable fields taken from the server's answer. -/
theorem instanceUpdate_state (r : InstanceResource) (env : Env)
    (req : UpdateRequest InstanceResourceModel) (resp resp1 : ResourceResponse InstanceResourceModel)
    (h : (r.Update env req resp).2 = some resp1) :
    resp1.State = resp.State
      ∨ ∃ inst : Instance, resp1.State = some { req.Plan.2 with
          Name := .value inst.Name, CPU := .value inst.CPU, MemoryMB := .value inst.MemoryMB,
          Image := .value inst.Image, Status := .value inst.Status } := by
  unfold InstanceResource.Update at h
  simp only [] at h
  split at h
  · left
    have h1 := Option.some.inj h
    rw [← h1]
  · revert h
    generalize r.client.UpdateInstance env _ _ = call
    rcases call with ⟨sent, value, err⟩
    intro h
    cases err with
    | some e =>
      left
      have h1 := Option.some.inj h
      rw [← h1]
    | none =>
      cases value with
      | none => simp at h
      | some inst =>
        right
        have h1 := Option.some.inj h
        exact ⟨inst, by rw [← h1]⟩

/-- The request a metadata update builds from a plan: every field set. -/
theorem metadataUpdate_sent (r : MetadataResource) (env : Env)
    (req : UpdateRequest MetadataResourceModel) (resp : ResourceResponse MetadataResourceModel) :
    (r.Update env req resp).1 =
      if Diagnostics.HasError (Diagnostics.Append resp.Diagnostics req.Plan.1) then []
      else (r.client.UpdateMetadata env req.Plan.2.ID.ValueString
        (some ⟨some req.Plan.2.Path.ValueString, some req.Plan.2.Value.ValueString⟩)).sent := by
  unfold MetadataResource.Update
  simp only []
  split
  · rfl
  · generalize r.client.UpdateMetadata env _ _ = call
    rcases call with ⟨sent, value, err⟩
    cases err
    · cases value <;> rfl
    · rfl

/-- The state a metadata update leaves: the one it found, or the plan with the
two updatable fields taken from the server's answer. -/
theorem metadataUpdate_state (r : MetadataResource) (env : Env)
    (req : UpdateRequest MetadataResourceModel) (resp resp1 : ResourceResponse MetadataResourceModel)
    (h : (r.Update env req resp).2 = some resp1) :
    resp1.State = resp.State
      ∨ ∃ e : Metadata, resp1.State = some { req.Plan.2 with
          Path := .value e.Path, Value := .value e.Value } := by
  unfold MetadataResource.Update at h
  simp only [] at h
  split at h
  · left
    have h1 := Option.some.inj h
    rw [← h1]
  · revert h
    generalize r.client.UpdateMetadata env _ _ = call
    rcases call with ⟨sent, value, err⟩
    intro h
    cases err with
    | some e =>
      left
      have h1 := Option.some.inj h
      rw [← h1]
    | none =>
      cases value with
      | none => simp at h
      | some e1 =>
        right
        have h1 := Option.some.inj h
        exact ⟨e1, by rw [← h1]⟩

/-- The request an object update builds from a plan: every field set. -/
theorem objectUpdate_sent (r : ObjectResource) (env : Env)
    (req : UpdateRequest ObjectResourceModel) (resp : ResourceResponse ObjectResourceModel) :
    (r.Update env req resp).1 =
      if Diagnostics.HasError (Diagnostics.Append resp.Diagnostics req.Plan.1) then []
      else (r.client.UpdateObject env req.Plan.2.BucketID.ValueString req.Plan.2.ID.ValueString
        (some ⟨some req.Plan.2.Path.ValueString, some req.Plan.2.Content.ValueString⟩)).sent := by
  unfold ObjectResource.Update
  simp only []
  split
  · rfl
  · generalize r.client.UpdateObject env _ _ _ = call
    rcases call with ⟨sent, value, err⟩
    cases err
    · cases value <;> rfl
    · rfl

/-- The state an object update leaves: the one it found, or the plan with the
two updatable fields taken from the server's answer. -/
theorem objectUpdate_state (r : ObjectResource) (env : Env)
    (req : UpdateRequest ObjectResourceModel) (resp resp1 : ResourceResponse ObjectResourceModel)
    (h : (r.Update env req resp).2 = some resp1) :
    resp1.State = resp.State
      ∨ ∃ e : Object, resp1.State = some { req.Plan.2 with
          Path := .value e.Path, Content := .value e.Content } := by
  unfold ObjectResource.Update at h
  simp only [] at h
  split at h
  · left
    have h1 := Option.some.inj h
    rw [← h1]
  · revert h
    generalize r.client.UpdateObject env _ _ _ = call
    rcases call with ⟨sent, value, err⟩
    intro h
    cases err with
    | some e =>
      left
      have h1 := Option.some.inj h
      rw [← h1]
    | none =>
      cases value with
      | none => simp at h
      | some e1 =>
        right
        have h1 := Option.some.inj h
        exact ⟨e1, by rw [← h1]⟩

/-- The loop sends at least the request it starts from and at most one request
more than the redirects allowed. -/
theorem hops_length (net : Network) (ireq : Request) (allowed : Nat) (req : Request)
    (includeBody : Bool) :
    (net.hops ireq allowed req includeBody).1.head? = some req
      ∧ (net.hops ireq allowed req includeBody).1.length ≤ allowed + 1 := by
  induction allowed generalizing req includeBody with
  | zero =>
    unfold Network.hops
    cases net.turn ireq req includeBody <;> exact ⟨rfl, Nat.le_refl _⟩
  | succ n ih =>
    unfold Network.hops
    cases net.turn ireq req includeBody with
    | done result => exact ⟨rfl, by simp⟩
    | next nextReq inc loc =>
      refine ⟨rfl, ?_⟩
      have h := (ih nextReq inc).2
      simp only [List.length_cons]
      omega

/-- A request whose answer is no redirect is the only one sent. -/
theorem hops_done (net : Network) (ireq : Request) (allowed : Nat) (req : Request)
    (includeBody : Bool) (result : Except GoError Response)
    (h : net.turn ireq req includeBody = .done result) :
    net.hops ireq allowed req includeBody = ([req], result) := by
  cases allowed <;> simp [Network.hops, h]

/-- An answer that is no redirect ends the loop at once. -/
theorem turn_no_redirect (net : Network) (ireq req : Request) (includeBody : Bool)
    (resp : HopResponse) (hrt : net.RoundTrip req = .ok resp)
    (h : (resp.StatusCode ≠ 301 ∧ resp.StatusCode ≠ 302 ∧ resp.StatusCode ≠ 303
        ∧ resp.StatusCode ≠ 307 ∧ resp.StatusCode ≠ 308) ∨ resp.Location = "") :
    net.turn ireq req includeBody = .done (.ok ⟨resp.StatusCode, resp.Body⟩) := by
  unfold Network.turn
  rw [hrt]
  simp only
  rw [if_pos]
  rcases h with ⟨h1, h2, h3, h4, h5⟩ | h
  · left
    simp [redirectBehavior, h1, h2, h3, h4, h5]
  · right
    exact h

/-- A failed round trip ends the loop at once. -/
theorem turn_failed (net : Network) (ireq req : Request) (includeBody : Bool)
    (err : GoError) (hrt : net.RoundTrip req = .error err) :
    net.turn ireq req includeBody = .done (.error (urlError ireq.Method req.URL err)) := by
  unfold Network.turn
  rw [hrt]

/-- A second request is sent only after a redirect with a `Location`. -/
theorem hops_more (net : Network) (ireq : Request) (allowed : Nat) (req : Request)
    (includeBody : Bool) (h : (net.hops ireq allowed req includeBody).1 ≠ [req]) :
    ∃ resp, net.RoundTrip req = .ok resp
      ∧ (resp.StatusCode = 301 ∨ resp.StatusCode = 302 ∨ resp.StatusCode = 303
        ∨ resp.StatusCode = 307 ∨ resp.StatusCode = 308)
      ∧ resp.Location ≠ "" := by
  rcases hrt : net.RoundTrip req with err | resp
  · rw [hops_done net ireq allowed req includeBody _ (turn_failed net ireq req includeBody err hrt)]
      at h
    exact absurd rfl h
  · refine ⟨resp, rfl, ?_⟩
    by_contra hc
    apply h
    rw [hops_done net ireq allowed req includeBody _
      (turn_no_redirect net ireq req includeBody resp hrt ?_)]
    by_cases hl : resp.Location = ""
    · exact Or.inr hl
    · left
      refine ⟨?_, ?_, ?_, ?_, ?_⟩ <;> (intro hs; exact hc ⟨by simp [hs], hl⟩)

/-! ## The claims, continued -/

/-- C11: the object marshalled from an `UpdateInstanceRequest` never has the
key `project_id`, and the one from an `UpdateObjectRequest` never has the key
`bucket_id`. Every request `InstanceResource.Update` or
`ObjectResource.Update` sends is a PATCH whose body is such an object. The
state either method writes is the plan with only the updatable fields
replaced, so its `project_id`, its `bucket_id` and its `id` are the plan's;
when the client reports an error the method leaves the state it found. -/
theorem C11_parent_ids_not_updatable (env : Env) (ri : UpdateInstanceRequest)
    (ro : UpdateObjectRequest) (r : InstanceResource) (o : ObjectResource)
    (ireq : UpdateRequest InstanceResourceModel) (iresp : ResourceResponse InstanceResourceModel)
    (oreq : UpdateRequest ObjectResourceModel) (oresp : ResourceResponse ObjectResourceModel) :
    ("project_id" ∉ ri.members.map Prod.fst ∧ ri.members.lookup "project_id" = none)
      ∧ ("bucket_id" ∉ ro.members.map Prod.fst ∧ ro.members.lookup "bucket_id" = none)
      ∧ (∀ req ∈ (r.Update env ireq iresp).1, req.Method = "PATCH"
          ∧ ∃ ri1 : UpdateInstanceRequest, req.Body = some (JSON.obj ri1.members).render)
      ∧ (∀ req ∈ (o.Update env oreq oresp).1, req.Method = "PATCH"
          ∧ ∃ ro1 : UpdateObjectRequest, req.Body = some (JSON.obj ro1.members).render)
      ∧ (∀ resp1, (r.Update env ireq iresp).2 = some resp1 →
          resp1.State = iresp.State
          ∨ ∃ data, resp1.State = some data ∧ data.ProjectID = ireq.Plan.2.ProjectID
            ∧ data.ID = ireq.Plan.2.ID)
      ∧ (∀ resp1, (o.Update env oreq oresp).2 = some resp1 →
          resp1.State = oresp.State
          ∨ ∃ data, resp1.State = some data ∧ data.BucketID = oreq.Plan.2.BucketID
            ∧ data.ID = oreq.Plan.2.ID) := by
  refine ⟨?_, ?_, ?_, ?_, ?_, ?_⟩
  · rcases ri with ⟨n, c, m, i, s⟩
    cases n <;> cases c <;> cases m <;> cases i <;> cases s <;>
      simp [UpdateInstanceRequest.members, omitNil, List.lookup]
  · rcases ro with ⟨p, c⟩
    cases p <;> cases c <;> simp [UpdateObjectRequest.members, omitNil, List.lookup]
  · intro req hreq
    rw [instanceUpdate_sent] at hreq
    split at hreq
    · simp at hreq
    · rw [mem_op_sent r.client env (.UpdateInstance _ (some _)) req hreq]
      exact ⟨rfl, _, rfl⟩
  · intro req hreq
    rw [objectUpdate_sent] at hreq
    split at hreq
    · simp at hreq
    · rw [mem_op_sent o.client env (.UpdateObject _ _ (some _)) req hreq]
      exact ⟨rfl, _, rfl⟩
  · intro resp1 h
    rcases instanceUpdate_state r env ireq iresp resp1 h with h1 | ⟨inst, h1⟩
    · exact Or.inl h1
    · exact Or.inr ⟨_, h1, rfl, rfl⟩
  · intro resp1 h
    rcases objectUpdate_state o env oreq oresp resp1 h with h1 | ⟨e, h1⟩
    · exact Or.inl h1
    · exact Or.inr ⟨_, h1, rfl, rfl⟩

/-- C11, at a concrete input: the server answers an instance update with
another `project_id`; the request body has no `project_id` and the state
written keeps the plan's `project_id`. -/
theorem C11_witness :
    (InstanceResource.Update ⟨NewClient "http://nah" ""⟩
        (answering ⟨200, .ok "\x7b\"id\":\"i9\",\"project_id\":\"p2\",\"name\":\"web\"\x7d"⟩)
        ⟨([], ⟨.value "i1", .value "p1", .value "web", .value 2, .value 512, .value "img",
          .value "running"⟩), none⟩ ⟨[], none⟩)
      = ([⟨"PATCH", "http://nah/v1/instances/i1", [("Content-Type", ["application/json"])],
            some ("\x7b\"name\":\"web\",\"cpu\":2,\"memory_mb\":512,\"image\":\"img\","
              ++ "\"status\":\"running\"\x7d")⟩],
          some ⟨[], some ⟨.value "i1", .value "p1", .value "web", .value 0, .value 0, .value "",
            .value ""⟩⟩)
      ∧ "project_id" ∉ (UpdateInstanceRequest.mk (some "web") (some 2) (some 512) (some "img")
          (some "running")).members.map Prod.fst :=
  ⟨by rfl,
    (C11_parent_ids_not_updatable (answering ⟨200, .ok ""⟩)
      ⟨some "web", some 2, some 512, some "img", some "running"⟩ ⟨none, none⟩
      ⟨NewClient "" ""⟩ ⟨NewClient "" ""⟩ ⟨([], ⟨.null, .null, .null, .null, .null, .null, .null⟩), none⟩
      ⟨[], none⟩ ⟨([], ⟨.null, .null, .null, .null⟩), none⟩ ⟨[], none⟩).1.1⟩

/-- C12: the object marshalled from a `CreateInstanceRequest` has the keys
`project_id`, `name`, `cpu`, `memory_mb` and `image` with the encodings of the
supplied values, whatever they are, the key `status` exactly when the supplied
status is not empty, no other key and no key twice; `CreateInstance` sends the
text of that object as the body of a POST whenever the request can be
constructed, so also for a count below 1 or an empty string. -/
theorem C12_create_instance_body (c : Client) (env : Env) (r : CreateInstanceRequest) :
    (r.members.lookup "project_id" = some (jsonString r.ProjectID)
        ∧ r.members.lookup "name" = some (jsonString r.Name)
        ∧ r.members.lookup "cpu" = some (jsonInt r.CPU)
        ∧ r.members.lookup "memory_mb" = some (jsonInt r.MemoryMB)
        ∧ r.members.lookup "image" = some (jsonString r.Image)
        ∧ r.members.lookup "status" = (if r.Status = "" then none else some (jsonString r.Status))
        ∧ (∀ k ∈ r.members.map Prod.fst,
            k ∈ ["project_id", "name", "cpu", "memory_mb", "image", "status"])
        ∧ (r.members.map Prod.fst).Nodup)
      ∧ (∀ req ∈ (c.CreateInstance env (some r)).sent,
          req.Method = "POST" ∧ req.Body = some (JSON.obj r.members).render)
      ∧ (env.newRequestError "POST" (c.endpoint ++ "/v1/instances") = none →
          ∃ req, (c.CreateInstance env (some r)).sent = [req])
      ∧ (∀ v : String, jsonString v = .str (quote v) ∧ unquote (quote v) = v)
      ∧ (∀ n : Int, jsonInt n = .num (formatInt n)
          ∧ (-(2 ^ 63 : Int) ≤ n → n < (2 ^ 63 : Int) → parseInt (formatInt n) = some n)) := by
  refine ⟨createInstance_members r, ?_, ?_, fun v => ⟨rfl, unquote_quote v⟩,
    fun n => ⟨rfl, parseInt_formatInt n⟩⟩
  · intro req hreq
    rw [mem_op_sent c env (.CreateInstance (some r)) req hreq]
    exact ⟨rfl, rfl⟩
  · intro hnew
    refine ⟨c.request "POST" "/v1/instances" (.createInstance (some r)), ?_⟩
    have h := op_sent c env (.CreateInstance (some r))
    rw [doRequest_sent] at h
    exact h.trans (if_pos hnew)

/-- C12, at a concrete input: an instance with zero CPUs, negative memory, an
empty image and no status. -/
theorem C12_witness :
    ((NewClient "" "").CreateInstance (answering ⟨201, .ok ""⟩)
        (some ⟨"p1", "web", 0, -5, "", ""⟩)).sent.map (fun req => req.Body)
      = [some ("\x7b\"project_id\":\"p1\",\"name\":\"web\",\"cpu\":0,\"memory_mb\":-5,"
          ++ "\"image\":\"\"\x7d")]
      ∧ (CreateInstanceRequest.mk "p1" "web" 0 (-5) "" "stopped").members.lookup "status"
        = some (jsonString "stopped") :=
  ⟨by decide,
    (C12_create_instance_body (NewClient "" "") (answering ⟨201, .ok ""⟩)
      ⟨"p1", "web", 0, -5, "", "stopped"⟩).1.2.2.2.2.2.1.trans (if_neg (by decide))⟩

/-- C13: a create, get or update method returns a nil entity exactly when it
returns a non-nil error. Whatever reports an error makes the method return
one: a request that cannot be constructed (wrapped behind
`failed to create request: `), a transport failure (the transport's error)
and `handleResponse` (its error). A delete method returns nil only when the
transport answered and `handleResponse`, called without a target, returned
nil. -/
theorem C13_no_error_swallowed (c : Client) (env : Env) (op : Op) :
    (op.isDelete = false → (op.hasValue c env = false ↔ (op.run c env).err ≠ none))
      ∧ (∀ e, env.newRequestError op.specMethod (c.endpoint ++ op.specPath) = some e →
          (op.run c env).err = some (.wrap "failed to create request: " e))
      ∧ (env.newRequestError op.specMethod (c.endpoint ++ op.specPath) = none →
          ∀ e, env.Do (c.request op.specMethod op.specPath op.payload) = .error e →
          (op.run c env).err = some e)
      ∧ (env.newRequestError op.specMethod (c.endpoint ++ op.specPath) = none →
          ∀ resp e, env.Do (c.request op.specMethod op.specPath op.payload) = .ok resp →
          op.handle env resp = some e → (op.run c env).err = some e)
      ∧ (op.isDelete = true → (op.run c env).err = none →
          ∃ resp, env.Do (c.request op.specMethod op.specPath op.payload) = .ok resp
            ∧ (handleResponse noTarget resp none).1 = none) := by
  obtain ⟨hnew, hsent⟩ := op_run_cases c env op
  refine ⟨?_, ?_, ?_, ?_, ?_⟩
  · intro hdel
    rw [op_hasValue, hdel]
    cases (op.run c env).err <;> simp
  · intro e he
    rw [hnew e he]
  · intro hn e he
    rw [(hsent hn).1 e he]
  · intro hn resp e he hh
    rw [(hsent hn).2 resp he, hh]
  · intro hdel herr
    cases hn : env.newRequestError op.specMethod (c.endpoint ++ op.specPath) with
    | some e =>
      rw [hnew e hn] at herr
      simp at herr
    | none =>
      rcases hd : env.Do (c.request op.specMethod op.specPath op.payload) with e | resp
      · rw [(hsent hn).1 e hd] at herr
        simp at herr
      · rw [(hsent hn).2 resp hd] at herr
        refine ⟨resp, rfl, ?_⟩
        rw [← op_handle_delete env op resp hdel]
        exact herr

/-- C13, at concrete inputs: `GetBucket` against a server answering 404
returns no entity and the error; against a failing transport it returns the
transport's error; `DeleteBucket` returns nil on the answer 204. -/
theorem C13_witness :
    (Op.GetBucket "b1").hasValue (NewClient "" "") (answering ⟨404, .ok "gone"⟩) = false
      ∧ ((Op.GetBucket "b1").run (NewClient "" "") (answering ⟨404, .ok "gone"⟩)).err
        = some (.new "API error (status 404): gone")
      ∧ ((Op.GetBucket "b1").run (NewClient "" "") (failing (.new "no route"))).err
        = some (.new "no route")
      ∧ ((Op.DeleteBucket "b1").run (NewClient "" "") (answering ⟨204, .ok ""⟩)).err = none :=
  ⟨((C13_no_error_swallowed (NewClient "" "") (answering ⟨404, .ok "gone"⟩)
      (.GetBucket "b1")).1 rfl).2 (by decide),
    (C13_no_error_swallowed (NewClient "" "") (answering ⟨404, .ok "gone"⟩)
      (.GetBucket "b1")).2.2.2.1 rfl ⟨404, .ok "gone"⟩ _ rfl (by decide),
    (C13_no_error_swallowed (NewClient "" "") (failing (.new "no route"))
      (.GetBucket "b1")).2.2.1 rfl _ rfl,
    by decide⟩

/-- C14: when the transport fails on the request of an operation, the
operation returns exactly the transport's error, after handing over that one
request. An error of the API form is returned only if the transport itself
produced that very error or a response with a status of 400 or more and a
readable body was received, and the errors the HTTP client produces for the
client's four methods are never of the API form. -/
theorem C14_transport_error_verbatim (c : Client) (env : Env) (op : Op) :
    (env.newRequestError op.specMethod (c.endpoint ++ op.specPath) = none →
        ∀ terr, env.Do (c.request op.specMethod op.specPath op.payload) = .error terr →
        op.run c env = ⟨[c.request op.specMethod op.specPath op.payload], some terr⟩)
      ∧ (∀ e, (op.run c env).err = some e → isAPIError e = true →
          env.newRequestError op.specMethod (c.endpoint ++ op.specPath) = none
          ∧ (env.Do (c.request op.specMethod op.specPath op.payload) = .error e
            ∨ ∃ resp body,
                env.Do (c.request op.specMethod op.specPath op.payload) = .ok resp
                ∧ resp.Body = .ok body ∧ resp.StatusCode ≥ 400
                ∧ e = .new ("API error (status " ++ formatInt resp.StatusCode ++ "): " ++ body)))
      ∧ (∀ (url : String) (cause : GoError),
          isAPIError (urlError op.specMethod url cause) = false) := by
  obtain ⟨hnew, hsent⟩ := op_run_cases c env op
  refine ⟨?_, ?_, ?_⟩
  · intro hn terr hd
    exact (hsent hn).1 terr hd
  · intro e herr hform
    cases hn : env.newRequestError op.specMethod (c.endpoint ++ op.specPath) with
    | some e1 =>
      rw [hnew e1 hn] at herr
      have h : e = .wrap "failed to create request: " e1 := by simpa using herr.symm
      rw [h, createError_not_api] at hform
      exact absurd hform (by decide)
    | none =>
      refine ⟨rfl, ?_⟩
      rcases hd : env.Do (c.request op.specMethod op.specPath op.payload) with terr | resp
      · rw [(hsent hn).1 terr hd] at herr
        left
        have h : e = terr := by simpa using herr.symm
        rw [h]
      · rw [(hsent hn).2 resp hd] at herr
        right
        rcases op_handle_error env op resp e herr with ⟨rerr, _, h⟩ | ⟨body, hb, hs, h⟩
          | ⟨body, cause, _, _, h⟩
        · rw [h, readError_not_api] at hform
          exact absurd hform (by decide)
        · exact ⟨resp, body, rfl, hb, hs, h⟩
        · rw [h, decodingError_not_api] at hform
          exact absurd hform (by decide)
  · intro url cause
    apply urlError_not_api
    cases op <;> simp [Op.specMethod]

/-- C14, at a concrete input: `GetProject` over a transport that fails with the
HTTP client's error for a refused connection. -/
theorem C14_witness :
    (Op.GetProject "p1").run (NewClient "http://nah" "")
        (failing (urlError "GET" "http://nah/v1/projects/p1" (.new "connection refused")))
      = ⟨[⟨"GET", "http://nah/v1/projects/p1", [("Content-Type", ["application/json"])], none⟩],
          some (urlError "GET" "http://nah/v1/projects/p1" (.new "connection refused"))⟩
      ∧ (urlError "GET" "http://nah/v1/projects/p1" (.new "connection refused")).Error
        = "Get \"http://nah/v1/projects/p1\": connection refused"
      ∧ isAPIError (urlError "GET" "http://nah/v1/projects/p1" (.new "connection refused"))
        = false :=
  ⟨(C14_transport_error_verbatim (NewClient "http://nah" "")
      (failing (urlError "GET" "http://nah/v1/projects/p1" (.new "connection refused")))
      (.GetProject "p1")).1 rfl _ rfl,
    by decide, by decide⟩

/-- C15, as stated, fails on "a single outbound network call": the server
answers `GetProject("p1")` with 302 and a `Location`; the operation hands one
request to `http.Client.Do`, which sends two on the network. -/
theorem C15_counterexample :
    (Op.run (NewClient "http://nah" "") (onNetwork movedNetwork) (.GetProject "p1")).sent.length
        = 1
      ∧ (Op.outbound (NewClient "http://nah" "") (onNetwork movedNetwork) movedNetwork
          (.GetProject "p1")).map (fun r => (r.Method, r.URL))
        = [("GET", "http://nah/v1/projects/p1"), ("GET", "http://nah/v1/projects/p2")]
      ∧ (Op.run (NewClient "http://nah" "") (onNetwork movedNetwork) (.GetProject "p1")).err
        = none := by
  decide

/-- C15 (amended): an operation calls `http.Client.Do` at most once and never
again, whatever the outcome: exactly once, with the request `doRequest` built,
when the request can be constructed, and not at all otherwise. On the network
that one call sends the request built and, after it, only requests that
redirects ask for, ten requests at most: when the round trip fails, or the
answer is not a 301, 302, 303, 307 or 308 (so for every status from 400 on and
every status below 300) or has no `Location`, the request built is the only
one sent. -/
theorem C15_one_call_and_only_redirects_follow (c : Client) (env : Env) (op : Op)
    (net : Network) (hdo : env.Do = net.Do) :
    (op.run c env).sent.length ≤ 1
      ∧ (env.newRequestError op.specMethod (c.endpoint ++ op.specPath) = none →
          (op.run c env).sent = [c.request op.specMethod op.specPath op.payload])
      ∧ (env.newRequestError op.specMethod (c.endpoint ++ op.specPath) ≠ none →
          (op.run c env).sent = [] ∧ op.outbound c env net = [])
      ∧ ((op.run c env).sent.length = 1 ↔
          env.newRequestError op.specMethod (c.endpoint ++ op.specPath) = none)
      ∧ (op.outbound c env net).length ≤ 10
      ∧ (env.newRequestError op.specMethod (c.endpoint ++ op.specPath) = none →
          (op.outbound c env net).head? = some (c.request op.specMethod op.specPath op.payload)
          ∧ (∀ err, net.RoundTrip (c.request op.specMethod op.specPath op.payload) = .error err →
              op.outbound c env net = [c.request op.specMethod op.specPath op.payload]
              ∧ (op.run c env).err = some (urlError op.specMethod
                  (c.endpoint ++ op.specPath) err))
          ∧ (∀ resp, net.RoundTrip (c.request op.specMethod op.specPath op.payload) = .ok resp →
              resp.StatusCode < 300 ∨ 400 ≤ resp.StatusCode ∨ resp.Location = "" →
              op.outbound c env net = [c.request op.specMethod op.specPath op.payload]
              ∧ env.Do (c.request op.specMethod op.specPath op.payload)
                = .ok ⟨resp.StatusCode, resp.Body⟩)
          ∧ (op.outbound c env net ≠ [c.request op.specMethod op.specPath op.payload] →
              ∃ resp, net.RoundTrip (c.request op.specMethod op.specPath op.payload) = .ok resp
                ∧ (resp.StatusCode = 301 ∨ resp.StatusCode = 302 ∨ resp.StatusCode = 303
                  ∨ resp.StatusCode = 307 ∨ resp.StatusCode = 308)
                ∧ resp.Location ≠ "")) := by
  have hs := op_sent c env op
  rw [doRequest_sent] at hs
  by_cases hn : env.newRequestError op.specMethod (c.endpoint ++ op.specPath) = none
  · rw [if_pos hn] at hs
    have hout : op.outbound c env net
        = (net.hops (c.request op.specMethod op.specPath op.payload) 9
            (c.request op.specMethod op.specPath op.payload) true).1 := by
      simp [Op.outbound, hs, Network.outbound]
    obtain ⟨hhead, hlen⟩ := hops_length net (c.request op.specMethod op.specPath op.payload) 9
      (c.request op.specMethod op.specPath op.payload) true
    refine ⟨by simp [hs], fun _ => hs, fun h => absurd hn h, by simp [hs, hn], ?_, fun _ => ?_⟩
    · rw [hout]
      exact hlen
    · refine ⟨by rw [hout]; exact hhead, ?_, ?_, ?_⟩
      · intro err hrt
        have hh := hops_done net _ 9 _ true _ (turn_failed net
          (c.request op.specMethod op.specPath op.payload)
          (c.request op.specMethod op.specPath op.payload) true err hrt)
        refine ⟨by rw [hout, hh], ?_⟩
        have hd : env.Do (c.request op.specMethod op.specPath op.payload)
            = .error (urlError op.specMethod (c.endpoint ++ op.specPath) err) := by
          rw [hdo]
          simp only [Network.Do, hh]
          rfl
        rw [((op_run_cases c env op).2 hn).1 _ hd]
      · intro resp hrt hst
        have hh := hops_done net _ 9 _ true _ (turn_no_redirect net
          (c.request op.specMethod op.specPath op.payload)
          (c.request op.specMethod op.specPath op.payload) true resp hrt (by
            rcases hst with h | h | h
            · left; omega
            · left; omega
            · right; exact h))
        refine ⟨by rw [hout, hh], ?_⟩
        rw [hdo]
        simp only [Network.Do, hh]
      · intro hne
        rw [hout] at hne
        exact hops_more net _ 9 _ true hne
  · rw [if_neg hn] at hs
    have hout : op.outbound c env net = [] := by simp [Op.outbound, hs]
    refine ⟨by simp [hs], fun h => absurd h hn, fun _ => ⟨hs, hout⟩, by simp [hs, hn],
      by simp [hout], fun h => absurd h hn⟩

/-- C15 amended, at concrete inputs: a 503 answer to `CreateBucket("logs")` on
a network without redirects; one call of `Do`, one request on the network. -/
theorem C15_witness :
    (Op.run (NewClient "http://nah" "") (onNetwork busyNetwork) (.CreateBucket "logs")).sent.length
        = 1
      ∧ (Op.outbound (NewClient "http://nah" "") (onNetwork busyNetwork) busyNetwork
          (.CreateBucket "logs")).length = 1
      ∧ (Op.outbound (NewClient "http://nah" "") (onNetwork busyNetwork) busyNetwork
          (.CreateBucket "logs")).length ≤ 10 :=
  ⟨by decide, by decide,
    (C15_one_call_and_only_redirects_follow (NewClient "http://nah" "") (onNetwork busyNetwork)
      (.CreateBucket "logs") busyNetwork rfl).2.2.2.2.1⟩

/-- C16: the encoder of `json.Marshal`, which refuses channels, functions and
complex numbers wherever they occur, succeeds on the Go value of every payload
the client can pass, a nil request pointer included, so `doRequest` never takes
its `failed to marshal request body` branch: an operation returns an error of
that form only if the transport itself failed with that very error. -/
theorem C16_encoding_error_unreachable (c : Client) (env : Env) (op : Op) :
    (∀ body : Payload, ∃ v, body.toValue.encode = .ok v ∧ jsonMarshal body = .ok v.render)
      ∧ (∃ text, jsonMarshal op.payload = .ok text)
      ∧ (∀ body : Payload, ∃ text, jsonMarshal body = .ok text)
      ∧ (∀ e, (op.run c env).err = some e → isEncodingError e = true →
          env.newRequestError op.specMethod (c.endpoint ++ op.specPath) = none
          ∧ env.Do (c.request op.specMethod op.specPath op.payload) = .error e) := by
  obtain ⟨hnew, hsent⟩ := op_run_cases c env op
  refine ⟨fun body => ⟨_, encode_payload body, jsonMarshal_eq body⟩,
    ⟨_, jsonMarshal_eq _⟩, fun body => ⟨_, jsonMarshal_eq body⟩, ?_⟩
  intro e herr hform
  cases hn : env.newRequestError op.specMethod (c.endpoint ++ op.specPath) with
  | some e1 =>
    rw [hnew e1 hn] at herr
    have h : e = .wrap "failed to create request: " e1 := by simpa using herr.symm
    rw [h, createError_not_encoding] at hform
    exact absurd hform (by decide)
  | none =>
    refine ⟨rfl, ?_⟩
    rcases hd : env.Do (c.request op.specMethod op.specPath op.payload) with terr | resp
    · rw [(hsent hn).1 terr hd] at herr
      have h : e = terr := by simpa using herr.symm
      rw [h]
    · rw [(hsent hn).2 resp hd] at herr
      rcases op_handle_error env op resp e herr with ⟨rerr, _, h⟩ | ⟨body, _, _, h⟩
        | ⟨body, cause, _, _, h⟩
      · rw [h, readError_not_encoding] at hform
        exact absurd hform (by decide)
      · rw [h, apiError_not_encoding] at hform
        exact absurd hform (by decide)
      · rw [h, decodingError_not_encoding] at hform
        exact absurd hform (by decide)

/-- C16, at concrete inputs: the bodies marshalled for a nil request pointer
and for a name with a quote and a control character. -/
theorem C16_witness :
    jsonMarshal (Op.UpdateObject "b1" "o1" none).payload = .ok "null"
      ∧ jsonMarshal (Op.CreateProject "a\"b\x01").payload
        = .ok "\x7b\"name\":\"a\\\"b\\u0001\"\x7d"
      ∧ ∃ text, jsonMarshal (Op.CreateInstance none).payload = .ok text :=
  ⟨(jsonMarshal_eq _).trans (congrArg Except.ok
      (by decide : (Op.UpdateObject "b1" "o1" none).payload.toJSON.render = _)),
    (jsonMarshal_eq _).trans (congrArg Except.ok
      (by decide : (Op.CreateProject "a\"b\x01").payload.toJSON.render = _)),
    (C16_encoding_error_unreachable (NewClient "" "") (answering ⟨200, .ok ""⟩)
      (.CreateInstance none)).2.1⟩

/-- C17 as stated fails: the plan differs from the current state only in
`value`, yet the PATCH body `MetadataResource.Update` sends also carries the
unchanged `path`. -/
theorem C17_counterexample :
    (MetadataResource.Update ⟨NewClient "http://nah" ""⟩ (answering ⟨200, .ok ""⟩)
        ⟨([], ⟨.value "m1", .value "/a", .value "v2"⟩),
          some ⟨.value "m1", .value "/a", .value "v1"⟩⟩
        ⟨[], some ⟨.value "m1", .value "/a", .value "v1"⟩⟩).1
      = [⟨"PATCH", "http://nah/v1/metadata/m1", [("Content-Type", ["application/json"])],
          some "\x7b\"path\":\"/a\",\"value\":\"v2\"\x7d"⟩] := by
  decide

/-- C17, amended: an update is a PATCH carrying every optional field of the
plan. When reading the plan gave no error, each request of
`InstanceResource.Update`, `MetadataResource.Update` and
`ObjectResource.Update` is a PATCH whose body is the object with all the
fields (`name`, `cpu`, `memory_mb`, `image`, `status`; `path`, `value`;
`path`, `content`) at their planned values, changed or not; and the requests
do not depend on the prior state handed in with the request. -/
theorem C17_update_sends_all_plan_fields (env : Env) (r : InstanceResource)
    (m : MetadataResource) (o : ObjectResource)
    (idiags : List Diagnostic) (iplan : InstanceResourceModel)
    (istate istate1 : Option InstanceResourceModel) (iresp : ResourceResponse InstanceResourceModel)
    (mdiags : List Diagnostic) (mplan : MetadataResourceModel)
    (mstate mstate1 : Option MetadataResourceModel) (mresp : ResourceResponse MetadataResourceModel)
    (odiags : List Diagnostic) (oplan : ObjectResourceModel)
    (ostate ostate1 : Option ObjectResourceModel) (oresp : ResourceResponse ObjectResourceModel) :
    (∀ req ∈ (r.Update env ⟨(idiags, iplan), istate⟩ iresp).1, req.Method = "PATCH"
        ∧ req.Body = some (JSON.obj
          [("name", jsonString iplan.Name.ValueString), ("cpu", jsonInt iplan.CPU.ValueInt64),
            ("memory_mb", jsonInt iplan.MemoryMB.ValueInt64),
            ("image", jsonString iplan.Image.ValueString),
            ("status", jsonString iplan.Status.ValueString)]).render)
      ∧ (∀ req ∈ (m.Update env ⟨(mdiags, mplan), mstate⟩ mresp).1, req.Method = "PATCH"
        ∧ req.Body = some (JSON.obj
          [("path", jsonString mplan.Path.ValueString),
            ("value", jsonString mplan.Value.ValueString)]).render)
      ∧ (∀ req ∈ (o.Update env ⟨(odiags, oplan), ostate⟩ oresp).1, req.Method = "PATCH"
        ∧ req.Body = some (JSON.obj
          [("path", jsonString oplan.Path.ValueString),
            ("content", jsonString oplan.Content.ValueString)]).render)
      ∧ (r.Update env ⟨(idiags, iplan), istate⟩ iresp).1
        = (r.Update env ⟨(idiags, iplan), istate1⟩ iresp).1
      ∧ (m.Update env ⟨(mdiags, mplan), mstate⟩ mresp).1
        = (m.Update env ⟨(mdiags, mplan), mstate1⟩ mresp).1
      ∧ (o.Update env ⟨(odiags, oplan), ostate⟩ oresp).1
        = (o.Update env ⟨(odiags, oplan), ostate1⟩ oresp).1
      ∧ (Diagnostics.HasError (Diagnostics.Append mresp.Diagnostics mdiags) = false →
          env.newRequestError "PATCH" (m.client.endpoint ++ "/v1/metadata/" ++ mplan.ID.ValueString)
            = none →
          ∃ req, (m.Update env ⟨(mdiags, mplan), mstate⟩ mresp).1 = [req]) := by
  refine ⟨?_, ?_, ?_, ?_, ?_, ?_, ?_⟩
  · intro req hreq
    rw [instanceUpdate_sent] at hreq
    split at hreq
    · simp at hreq
    · rw [mem_op_sent r.client env (.UpdateInstance _ (some _)) req hreq]
      exact ⟨rfl, rfl⟩
  · intro req hreq
    rw [metadataUpdate_sent] at hreq
    split at hreq
    · simp at hreq
    · rw [mem_op_sent m.client env (.UpdateMetadata _ (some _)) req hreq]
      exact ⟨rfl, rfl⟩
  · intro req hreq
    rw [objectUpdate_sent] at hreq
    split at hreq
    · simp at hreq
    · rw [mem_op_sent o.client env (.UpdateObject _ _ (some _)) req hreq]
      exact ⟨rfl, rfl⟩
  · rw [instanceUpdate_sent, instanceUpdate_sent]
  · rw [metadataUpdate_sent, metadataUpdate_sent]
  · rw [objectUpdate_sent, objectUpdate_sent]
  · intro hok hnew
    rw [metadataUpdate_sent]
    simp only [hok, Bool.false_eq_true, if_false]
    have h := op_sent m.client env (.UpdateMetadata mplan.ID.ValueString
      (some ⟨some mplan.Path.ValueString, some mplan.Value.ValueString⟩))
    rw [doRequest_sent] at h
    have hnew1 : env.newRequestError "PATCH"
        (m.client.endpoint ++ ("/v1/metadata/" ++ mplan.ID.ValueString)) = none := by
      rw [← String.append_assoc]
      exact hnew
    exact ⟨_, h.trans (if_pos hnew1)⟩

/-- C17 amended, at a concrete input: an object update whose plan changes only
the path sends path and content, with and without a prior state. -/
theorem C17_witness :
    (ObjectResource.Update ⟨NewClient "http://nah" ""⟩ (answering ⟨200, .ok ""⟩)
        ⟨([], ⟨.value "o1", .value "b1", .value "/b.txt", .value "aGVsbG8="⟩),
          some ⟨.value "o1", .value "b1", .value "/a.txt", .value "aGVsbG8="⟩⟩ ⟨[], none⟩).1.map
        (fun req => req.Body)
      = [some "\x7b\"path\":\"/b.txt\",\"content\":\"aGVsbG8=\"\x7d"]
      ∧ (ObjectResource.Update ⟨NewClient "http://nah" ""⟩ (answering ⟨200, .ok ""⟩)
        ⟨([], ⟨.value "o1", .value "b1", .value "/b.txt", .value "aGVsbG8="⟩),
          some ⟨.value "o1", .value "b1", .value "/a.txt", .value "aGVsbG8="⟩⟩ ⟨[], none⟩).1
        = (ObjectResource.Update ⟨NewClient "http://nah" ""⟩ (answering ⟨200, .ok ""⟩)
          ⟨([], ⟨.value "o1", .value "b1", .value "/b.txt", .value "aGVsbG8="⟩), none⟩
          ⟨[], none⟩).1 :=
  ⟨by decide,
    (C17_update_sends_all_plan_fields (answering ⟨200, .ok ""⟩) ⟨NewClient "" ""⟩
      ⟨NewClient "" ""⟩ ⟨NewClient "http://nah" ""⟩
      [] ⟨.null, .null, .null, .null, .null, .null, .null⟩ none none ⟨[], none⟩
      [] ⟨.null, .null, .null⟩ none none ⟨[], none⟩
      [] ⟨.value "o1", .value "b1", .value "/b.txt", .value "aGVsbG8="⟩
      (some ⟨.value "o1", .value "b1", .value "/a.txt", .value "aGVsbG8="⟩) none
      ⟨[], none⟩).2.2.2.2.2.1⟩

/-- C18 as stated fails: `CreateProject` with no name (the empty string) is not
rejected by the client; the request is handed to the transport with the body
`{"name":""}` and, the server answering 201, the method returns no error. The
same holds for `CreateObject` with a nil request. -/
theorem C18_counterexample :
    (Op.CreateProject "").run (NewClient "http://nah" "") (answering ⟨201, .ok ""⟩)
        = ⟨[⟨"POST", "http://nah/v1/projects", [("Content-Type", ["application/json"])],
            some "\x7b\"name\":\"\"\x7d"⟩], none⟩
      ∧ (Op.CreateObject "b1" none).run (NewClient "http://nah" "") (answering ⟨201, .ok ""⟩)
        = ⟨[⟨"POST", "http://nah/v1/bucket/b1/objects", [("Content-Type", ["application/json"])],
            some "null"⟩], none⟩ := by
  constructor <;> rfl

/-- C18, amended: the client does not validate payloads. Every operation,
whatever its payload, hands its request to the transport exactly when the
request can be constructed from the method and the URL, with the marshalled
payload as body; two operations with the same method and path are sent or not
sent together, whatever their payloads; and an error an operation returns
without having sent a request is the error to construct the request. -/
theorem C18_no_payload_validation (c : Client) (env : Env) (op op1 : Op) :
    (env.newRequestError op.specMethod (c.endpoint ++ op.specPath) = none →
        (op.run c env).sent = [c.request op.specMethod op.specPath op.payload]
        ∧ (op.payload ≠ .nil →
          (c.request op.specMethod op.specPath op.payload).Body
            = some op.payload.toJSON.render))
      ∧ (op.specMethod = op1.specMethod → op.specPath = op1.specPath →
          ((op.run c env).sent = [] ↔ (op1.run c env).sent = []))
      ∧ ((op.run c env).sent = [] →
          ∃ e, env.newRequestError op.specMethod (c.endpoint ++ op.specPath) = some e
            ∧ (op.run c env).err = some (.wrap "failed to create request: " e)) := by
  have key : ∀ o : Op, (o.run c env).sent = [] ↔
      env.newRequestError o.specMethod (c.endpoint ++ o.specPath) ≠ none := by
    intro o
    rw [op_sent, doRequest_sent]
    by_cases hn : env.newRequestError o.specMethod (c.endpoint ++ o.specPath) = none
    · simp [hn]
    · simp [hn]
  refine ⟨?_, ?_, ?_⟩
  · intro hn
    refine ⟨?_, ?_⟩
    · rw [op_sent, doRequest_sent, if_pos hn]
    · intro hp
      cases hpay : op.payload <;> simp [Client.request, hpay] at hp ⊢
  · intro hm hp
    rw [key op, key op1, hm, hp]
  · intro hs
    have hne := (key op).1 hs
    cases hn : env.newRequestError op.specMethod (c.endpoint ++ op.specPath) with
    | none => exact absurd hn hne
    | some e => exact ⟨e, rfl, by rw [(op_run_cases c env op).1 e hn]⟩

/-- C18 amended, at a concrete input: `CreateMetadata` with an empty path is
sent. -/
theorem C18_witness :
    ((Op.CreateMetadata "" "v").run (NewClient "http://nah" "") (answering ⟨201, .ok ""⟩)).sent
      = [⟨"POST", "http://nah/v1/metadata", [("Content-Type", ["application/json"])],
          some "\x7b\"path\":\"\",\"value\":\"v\"\x7d"⟩] :=
  ((C18_no_payload_validation (NewClient "http://nah" "") (answering ⟨201, .ok ""⟩)
    (.CreateMetadata "" "v") (.CreateMetadata "" "v")).1 rfl).1.trans (by decide)

/-- C19 as stated fails: the server answering `CreateProject("demo")` with
status 201 and the body `{}`, the method returns successfully, and the
returned project has an empty id, zero timestamps and an empty name, not the
submitted one. -/
theorem C19_counterexample :
    ((NewClient "" "").CreateProject (answering ⟨201, .ok "\x7b\x7d"⟩) "demo").err = none
      ∧ ((NewClient "" "").CreateProject (answering ⟨201, .ok "\x7b\x7d"⟩) "demo").value
        = some ⟨"", "", Time.zero, Time.zero⟩
      ∧ ((NewClient "" "").CreateProject (answering ⟨201, .ok "\x7b\x7d"⟩) "demo").value.map
          (fun p => p.Name) ≠ some "demo" := by
  decide

/-- C19, amended: a create method that returns successfully received a
response with a status below 400 and a readable body, and returns exactly what
the JSON decoder makes of that body starting from the zero entity (the zero
entity itself for an empty body). The identifier, the timestamps and the
declared fields are those of the response; the client checks none of them. -/
theorem C19_created_entity_is_decoded_response (c : Client) (env : Env) (name path value : String)
    (bucketID : String) (ireq : Option CreateInstanceRequest)
    (oreq : Option CreateObjectRequest) :
    ((c.CreateProject env name).err = none →
        ∃ resp body, env.Do (c.request "POST" "/v1/projects" (.stringMap [("name", name)]))
            = .ok resp ∧ resp.Body = .ok body ∧ resp.StatusCode < 400
          ∧ (len body > 0 → (Project.unmarshal env body Project.zero).1 = none)
          ∧ (c.CreateProject env name).value
            = some (if len body > 0 then (Project.unmarshal env body Project.zero).2
                else Project.zero))
      ∧ ((c.CreateInstance env ireq).err = none →
        ∃ resp body, env.Do (c.request "POST" "/v1/instances" (.createInstance ireq))
            = .ok resp ∧ resp.Body = .ok body ∧ resp.StatusCode < 400
          ∧ (len body > 0 → (Instance.unmarshal env body Instance.zero).1 = none)
          ∧ (c.CreateInstance env ireq).value
            = some (if len body > 0 then (Instance.unmarshal env body Instance.zero).2
                else Instance.zero))
      ∧ ((c.CreateMetadata env path value).err = none →
        ∃ resp body, env.Do (c.request "POST" "/v1/metadata"
              (.stringMap [("path", path), ("value", value)]))
            = .ok resp ∧ resp.Body = .ok body ∧ resp.StatusCode < 400
          ∧ (len body > 0 → (Metadata.unmarshal env body Metadata.zero).1 = none)
          ∧ (c.CreateMetadata env path value).value
            = some (if len body > 0 then (Metadata.unmarshal env body Metadata.zero).2
                else Metadata.zero))
      ∧ ((c.CreateBucket env name).err = none →
        ∃ resp body, env.Do (c.request "POST" "/v1/buckets" (.stringMap [("name", name)]))
            = .ok resp ∧ resp.Body = .ok body ∧ resp.StatusCode < 400
          ∧ (len body > 0 → (Bucket.unmarshal env body Bucket.zero).1 = none)
          ∧ (c.CreateBucket env name).value
            = some (if len body > 0 then (Bucket.unmarshal env body Bucket.zero).2
                else Bucket.zero))
      ∧ ((c.CreateObject env bucketID oreq).err = none →
        ∃ resp body, env.Do (c.request "POST" ("/v1/bucket/" ++ bucketID ++ "/objects")
              (.createObject oreq))
            = .ok resp ∧ resp.Body = .ok body ∧ resp.StatusCode < 400
          ∧ (len body > 0 → (Object.unmarshal env body Object.zero).1 = none)
          ∧ (c.CreateObject env bucketID oreq).value
            = some (if len body > 0 then (Object.unmarshal env body Object.zero).2
                else Object.zero)) := by
  refine ⟨?_, ?_, ?_, ?_, ?_⟩
  · intro h
    rw [CreateProject_eq] at h ⊢
    obtain ⟨resp, body, hr, hb, hs, hd, hv⟩ := Call.after_success _ _ _ h
    exact ⟨resp, body, doRequest_ok c env _ _ _ resp hr, hb, hs, hd, hv⟩
  · intro h
    rw [CreateInstance_eq] at h ⊢
    obtain ⟨resp, body, hr, hb, hs, hd, hv⟩ := Call.after_success _ _ _ h
    exact ⟨resp, body, doRequest_ok c env _ _ _ resp hr, hb, hs, hd, hv⟩
  · intro h
    rw [CreateMetadata_eq] at h ⊢
    obtain ⟨resp, body, hr, hb, hs, hd, hv⟩ := Call.after_success _ _ _ h
    exact ⟨resp, body, doRequest_ok c env _ _ _ resp hr, hb, hs, hd, hv⟩
  · intro h
    rw [CreateBucket_eq] at h ⊢
    obtain ⟨resp, body, hr, hb, hs, hd, hv⟩ := Call.after_success _ _ _ h
    exact ⟨resp, body, doRequest_ok c env _ _ _ resp hr, hb, hs, hd, hv⟩
  · intro h
    rw [CreateObject_eq] at h ⊢
    obtain ⟨resp, body, hr, hb, hs, hd, hv⟩ := Call.after_success _ _ _ h
    exact ⟨resp, body, doRequest_ok c env _ _ _ resp hr, hb, hs, hd, hv⟩

/-- C19 amended, at concrete inputs: a server that echoes a bucket gives that
bucket, and a server that answers with a different name gives the different
name. -/
theorem C19_witness :
    ((NewClient "" "").CreateBucket
        (answering ⟨201, .ok "\x7b\"id\":\"b1\",\"name\":\"other\"\x7d"⟩) "logs").value
      = some ⟨"b1", "other", Time.zero, Time.zero⟩
      ∧ ∃ resp body, (answering ⟨201, .ok "\x7b\"id\":\"b1\",\"name\":\"other\"\x7d"⟩).Do
            ((NewClient "" "").request "POST" "/v1/buckets" (.stringMap [("name", "logs")]))
            = .ok resp ∧ resp.Body = .ok body ∧ resp.StatusCode < 400
          ∧ (len body > 0 → (Bucket.unmarshal
              (answering ⟨201, .ok "\x7b\"id\":\"b1\",\"name\":\"other\"\x7d"⟩) body
              Bucket.zero).1 = none)
          ∧ ((NewClient "" "").CreateBucket
              (answering ⟨201, .ok "\x7b\"id\":\"b1\",\"name\":\"other\"\x7d"⟩) "logs").value
            = some (if len body > 0 then (Bucket.unmarshal
                (answering ⟨201, .ok "\x7b\"id\":\"b1\",\"name\":\"other\"\x7d"⟩) body
                Bucket.zero).2 else Bucket.zero) :=
  ⟨by decide,
    (C19_created_entity_is_decoded_response (NewClient "" "")
      (answering ⟨201, .ok "\x7b\"id\":\"b1\",\"name\":\"other\"\x7d"⟩) "logs" "" "" "" none
      none).2.2.2.1 (by decide)⟩

/-! ## Auxiliary facts on timestamps and data sources -/

/-- The year and the day within it that `yearDay` gives for a day count of
the years 0 to 9999: the year is in that range, the day is a day of that year,
and the two add up to the day count. -/
theorem yearDay_spec (days : Int) (hlo : daysBeforeYear 0 ≤ days)
    (hhi : days < daysBeforeYear 10000) :
    0 ≤ (yearDay days).1 ∧ (yearDay days).1 ≤ 9999
      ∧ daysBeforeYear (yearDay days).1 + (yearDay days).2 = days
      ∧ 0 ≤ (yearDay days).2
      ∧ (yearDay days).2 < (if isLeap (yearDay days).1 = true then 366 else 365) := by
  simp only [daysBeforeYear, yearDay, isLeap, decide_eq_true_eq] at *
  generalize hn400 : days / 146097 = n400
  generalize hd1 : days - 146097 * n400 = d1
  generalize hq100 : d1 / 36524 = q100
  have hq : 0 ≤ q100 ∧ q100 ≤ 4 := by omega
  obtain ⟨hq0, hq4⟩ := hq
  generalize hn100 : q100 - q100 / 4 = n100
  generalize hd2 : d1 - 36524 * n100 = d2
  generalize hn4 : d2 / 1461 = n4
  generalize hd3 : d2 - 1461 * n4 = d3
  generalize hq1 : d3 / 365 = q1
  have hd2b : 0 ≤ d2 ∧ d2 ≤ 36524 ∧ (n100 ≠ 3 → d2 ≤ 36523) ∧ 0 ≤ n100 ∧ n100 ≤ 3 := by
    interval_cases q100 <;> omega
  have hn4b : 0 ≤ n4 ∧ n4 ≤ 24 := by omega
  have hd3b : 0 ≤ d3 ∧ d3 ≤ 1460 ∧ (n4 = 24 → n100 ≠ 3 → d3 ≤ 1459) := by omega
  have hq' : 0 ≤ q1 ∧ q1 ≤ 4 := by omega
  obtain ⟨hq10, hq14⟩ := hq'
  generalize hn1 : q1 - q1 / 4 = n1
  have hn1b : 0 ≤ n1 ∧ n1 ≤ 3 ∧ 0 ≤ d3 - 365 * n1 ∧ d3 - 365 * n1 ≤ 365
      ∧ (n1 ≠ 3 → d3 - 365 * n1 ≤ 364) := by
    interval_cases q1 <;> omega
  have hn400b : -1 ≤ n400 ∧ n400 ≤ 24 := by omega
  have e4 : (400 * n400 + 100 * n100 + 4 * n4 + n1 + 1 - 1) / 4 = 100 * n400 + 25 * n100 + n4 := by
    omega
  have e100 : (400 * n400 + 100 * n100 + 4 * n4 + n1 + 1 - 1) / 100 = 4 * n400 + n100 := by
    omega
  have e400 : (400 * n400 + 100 * n100 + 4 * n4 + n1 + 1 - 1) / 400 = n400 := by
    omega
  rw [e4, e100, e400]
  have m4 : (400 * n400 + 100 * n100 + 4 * n4 + n1 + 1) % 4 = 0 ↔ n1 = 3 := by omega
  have m100 : (400 * n400 + 100 * n100 + 4 * n4 + n1 + 1) % 100 = 0 ↔ n1 = 3 ∧ n4 = 24 := by
    omega
  have m400 : (400 * n400 + 100 * n100 + 4 * n4 + n1 + 1) % 400 = 0
      ↔ n1 = 3 ∧ n4 = 24 ∧ n100 = 3 := by
    omega
  simp only [m4, m100, m400]
  refine ⟨by omega, by omega, by omega, by omega, ?_⟩
  · split_ifs with h
    · omega
    · have : n1 ≠ 3 ∨ (n4 = 24 ∧ n100 ≠ 3) := by
        by_contra hc
        apply h
        omega
      omega

/-- The table `daysBefore`, entry by entry. -/
theorem daysBefore_table :
    daysBefore 0 = 0 ∧ daysBefore 1 = 31 ∧ daysBefore 2 = 59 ∧ daysBefore 3 = 90
      ∧ daysBefore 4 = 120 ∧ daysBefore 5 = 151 ∧ daysBefore 6 = 181 ∧ daysBefore 7 = 212
      ∧ daysBefore 8 = 243 ∧ daysBefore 9 = 273 ∧ daysBefore 10 = 304 ∧ daysBefore 11 = 334
      ∧ daysBefore 12 = 365 := by
  decide

/-- The month and day that `monthDay` gives for a day of a year: a month from
1 to 12, a day of that month, and the two add up to the day of the year. -/
theorem monthDay_spec (year yday : Int) (h0 : 0 ≤ yday)
    (h1 : yday < (if isLeap year = true then 366 else 365)) :
    1 ≤ (monthDay year yday).1 ∧ (monthDay year yday).1 ≤ 12
      ∧ 1 ≤ (monthDay year yday).2
      ∧ (monthDay year yday).2 ≤ daysIn (monthDay year yday).1 year
      ∧ daysBefore ((monthDay year yday).1 - 1)
          + (if isLeap year = true ∧ (monthDay year yday).1 ≥ 3 then 1 else 0)
          + ((monthDay year yday).2 - 1) = yday := by
  obtain ⟨t0, t1, t2, t3, t4, t5, t6, t7, t8, t9, t10, t11, t12⟩ := daysBefore_table
  unfold monthDay daysIn
  generalize isLeap year = leap at *
  cases leap
  · simp only [Bool.false_eq_true, false_and, if_false, and_false] at *
    generalize hm : yday / 31 = m
    have hmb : 0 ≤ m ∧ m ≤ 11 := by omega
    obtain ⟨hm0, hm11⟩ := hmb
    interval_cases m <;> norm_num [t0, t1, t2, t3, t4, t5, t6, t7, t8, t9, t10, t11, t12]
      <;> split_ifs <;> norm_num [t0, t1, t2, t3, t4, t5, t6, t7, t8, t9, t10, t11, t12]
      <;> omega
  · simp only [true_and, if_true] at *
    by_cases h59 : yday = 59
    · subst h59
      norm_num [t1, t2]
    · rw [if_neg h59]
      generalize hday : (if yday > 59 then yday - 1 else yday) = day
      have hdb : 0 ≤ day ∧ day < 365 ∧ (day < 59 → yday = day) ∧ (59 ≤ day → yday = day + 1) := by
        split_ifs at hday <;> omega
      generalize hm : day / 31 = m
      have hmb : 0 ≤ m ∧ m ≤ 11 := by omega
      obtain ⟨hm0, hm11⟩ := hmb
      interval_cases m <;> norm_num [t0, t1, t2, t3, t4, t5, t6, t7, t8, t9, t10, t11, t12]
        <;> split_ifs <;> norm_num [t0, t1, t2, t3, t4, t5, t6, t7, t8, t9, t10, t11, t12]
        <;> omega

/-- One step of the digit loop: a number below ten is its digit, a larger one
gives its last digit and goes on with the rest. -/
theorem toDigitsCore_step (fuel n : Nat) (ds : List Char) (h : n < fuel) :
    Nat.toDigitsCore 10 fuel n ds
      = if n < 10 then Nat.digitChar n :: ds
        else Nat.toDigitsCore 10 (fuel - 1) (n / 10) (Nat.digitChar (n % 10) :: ds) := by
  cases fuel with
  | zero => omega
  | succ f =>
    simp only [Nat.toDigitsCore, Nat.add_sub_cancel]
    by_cases h10 : n < 10
    · have e1 : n / 10 = 0 := by omega
      have e2 : n % 10 = n := by omega
      simp [e1, e2, h10]
    · have e1 : n / 10 ≠ 0 := by omega
      simp [e1, h10]

/-- A number from 0 to 99 at width two is its two digits. -/
theorem appendInt_two (x : Int) (h0 : 0 ≤ x) (h : x < 100) :
    appendInt x 2 = [Nat.digitChar (x.natAbs / 10), Nat.digitChar (x.natAbs % 10)] := by
  obtain ⟨n, rfl⟩ := Int.eq_ofNat_of_zero_le h0
  have hn : n < 100 := by omega
  simp only [appendInt, Int.natAbs_ofNat, Nat.toDigits]
  rw [if_neg (by omega), toDigitsCore_step _ _ _ (by omega)]
  by_cases h10 : n < 10
  · have e1 : n / 10 = 0 := by omega
    have e2 : n % 10 = n := by omega
    simp [h10, e1, e2]
    rfl
  · rw [if_neg h10, toDigitsCore_step _ _ _ (by omega), if_pos (by omega)]
    simp

/-- A number from 0 to 9999 at width four is its four digits. -/
theorem appendInt_four (x : Int) (h0 : 0 ≤ x) (h : x < 10000) :
    appendInt x 4 = [Nat.digitChar (x.natAbs / 1000), Nat.digitChar (x.natAbs / 100 % 10),
      Nat.digitChar (x.natAbs / 10 % 10), Nat.digitChar (x.natAbs % 10)] := by
  obtain ⟨n, rfl⟩ := Int.eq_ofNat_of_zero_le h0
  have hn : n < 10000 := by omega
  simp only [appendInt, Int.natAbs_ofNat, Nat.toDigits]
  rw [if_neg (by omega), toDigitsCore_step _ _ _ (by omega)]
  by_cases h10 : n < 10
  · have e1 : n / 1000 = 0 := by omega
    have e2 : n / 100 % 10 = 0 := by omega
    have e3 : n / 10 % 10 = 0 := by omega
    have e4 : n % 10 = n := by omega
    simp [h10, e1, e2, e3, e4, List.replicate]
    rfl
  · rw [if_neg h10, toDigitsCore_step _ _ _ (by omega)]
    by_cases h100 : n < 100
    · have e1 : n / 1000 = 0 := by omega
      have e2 : n / 100 % 10 = 0 := by omega
      have e3 : n / 10 % 10 = n / 10 := by omega
      rw [if_pos (by omega)]
      simp [e1, e2, e3, List.replicate]
      rfl
    · rw [if_neg (by omega), toDigitsCore_step _ _ _ (by omega)]
      by_cases h1000 : n < 1000
      · have e1 : n / 1000 = 0 := by omega
        have e2 : n / 100 % 10 = n / 100 := by omega
        have e3 : n / 10 / 10 = n / 100 := by omega
        rw [if_pos (by omega)]
        simp [e1, e2, e3, List.replicate]
        rfl
      · have e3 : n / 10 / 10 = n / 100 := by omega
        have e4 : n / 10 / 10 / 10 = n / 1000 := by omega
        have e5 : n / 100 / 10 = n / 1000 := by omega
        rw [if_neg (by omega), toDigitsCore_step _ _ _ (by omega), if_pos (by omega)]
        simp [e3, e4, e5]

/-- Two digits are read as the number they denote. -/
theorem getnum_digits (fixed : Bool) (a b : Nat) (ha : a < 10) (hb : b < 10)
    (rest : List Char) :
    getnum fixed (Nat.digitChar a :: Nat.digitChar b :: rest)
      = some (((a * 10 + b : Nat) : Int), rest) := by
  obtain ⟨a1, a2, -⟩ := digitChar_digit a ha
  obtain ⟨b1, b2, -⟩ := digitChar_digit b hb
  simp only [getnum, a1, b1, if_true, a2, b2]

/-- Four digits are read as the year they denote. -/
theorem getYear_digits (a b c d : Nat) (ha : a < 10) (hb : b < 10) (hc : c < 10)
    (hd : d < 10) (rest : List Char) :
    getYear (Nat.digitChar a :: Nat.digitChar b :: Nat.digitChar c :: Nat.digitChar d :: rest)
      = some (((a * 1000 + b * 100 + c * 10 + d : Nat) : Int), rest) := by
  obtain ⟨a1, a2, -⟩ := digitChar_digit a ha
  obtain ⟨b1, b2, -⟩ := digitChar_digit b hb
  obtain ⟨c1, c2, -⟩ := digitChar_digit c hc
  obtain ⟨d1, d2, -⟩ := digitChar_digit d hd
  simp only [getYear, a1, b1, c1, d1, Bool.and_self, if_true, digitsValue, List.foldl, a2, b2,
    c2, d2]
  congr 3
  omega

/-- The two digits of a number from 0 to 99 denote it. -/
theorem natAbs_digits (x : Int) (h0 : 0 ≤ x) (h : x < 100) :
    x.natAbs / 10 < 10 ∧ x.natAbs % 10 < 10
      ∧ ((x.natAbs / 10 * 10 + x.natAbs % 10 : Nat) : Int) = x := by
  omega

/-- A sign, two digits of hours, a colon and two digits of minutes are read as
the offset they denote. -/
theorem getZone_signed (sign : Char) (hr mm : Int) (hr0 : 0 ≤ hr) (hr1 : hr < 24)
    (mm0 : 0 ≤ mm) (mm1 : mm < 60) (hs : sign = '+' ∨ sign = '-') :
    getZone (sign :: (appendInt hr 2 ++ ':' :: appendInt mm 2))
      = some (if sign = '+' then (hr * 60 + mm) * 60 else -((hr * 60 + mm) * 60), []) := by
  obtain ⟨a1, a2, a3⟩ := natAbs_digits hr hr0 (by omega)
  obtain ⟨b1, b2, b3⟩ := natAbs_digits mm mm0 (by omega)
  rw [appendInt_two hr hr0 (by omega), appendInt_two mm mm0 (by omega)]
  rcases hs with rfl | rfl
  · simp [getZone]
    rw [getnum_digits true _ _ a1 a2 [], getnum_digits true _ _ b1 b2 []]
    simp only [a3, b3]
    rw [if_neg (by omega)]
  · simp [getZone]
    rw [getnum_digits true _ _ a1 a2 [], getnum_digits true _ _ b1 b2 []]
    simp only [a3, b3]
    rw [if_neg (by omega)]

/-- No fraction is read where a sign stands. -/
theorem getFraction_signed (sign : Char) (rest : List Char)
    (hs : sign = '+' ∨ sign = '-') :
    getFraction (sign :: rest) = (0, sign :: rest) := by
  rcases hs with rfl | rfl <;> cases rest <;> simp [getFraction]

/-- The zone text of an offset of whole minutes below 24 hours holds no
fraction and is read back as that offset. -/
theorem zoneText_parsed (offset : Int) (h60 : offset % 60 = 0) (hlo : -86400 < offset)
    (hhi : offset < 86400) :
    getFraction (zoneText offset) = (0, zoneText offset)
      ∧ getZone (zoneText offset) = some (offset, []) := by
  by_cases hz : offset = 0
  · subst hz
    exact ⟨rfl, rfl⟩
  · have hd : Int.tdiv offset 60 = offset / 60 :=
      Int.tdiv_eq_ediv_of_dvd (Int.dvd_of_emod_eq_zero h60)
    simp only [zoneText, if_neg hz, hd]
    by_cases hneg : offset / 60 < 0
    · rw [if_pos hneg]
      refine ⟨getFraction_signed _ _ (Or.inr rfl), ?_⟩
      rw [getZone_signed _ _ _ (by omega) (by omega) (by omega) (by omega) (Or.inr rfl)]
      rw [if_neg (by decide)]
      congr 2
      omega
    · rw [if_neg hneg]
      refine ⟨getFraction_signed _ _ (Or.inl rfl), ?_⟩
      rw [getZone_signed _ _ _ (by omega) (by omega) (by omega) (by omega) (Or.inl rfl)]
      rw [if_pos rfl]
      congr 2
      omega

/-- The four digits of a number from 0 to 9999 denote it. -/
theorem natAbs_digits4 (x : Int) (h0 : 0 ≤ x) (h : x < 10000) :
    x.natAbs / 1000 < 10 ∧ x.natAbs / 100 % 10 < 10 ∧ x.natAbs / 10 % 10 < 10
      ∧ x.natAbs % 10 < 10
      ∧ ((x.natAbs / 1000 * 1000 + x.natAbs / 100 % 10 * 100 + x.natAbs / 10 % 10 * 10
          + x.natAbs % 10 : Nat) : Int) = x := by
  omega

/-- The fields of a date and time of day written one after another in the
layout are read back as that date and time. -/
theorem parse_fields (y m d hh mi ss off : Int) (hy0 : 0 ≤ y) (hy1 : y < 10000)
    (hm0 : 1 ≤ m) (hm1 : m ≤ 12) (hd0 : 1 ≤ d) (hd1 : d ≤ daysIn m y)
    (hh0 : 0 ≤ hh) (hh1 : hh < 24) (hmi0 : 0 ≤ mi) (hmi1 : mi < 60)
    (hs0 : 0 ≤ ss) (hs1 : ss < 60)
    (h60 : off % 60 = 0) (hlo : -86400 < off) (hhi : off < 86400) :
    parseTimeLayout (String.mk (appendInt y 4 ++ ('-' :: (appendInt m 2 ++ ('-' :: (appendInt d 2
        ++ ('T' :: (appendInt hh 2 ++ (':' :: (appendInt mi 2 ++ (':' :: (appendInt ss 2
        ++ zoneText off))))))))))))
      = some ⟨dateSeconds y m d hh mi ss - off, 0, off⟩ := by
  have hd31 : d < 100 := by
    have : daysIn m y ≤ 31 := by
      obtain ⟨t0, t1, t2, t3, t4, t5, t6, t7, t8, t9, t10, t11, t12⟩ := daysBefore_table
      unfold daysIn
      split_ifs
      · omega
      · interval_cases m <;> norm_num [t0, t1, t2, t3, t4, t5, t6, t7, t8, t9, t10, t11, t12]
    omega
  obtain ⟨y1, y2, y3, y4, y5⟩ := natAbs_digits4 y hy0 hy1
  obtain ⟨m1, m2, m3⟩ := natAbs_digits m (by omega) (by omega)
  obtain ⟨d1, d2, d3⟩ := natAbs_digits d (by omega) (by omega)
  obtain ⟨a1, a2, a3⟩ := natAbs_digits hh (by omega) (by omega)
  obtain ⟨b1, b2, b3⟩ := natAbs_digits mi (by omega) (by omega)
  obtain ⟨c1, c2, c3⟩ := natAbs_digits ss (by omega) (by omega)
  obtain ⟨z1, z2⟩ := zoneText_parsed off h60 hlo hhi
  rw [appendInt_four y hy0 hy1, appendInt_two m (by omega) (by omega),
    appendInt_two d (by omega) (by omega), appendInt_two hh hh0 (by omega),
    appendInt_two mi hmi0 (by omega), appendInt_two ss hs0 (by omega)]
  simp only [parseTimeLayout, List.cons_append, List.nil_append,
    getYear_digits _ _ _ _ y1 y2 y3 y4, expectChar, if_true, Option.some_bind,
    getnum_digits _ _ _ m1 m2, getnum_digits _ _ _ d1 d2, getnum_digits _ _ _ a1 a2,
    getnum_digits _ _ _ b1 b2, getnum_digits _ _ _ c1 c2, z1, z2, y5, m3, d3, a3, b3, c3]
  rw [if_neg (by simp), if_neg (by omega), if_neg (by omega), if_neg (by omega)]

/-- The elements of the repository's layout: `2006`, `-`, `01`, `-`, `02`,
`T`, `15`, `:`, `04`, `:`, `05`, `Z07:00`. -/
theorem layoutElems_timeLayout :
    layoutElems timeLayout.data
      = [.stdLongYear, .text '-', .stdZeroMonth, .text '-', .stdZeroDay, .text 'T', .stdHour,
          .text ':', .stdZeroMinute, .text ':', .stdZeroSecond, .stdISO8601ColonTZ] := by
  decide

/-- Text written with the layout is read back, under the layout, as the
second and offset it was written from. -/
theorem format_parsed (t : Time) (h : t.isRFC3339 = true) :
    parseTimeLayout (t.Format timeLayout) = some ⟨t.sec, 0, t.offset⟩ := by
  simp only [Time.isRFC3339, decide_eq_true_eq] at h
  obtain ⟨-, h60, hlo, hhi, hmin, hmax⟩ := h
  have hdays : daysBeforeYear 0 ≤ (t.sec + t.offset) / 86400
      ∧ (t.sec + t.offset) / 86400 < daysBeforeYear 10000 := by
    generalize daysBeforeYear 0 = a at *
    generalize daysBeforeYear 10000 = b at *
    omega
  obtain ⟨y0, y1, ysum, yd0, yd1⟩ := yearDay_spec _ hdays.1 hdays.2
  obtain ⟨m0, m1, d0, d1, msum⟩ := monthDay_spec _ _ yd0 yd1
  have hp := parse_fields (yearDay ((t.sec + t.offset) / 86400)).1
    (monthDay (yearDay ((t.sec + t.offset) / 86400)).1
      (yearDay ((t.sec + t.offset) / 86400)).2).1
    (monthDay (yearDay ((t.sec + t.offset) / 86400)).1
      (yearDay ((t.sec + t.offset) / 86400)).2).2
    ((t.sec + t.offset) % 86400 / 3600) ((t.sec + t.offset) % 86400 % 3600 / 60)
    ((t.sec + t.offset) % 86400 % 60) t.offset y0 (by omega) m0 m1 d0 d1 (by omega) (by omega)
    (by omega) (by omega) (by omega) (by omega) h60 hlo hhi
  have hfmt : t.Format timeLayout
      = String.mk (appendInt (yearDay ((t.sec + t.offset) / 86400)).1 4
      ++ ('-' :: (appendInt (monthDay (yearDay ((t.sec + t.offset) / 86400)).1
        (yearDay ((t.sec + t.offset) / 86400)).2).1 2
      ++ ('-' :: (appendInt (monthDay (yearDay ((t.sec + t.offset) / 86400)).1
        (yearDay ((t.sec + t.offset) / 86400)).2).2 2
      ++ ('T' :: (appendInt ((t.sec + t.offset) % 86400 / 3600) 2
      ++ (':' :: (appendInt ((t.sec + t.offset) % 86400 % 3600 / 60) 2
      ++ (':' :: (appendInt ((t.sec + t.offset) % 86400 % 60) 2
      ++ zoneText t.offset))))))))))) := by
    simp [Time.Format, layoutElems_timeLayout, Time.elemText]
  rw [hfmt, hp]
  congr 2
  unfold dateSeconds
  generalize daysBeforeYear _ = a at *
  generalize daysBefore _ = b at *
  split_ifs at msum ⊢ <;> omega

/-- After `AddError` the diagnostics hold an error. -/
theorem addError_hasError (ds : List Diagnostic) (summary detail : String) :
    Diagnostics.HasError (Diagnostics.AddError ds summary detail) = true := by
  simp only [Diagnostics.AddError, Diagnostics.Append, List.foldl, Diagnostics.HasError]
  split_ifs with h
  · exact List.any_eq_true.2 ⟨_, h, rfl⟩
  · simp

/-- A read of the project data source that reports no error exposes the
timestamps of the project the client returned, written with the layout. -/
theorem projectRead_timestamps (d : ProjectDataSource) (env : Env)
    (config : List Diagnostic × ProjectDataSourceModel)
    (resp out : ResourceResponse ProjectDataSourceModel)
    (h : (d.Read env config resp).2 = some out)
    (hok : Diagnostics.HasError out.Diagnostics = false) :
    ∃ e state, (d.client.GetProject env config.2.ID.ValueString).value = some e
      ∧ out.State = some state
      ∧ state.CreatedAt = .value (e.CreatedAt.Format timeLayout)
      ∧ state.UpdatedAt = .value (e.UpdatedAt.Format timeLayout) := by
  unfold ProjectDataSource.Read at h
  simp only at h
  split_ifs at h with h1
  · simp only [Option.some.injEq] at h
    subst h
    simp [h1] at hok
  · generalize d.client.GetProject env config.2.ID.ValueString = call at *
    rcases call with ⟨sent, value, err⟩
    cases err with
    | some e =>
      simp only [Option.some.injEq] at h
      subst h
      simp [addError_hasError] at hok
    | none =>
      cases value with
      | none => simp at h
      | some e =>
        simp only [Option.some.injEq] at h
        subst h
        exact ⟨e, _, rfl, rfl, rfl, rfl⟩

/-- A read of the instance data source that reports no error exposes the
timestamps of the instance the client returned, written with the layout. -/
theorem instanceRead_timestamps (d : InstanceDataSource) (env : Env)
    (config : List Diagnostic × InstanceDataSourceModel)
    (resp out : ResourceResponse InstanceDataSourceModel)
    (h : (d.Read env config resp).2 = some out)
    (hok : Diagnostics.HasError out.Diagnostics = false) :
    ∃ e state, (d.client.GetInstance env config.2.ID.ValueString).value = some e
      ∧ out.State = some state
      ∧ state.CreatedAt = .value (e.CreatedAt.Format timeLayout)
      ∧ state.UpdatedAt = .value (e.UpdatedAt.Format timeLayout) := by
  unfold InstanceDataSource.Read at h
  simp only at h
  split_ifs at h with h1
  · simp only [Option.some.injEq] at h
    subst h
    simp [h1] at hok
  · generalize d.client.GetInstance env config.2.ID.ValueString = call at *
    rcases call with ⟨sent, value, err⟩
    cases err with
    | some e =>
      simp only [Option.some.injEq] at h
      subst h
      simp [addError_hasError] at hok
    | none =>
      cases value with
      | none => simp at h
      | some e =>
        simp only [Option.some.injEq] at h
        subst h
        exact ⟨e, _, rfl, rfl, rfl, rfl⟩

/-- A read of the metadata data source that reports no error exposes the
timestamps of the metadata the client returned, written with the layout. -/
theorem metadataRead_timestamps (d : MetadataDataSource) (env : Env)
    (config : List Diagnostic × MetadataDataSourceModel)
    (resp out : ResourceResponse MetadataDataSourceModel)
    (h : (d.Read env config resp).2 = some out)
    (hok : Diagnostics.HasError out.Diagnostics = false) :
    ∃ e state, (d.client.GetMetadata env config.2.ID.ValueString).value = some e
      ∧ out.State = some state
      ∧ state.CreatedAt = .value (e.CreatedAt.Format timeLayout)
      ∧ state.UpdatedAt = .value (e.UpdatedAt.Format timeLayout) := by
  unfold MetadataDataSource.Read at h
  simp only at h
  split_ifs at h with h1
  · simp only [Option.some.injEq] at h
    subst h
    simp [h1] at hok
  · generalize d.client.GetMetadata env config.2.ID.ValueString = call at *
    rcases call with ⟨sent, value, err⟩
    cases err with
    | some e =>
      simp only [Option.some.injEq] at h
      subst h
      simp [addError_hasError] at hok
    | none =>
      cases value with
      | none => simp at h
      | some e =>
        simp only [Option.some.injEq] at h
        subst h
        exact ⟨e, _, rfl, rfl, rfl, rfl⟩

/-- A read of the bucket data source that reports no error exposes the
timestamps of the bucket the client returned, written with the layout. -/
theorem bucketRead_timestamps (d : BucketDataSource) (env : Env)
    (config : List Diagnostic × BucketDataSourceModel)
    (resp out : ResourceResponse BucketDataSourceModel)
    (h : (d.Read env config resp).2 = some out)
    (hok : Diagnostics.HasError out.Diagnostics = false) :
    ∃ e state, (d.client.GetBucket env config.2.ID.ValueString).value = some e
      ∧ out.State = some state
      ∧ state.CreatedAt = .value (e.CreatedAt.Format timeLayout)
      ∧ state.UpdatedAt = .value (e.UpdatedAt.Format timeLayout) := by
  unfold BucketDataSource.Read at h
  simp only at h
  split_ifs at h with h1
  · simp only [Option.some.injEq] at h
    subst h
    simp [h1] at hok
  · generalize d.client.GetBucket env config.2.ID.ValueString = call at *
    rcases call with ⟨sent, value, err⟩
    cases err with
    | some e =>
      simp only [Option.some.injEq] at h
      subst h
      simp [addError_hasError] at hok
    | none =>
      cases value with
      | none => simp at h
      | some e =>
        simp only [Option.some.injEq] at h
        subst h
        exact ⟨e, _, rfl, rfl, rfl, rfl⟩

/-- A read of the object data source that reports no error exposes the
timestamps of the object the client returned, written with the layout. -/
theorem objectRead_timestamps (d : ObjectDataSource) (env : Env)
    (config : List Diagnostic × ObjectDataSourceModel)
    (resp out : ResourceResponse ObjectDataSourceModel)
    (h : (d.Read env config resp).2 = some out)
    (hok : Diagnostics.HasError out.Diagnostics = false) :
    ∃ e state, (d.client.GetObject env config.2.BucketID.ValueString config.2.ID.ValueString).value = some e
      ∧ out.State = some state
      ∧ state.CreatedAt = .value (e.CreatedAt.Format timeLayout)
      ∧ state.UpdatedAt = .value (e.UpdatedAt.Format timeLayout) := by
  unfold ObjectDataSource.Read at h
  simp only at h
  split_ifs at h with h1
  · simp only [Option.some.injEq] at h
    subst h
    simp [h1] at hok
  · generalize d.client.GetObject env config.2.BucketID.ValueString config.2.ID.ValueString = call at *
    rcases call with ⟨sent, value, err⟩
    cases err with
    | some e =>
      simp only [Option.some.injEq] at h
      subst h
      simp [addError_hasError] at hok
    | none =>
      cases value with
      | none => simp at h
      | some e =>
        simp only [Option.some.injEq] at h
        subst h
        exact ⟨e, _, rfl, rfl, rfl, rfl⟩

/-! ## The claims, continued: timestamps -/

/-- C20, as stated, fails on the sub-second part: the server returns a project
created at 2024-01-02T03:04:05.5Z, the project data source exposes
`2024-01-02T03:04:05Z` for it, and that text parses back under the layout to
the whole second, not to the instant with its half second. -/
theorem C20_counterexample :
    (Time.mk 63839761445 500000000 0).isRFC3339 = true
      ∧ parseTimeLayout "2024-01-02T03:04:05.5Z" = some ⟨63839761445, 500000000, 0⟩
      ∧ ((ProjectDataSource.mk (NewClient "" "")).Read
          (readingTimes ⟨200, .ok ("\x7b\"id\":\"p1\",\"name\":\"web\","
            ++ "\"created_at\":\"2024-01-02T03:04:05.5Z\","
            ++ "\"updated_at\":\"2024-01-02T03:04:05.5Z\"\x7d")⟩)
          ([], ⟨.value "p1", .null, .null, .null⟩) ⟨[], none⟩).2.bind (fun out => out.State)
        = some ⟨.value "p1", .value "web", .value "2024-01-02T03:04:05Z",
            .value "2024-01-02T03:04:05Z"⟩
      ∧ (Time.mk 63839761445 500000000 0).Format timeLayout = "2024-01-02T03:04:05Z"
      ∧ parseTimeLayout ((Time.mk 63839761445 500000000 0).Format timeLayout)
        = some ⟨63839761445, 0, 0⟩
      ∧ parseTimeLayout ((Time.mk 63839761445 500000000 0).Format timeLayout)
        ≠ some ⟨63839761445, 500000000, 0⟩ := by
  refine ⟨by decide, by decide, by decide, by decide, by decide, by decide⟩

/-- C20 (amended): a timestamp that RFC 3339 text can denote, written with the
layout `2006-01-02T15:04:05Z07:00`, parses back under that layout to the same
second and zone offset with no sub-second part; and a read of any of the five
data sources (project, instance, metadata, bucket, object) that reports no
error exposes `created_at` and `updated_at` of the entity the client returned,
written with this one layout. -/
theorem C20_timestamps_round_trip_to_the_second :
    (∀ t : Time, t.isRFC3339 = true →
        parseTimeLayout (t.Format timeLayout) = some ⟨t.sec, 0, t.offset⟩)
      ∧ (∀ (d : ProjectDataSource) (env : Env) (config : List Diagnostic × ProjectDataSourceModel)
          (resp out : ResourceResponse ProjectDataSourceModel),
          (d.Read env config resp).2 = some out →
          Diagnostics.HasError out.Diagnostics = false →
          ∃ e state, (d.client.GetProject env config.2.ID.ValueString).value = some e
            ∧ out.State = some state
            ∧ state.CreatedAt = .value (e.CreatedAt.Format timeLayout)
            ∧ state.UpdatedAt = .value (e.UpdatedAt.Format timeLayout))
      ∧ (∀ (d : InstanceDataSource) (env : Env) (config : List Diagnostic × InstanceDataSourceModel)
          (resp out : ResourceResponse InstanceDataSourceModel),
          (d.Read env config resp).2 = some out →
          Diagnostics.HasError out.Diagnostics = false →
          ∃ e state, (d.client.GetInstance env config.2.ID.ValueString).value = some e
            ∧ out.State = some state
            ∧ state.CreatedAt = .value (e.CreatedAt.Format timeLayout)
            ∧ state.UpdatedAt = .value (e.UpdatedAt.Format timeLayout))
      ∧ (∀ (d : MetadataDataSource) (env : Env) (config : List Diagnostic × MetadataDataSourceModel)
          (resp out : ResourceResponse MetadataDataSourceModel),
          (d.Read env config resp).2 = some out →
          Diagnostics.HasError out.Diagnostics = false →
          ∃ e state, (d.client.GetMetadata env config.2.ID.ValueString).value = some e
            ∧ out.State = some state
            ∧ state.CreatedAt = .value (e.CreatedAt.Format timeLayout)
            ∧ state.UpdatedAt = .value (e.UpdatedAt.Format timeLayout))
      ∧ (∀ (d : BucketDataSource) (env : Env) (config : List Diagnostic × BucketDataSourceModel)
          (resp out : ResourceResponse BucketDataSourceModel),
          (d.Read env config resp).2 = some out →
          Diagnostics.HasError out.Diagnostics = false →
          ∃ e state, (d.client.GetBucket env config.2.ID.ValueString).value = some e
            ∧ out.State = some state
            ∧ state.CreatedAt = .value (e.CreatedAt.Format timeLayout)
            ∧ state.UpdatedAt = .value (e.UpdatedAt.Format timeLayout))
      ∧ (∀ (d : ObjectDataSource) (env : Env) (config : List Diagnostic × ObjectDataSourceModel)
          (resp out : ResourceResponse ObjectDataSourceModel),
          (d.Read env config resp).2 = some out →
          Diagnostics.HasError out.Diagnostics = false →
          ∃ e state, (d.client.GetObject env config.2.BucketID.ValueString config.2.ID.ValueString).value = some e
            ∧ out.State = some state
            ∧ state.CreatedAt = .value (e.CreatedAt.Format timeLayout)
            ∧ state.UpdatedAt = .value (e.UpdatedAt.Format timeLayout)) :=
  ⟨format_parsed, projectRead_timestamps, instanceRead_timestamps,
    metadataRead_timestamps, bucketRead_timestamps,
    objectRead_timestamps⟩

/-- C20 amended, at concrete inputs: 2024-01-02T08:34:05.5+05:30 is written as
`2024-01-02T08:34:05+05:30` and read back as that second in that zone, and the
bucket data source, reading a bucket created at 2024-01-02T03:04:05.5Z,
exposes timestamps written with the layout. -/
theorem C20_witness :
    (Time.mk 63839761445 500000000 19800).isRFC3339 = true
      ∧ (Time.mk 63839761445 500000000 19800).Format timeLayout = "2024-01-02T08:34:05+05:30"
      ∧ parseTimeLayout ((Time.mk 63839761445 500000000 19800).Format timeLayout)
        = some ⟨63839761445, 0, 19800⟩
      ∧ ∃ e state, ((NewClient "" "").GetBucket
            (readingTimes ⟨200, .ok ("\x7b\"id\":\"b1\",\"name\":\"logs\","
              ++ "\"created_at\":\"2024-01-02T03:04:05.5Z\","
              ++ "\"updated_at\":\"2024-01-03T03:04:05+05:30\"\x7d")⟩) "b1").value = some e
          ∧ some (BucketDataSourceModel.mk (.value "b1") (.value "logs")
              (.value "2024-01-02T03:04:05Z") (.value "2024-01-03T03:04:05+05:30")) = some state
          ∧ state.CreatedAt = .value (e.CreatedAt.Format timeLayout)
          ∧ state.UpdatedAt = .value (e.UpdatedAt.Format timeLayout) :=
  ⟨by decide, by decide,
    C20_timestamps_round_trip_to_the_second.1 ⟨63839761445, 500000000, 19800⟩ (by decide),
    C20_timestamps_round_trip_to_the_second.2.2.2.2.1 ⟨NewClient "" ""⟩
      (readingTimes ⟨200, .ok ("\x7b\"id\":\"b1\",\"name\":\"logs\","
        ++ "\"created_at\":\"2024-01-02T03:04:05.5Z\","
        ++ "\"updated_at\":\"2024-01-03T03:04:05+05:30\"\x7d")⟩)
      ([], ⟨.value "b1", .null, .null, .null⟩) ⟨[], none⟩
      ⟨[], some ⟨.value "b1", .value "logs", .value "2024-01-02T03:04:05Z",
        .value "2024-01-03T03:04:05+05:30"⟩⟩ rfl rfl⟩

/-! ## Auxiliary facts on the resources and on the requests -/

/-- Onto diagnostics without an error `AddError` puts exactly one more. -/
theorem addError_fresh (ds : List Diagnostic) (summary detail : String)
    (h : Diagnostics.HasError ds = false) :
    Diagnostics.AddError ds summary detail = ds ++ [⟨true, summary, detail⟩] := by
  simp only [Diagnostics.AddError, Diagnostics.Append, List.foldl]
  rw [if_neg]
  intro hmem
  have : Diagnostics.HasError ds = true := List.any_eq_true.2 ⟨_, hmem, rfl⟩
  rw [h] at this
  exact absurd this (by decide)

/-- A failed client call in `InstanceResource.Create`: one error
diagnostic more, the state as it was. -/
theorem instanceCreate_failed (r : InstanceResource) (env : Env) (req : CreateRequest InstanceResourceModel)
    (resp : ResourceResponse InstanceResourceModel) (e : GoError)
    (hread : Diagnostics.HasError (Diagnostics.Append resp.Diagnostics req.Plan.1) = false)
    (herr : (r.client.CreateInstance env (some ⟨req.Plan.2.ProjectID.ValueString, req.Plan.2.Name.ValueString,
            req.Plan.2.CPU.ValueInt64, req.Plan.2.MemoryMB.ValueInt64, req.Plan.2.Image.ValueString,
            req.Plan.2.Status.ValueString⟩)).err = some e) :
    (r.Create env req resp).2
      = some ⟨Diagnostics.Append resp.Diagnostics req.Plan.1
          ++ [⟨true, "Client Error", "Unable to create instance: " ++ e.Error⟩],
        resp.State⟩ := by
  unfold InstanceResource.Create
  simp only [hread, Bool.false_eq_true, if_false, herr, addError_fresh _ _ _ hread]

/-- A failed client call in `InstanceResource.Read`: one error
diagnostic more, the state as it was. -/
theorem instanceRead_failed (r : InstanceResource) (env : Env) (req : ReadRequest InstanceResourceModel)
    (resp : ResourceResponse InstanceResourceModel) (e : GoError)
    (hread : Diagnostics.HasError (Diagnostics.Append resp.Diagnostics req.State.1) = false)
    (herr : (r.client.GetInstance env req.State.2.ID.ValueString).err = some e) :
    (r.Read env req resp).2
      = some ⟨Diagnostics.Append resp.Diagnostics req.State.1
          ++ [⟨true, "Client Error", "Unable to read instance: " ++ e.Error⟩],
        resp.State⟩ := by
  unfold InstanceResource.Read
  simp only [hread, Bool.false_eq_true, if_false, herr, addError_fresh _ _ _ hread]

/-- A failed client call in `InstanceResource.Update`: one error
diagnostic more, the state as it was. -/
theorem instanceUpdate_failed (r : InstanceResource) (env : Env) (req : UpdateRequest InstanceResourceModel)
    (resp : ResourceResponse InstanceResourceModel) (e : GoError)
    (hread : Diagnostics.HasError (Diagnostics.Append resp.Diagnostics req.Plan.1) = false)
    (herr : (r.client.UpdateInstance env req.Plan.2.ID.ValueString (some ⟨some req.Plan.2.Name.ValueString,
            some req.Plan.2.CPU.ValueInt64, some req.Plan.2.MemoryMB.ValueInt64,
            some req.Plan.2.Image.ValueString, some req.Plan.2.Status.ValueString⟩)).err = some e) :
    (r.Update env req resp).2
      = some ⟨Diagnostics.Append resp.Diagnostics req.Plan.1
          ++ [⟨true, "Client Error", "Unable to update instance: " ++ e.Error⟩],
        resp.State⟩ := by
  unfold InstanceResource.Update
  simp only [hread, Bool.false_eq_true, if_false, herr, addError_fresh _ _ _ hread]

/-- A failed client call in `InstanceResource.Delete`: one error
diagnostic more, the state as it was. -/
theorem instanceDelete_failed (r : InstanceResource) (env : Env) (req : DeleteRequest InstanceResourceModel)
    (resp : ResourceResponse InstanceResourceModel) (e : GoError)
    (hread : Diagnostics.HasError (Diagnostics.Append resp.Diagnostics req.State.1) = false)
    (herr : (r.client.DeleteInstance env req.State.2.ID.ValueString).err = some e) :
    (r.Delete env req resp).2
      = some ⟨Diagnostics.Append resp.Diagnostics req.State.1
          ++ [⟨true, "Client Error", "Unable to delete instance: " ++ e.Error⟩],
        resp.State⟩ := by
  unfold InstanceResource.Delete
  simp only [hread, Bool.false_eq_true, if_false, herr, addError_fresh _ _ _ hread]

/-- A failed client call in `MetadataResource.Create`: one error
diagnostic more, the state as it was. -/
theorem metadataCreate_failed (r : MetadataResource) (env : Env) (req : CreateRequest MetadataResourceModel)
    (resp : ResourceResponse MetadataResourceModel) (e : GoError)
    (hread : Diagnostics.HasError (Diagnostics.Append resp.Diagnostics req.Plan.1) = false)
    (herr : (r.client.CreateMetadata env req.Plan.2.Path.ValueString req.Plan.2.Value.ValueString).err = some e) :
    (r.Create env req resp).2
      = some ⟨Diagnostics.Append resp.Diagnostics req.Plan.1
          ++ [⟨true, "Client Error", "Unable to create metadata: " ++ e.Error⟩],
        resp.State⟩ := by
  unfold MetadataResource.Create
  simp only [hread, Bool.false_eq_true, if_false, herr, addError_fresh _ _ _ hread]

/-- A failed client call in `MetadataResource.Read`: one error
diagnostic more, the state as it was. -/
theorem metadataRead_failed (r : MetadataResource) (env : Env) (req : ReadRequest MetadataResourceModel)
    (resp : ResourceResponse MetadataResourceModel) (e : GoError)
    (hread : Diagnostics.HasError (Diagnostics.Append resp.Diagnostics req.State.1) = false)
    (herr : (r.client.GetMetadata env req.State.2.ID.ValueString).err = some e) :
    (r.Read env req resp).2
      = some ⟨Diagnostics.Append resp.Diagnostics req.State.1
          ++ [⟨true, "Client Error", "Unable to read metadata: " ++ e.Error⟩],
        resp.State⟩ := by
  unfold MetadataResource.Read
  simp only [hread, Bool.false_eq_true, if_false, herr, addError_fresh _ _ _ hread]

/-- A failed client call in `MetadataResource.Update`: one error
diagnostic more, the state as it was. -/
theorem metadataUpdate_failed (r : MetadataResource) (env : Env) (req : UpdateRequest MetadataResourceModel)
    (resp : ResourceResponse MetadataResourceModel) (e : GoError)
    (hread : Diagnostics.HasError (Diagnostics.Append resp.Diagnostics req.Plan.1) = false)
    (herr : (r.client.UpdateMetadata env req.Plan.2.ID.ValueString
            (some ⟨some req.Plan.2.Path.ValueString, some req.Plan.2.Value.ValueString⟩)).err = some e) :
    (r.Update env req resp).2
      = some ⟨Diagnostics.Append resp.Diagnostics req.Plan.1
          ++ [⟨true, "Client Error", "Unable to update metadata: " ++ e.Error⟩],
        resp.State⟩ := by
  unfold MetadataResource.Update
  simp only [hread, Bool.false_eq_true, if_false, herr, addError_fresh _ _ _ hread]

/-- A failed client call in `MetadataResource.Delete`: one error
diagnostic more, the state as it was. -/
theorem metadataDelete_failed (r : MetadataResource) (env : Env) (req : DeleteRequest MetadataResourceModel)
    (resp : ResourceResponse MetadataResourceModel) (e : GoError)
    (hread : Diagnostics.HasError (Diagnostics.Append resp.Diagnostics req.State.1) = false)
    (herr : (r.client.DeleteMetadata env req.State.2.ID.ValueString).err = some e) :
    (r.Delete env req resp).2
      = some ⟨Diagnostics.Append resp.Diagnostics req.State.1
          ++ [⟨true, "Client Error", "Unable to delete metadata: " ++ e.Error⟩],
        resp.State⟩ := by
  unfold MetadataResource.Delete
  simp only [hread, Bool.false_eq_true, if_false, herr, addError_fresh _ _ _ hread]

/-- A failed client call in `BucketResource.Create`: one error
diagnostic more, the state as it was. -/
theorem bucketCreate_failed (r : BucketResource) (env : Env) (req : CreateRequest BucketResourceModel)
    (resp : ResourceResponse BucketResourceModel) (e : GoError)
    (hread : Diagnostics.HasError (Diagnostics.Append resp.Diagnostics req.Plan.1) = false)
    (herr : (r.client.CreateBucket env req.Plan.2.Name.ValueString).err = some e) :
    (r.Create env req resp).2
      = some ⟨Diagnostics.Append resp.Diagnostics req.Plan.1
          ++ [⟨true, "Client Error", "Unable to create bucket: " ++ e.Error⟩],
        resp.State⟩ := by
  unfold BucketResource.Create
  simp only [hread, Bool.false_eq_true, if_false, herr, addError_fresh _ _ _ hread]

/-- A failed client call in `BucketResource.Read`: one error
diagnostic more, the state as it was. -/
theorem bucketRead_failed (r : BucketResource) (env : Env) (req : ReadRequest BucketResourceModel)
    (resp : ResourceResponse BucketResourceModel) (e : GoError)
    (hread : Diagnostics.HasError (Diagnostics.Append resp.Diagnostics req.State.1) = false)
    (herr : (r.client.GetBucket env req.State.2.ID.ValueString).err = some e) :
    (r.Read env req resp).2
      = some ⟨Diagnostics.Append resp.Diagnostics req.State.1
          ++ [⟨true, "Client Error", "Unable to read bucket: " ++ e.Error⟩],
        resp.State⟩ := by
  unfold BucketResource.Read
  simp only [hread, Bool.false_eq_true, if_false, herr, addError_fresh _ _ _ hread]

/-- A failed client call in `BucketResource.Update`: one error
diagnostic more, the state as it was. -/
theorem bucketUpdate_failed (r : BucketResource) (env : Env) (req : UpdateRequest BucketResourceModel)
    (resp : ResourceResponse BucketResourceModel) (e : GoError)
    (hread : Diagnostics.HasError (Diagnostics.Append resp.Diagnostics req.Plan.1) = false)
    (herr : (r.client.UpdateBucket env req.Plan.2.ID.ValueString req.Plan.2.Name.ValueString).err = some e) :
    (r.Update env req resp).2
      = some ⟨Diagnostics.Append resp.Diagnostics req.Plan.1
          ++ [⟨true, "Client Error", "Unable to update bucket: " ++ e.Error⟩],
        resp.State⟩ := by
  unfold BucketResource.Update
  simp only [hread, Bool.false_eq_true, if_false, herr, addError_fresh _ _ _ hread]

/-- A failed client call in `BucketResource.Delete`: one error
diagnostic more, the state as it was. -/
theorem bucketDelete_failed (r : BucketResource) (env : Env) (req : DeleteRequest BucketResourceModel)
    (resp : ResourceResponse BucketResourceModel) (e : GoError)
    (hread : Diagnostics.HasError (Diagnostics.Append resp.Diagnostics req.State.1) = false)
    (herr : (r.client.DeleteBucket env req.State.2.ID.ValueString).err = some e) :
    (r.Delete env req resp).2
      = some ⟨Diagnostics.Append resp.Diagnostics req.State.1
          ++ [⟨true, "Client Error", "Unable to delete bucket: " ++ e.Error⟩],
        resp.State⟩ := by
  unfold BucketResource.Delete
  simp only [hread, Bool.false_eq_true, if_false, herr, addError_fresh _ _ _ hread]

/-- A failed client call in `ObjectResource.Create`: one error
diagnostic more, the state as it was. -/
theorem objectCreate_failed (r : ObjectResource) (env : Env) (req : CreateRequest ObjectResourceModel)
    (resp : ResourceResponse ObjectResourceModel) (e : GoError)
    (hread : Diagnostics.HasError (Diagnostics.Append resp.Diagnostics req.Plan.1) = false)
    (herr : (r.client.CreateObject env req.Plan.2.BucketID.ValueString
            (some ⟨req.Plan.2.Path.ValueString, req.Plan.2.Content.ValueString⟩)).err = some e) :
    (r.Create env req resp).2
      = some ⟨Diagnostics.Append resp.Diagnostics req.Plan.1
          ++ [⟨true, "Client Error", "Unable to create object: " ++ e.Error⟩],
        resp.State⟩ := by
  unfold ObjectResource.Create
  simp only [hread, Bool.false_eq_true, if_false, herr, addError_fresh _ _ _ hread]

/-- A failed client call in `ObjectResource.Read`: one error
diagnostic more, the state as it was. -/
theorem objectRead_failed (r : ObjectResource) (env : Env) (req : ReadRequest ObjectResourceModel)
    (resp : ResourceResponse ObjectResourceModel) (e : GoError)
    (hread : Diagnostics.HasError (Diagnostics.Append resp.Diagnostics req.State.1) = false)
    (herr : (r.client.GetObject env req.State.2.BucketID.ValueString req.State.2.ID.ValueString).err = some e) :
    (r.Read env req resp).2
      = some ⟨Diagnostics.Append resp.Diagnostics req.State.1
          ++ [⟨true, "Client Error", "Unable to read object: " ++ e.Error⟩],
        resp.State⟩ := by
  unfold ObjectResource.Read
  simp only [hread, Bool.false_eq_true, if_false, herr, addError_fresh _ _ _ hread]

/-- A failed client call in `ObjectResource.Update`: one error
diagnostic more, the state as it was. -/
theorem objectUpdate_failed (r : ObjectResource) (env : Env) (req : UpdateRequest ObjectResourceModel)
    (resp : ResourceResponse ObjectResourceModel) (e : GoError)
    (hread : Diagnostics.HasError (Diagnostics.Append resp.Diagnostics req.Plan.1) = false)
    (herr : (r.client.UpdateObject env req.Plan.2.BucketID.ValueString req.Plan.2.ID.ValueString
            (some ⟨some req.Plan.2.Path.ValueString, some req.Plan.2.Content.ValueString⟩)).err = some e) :
    (r.Update env req resp).2
      = some ⟨Diagnostics.Append resp.Diagnostics req.Plan.1
          ++ [⟨true, "Client Error", "Unable to update object: " ++ e.Error⟩],
        resp.State⟩ := by
  unfold ObjectResource.Update
  simp only [hread, Bool.false_eq_true, if_false, herr, addError_fresh _ _ _ hread]

/-- A failed client call in `ObjectResource.Delete`: one error
diagnostic more, the state as it was. -/
theorem objectDelete_failed (r : ObjectResource) (env : Env) (req : DeleteRequest ObjectResourceModel)
    (resp : ResourceResponse ObjectResourceModel) (e : GoError)
    (hread : Diagnostics.HasError (Diagnostics.Append resp.Diagnostics req.State.1) = false)
    (herr : (r.client.DeleteObject env req.State.2.BucketID.ValueString req.State.2.ID.ValueString).err = some e) :
    (r.Delete env req resp).2
      = some ⟨Diagnostics.Append resp.Diagnostics req.State.1
          ++ [⟨true, "Client Error", "Unable to delete object: " ++ e.Error⟩],
        resp.State⟩ := by
  unfold ObjectResource.Delete
  simp only [hread, Bool.false_eq_true, if_false, herr, addError_fresh _ _ _ hread]

/-- The method `InstanceResource.Delete` returns and writes no state. -/
theorem instanceDelete_id (r : InstanceResource) (env : Env) (req : DeleteRequest InstanceResourceModel)
    (resp : ResourceResponse InstanceResourceModel) :
    ∃ out, (r.Delete env req resp).2 = some out ∧ out.State = resp.State := by
  unfold InstanceResource.Delete
  simp only
  split_ifs
  · exact ⟨_, rfl, rfl⟩
  · generalize r.client.DeleteInstance env req.State.2.ID.ValueString = call
    rcases call with ⟨sent, err⟩
    cases err <;> exact ⟨_, rfl, rfl⟩

/-- The method `MetadataResource.Delete` returns and writes no state. -/
theorem metadataDelete_id (r : MetadataResource) (env : Env) (req : DeleteRequest MetadataResourceModel)
    (resp : ResourceResponse MetadataResourceModel) :
    ∃ out, (r.Delete env req resp).2 = some out ∧ out.State = resp.State := by
  unfold MetadataResource.Delete
  simp only
  split_ifs
  · exact ⟨_, rfl, rfl⟩
  · generalize r.client.DeleteMetadata env req.State.2.ID.ValueString = call
    rcases call with ⟨sent, err⟩
    cases err <;> exact ⟨_, rfl, rfl⟩

/-- The method `BucketResource.Delete` returns and writes no state. -/
theorem bucketDelete_id (r : BucketResource) (env : Env) (req : DeleteRequest BucketResourceModel)
    (resp : ResourceResponse BucketResourceModel) :
    ∃ out, (r.Delete env req resp).2 = some out ∧ out.State = resp.State := by
  unfold BucketResource.Delete
  simp only
  split_ifs
  · exact ⟨_, rfl, rfl⟩
  · generalize r.client.DeleteBucket env req.State.2.ID.ValueString = call
    rcases call with ⟨sent, err⟩
    cases err <;> exact ⟨_, rfl, rfl⟩

/-- The method `ObjectResource.Delete` returns and writes no state. -/
theorem objectDelete_id (r : ObjectResource) (env : Env) (req : DeleteRequest ObjectResourceModel)
    (resp : ResourceResponse ObjectResourceModel) :
    ∃ out, (r.Delete env req resp).2 = some out ∧ out.State = resp.State := by
  unfold ObjectResource.Delete
  simp only
  split_ifs
  · exact ⟨_, rfl, rfl⟩
  · generalize r.client.DeleteObject env req.State.2.BucketID.ValueString req.State.2.ID.ValueString = call
    rcases call with ⟨sent, err⟩
    cases err <;> exact ⟨_, rfl, rfl⟩

/-- Two texts that agree up to and after their first slash agree on both
sides of it. -/
theorem split_at_first_slash (xs ys s t : List Char) (hx : '/' ∉ xs) (hy : '/' ∉ ys)
    (h : xs ++ '/' :: s = ys ++ '/' :: t) : xs = ys ∧ s = t := by
  induction xs generalizing ys with
  | nil =>
    cases ys with
    | nil => simpa using h
    | cons y ys =>
      simp only [List.nil_append, List.cons_append, List.cons.injEq] at h
      exact absurd (h.1 ▸ List.mem_cons_self _ _) hy
  | cons x xs ih =>
    cases ys with
    | nil =>
      simp only [List.nil_append, List.cons_append, List.cons.injEq] at h
      exact absurd (h.1 ▸ List.mem_cons_self _ _) hx
    | cons y ys =>
      simp only [List.cons_append, List.cons.injEq] at h
      obtain ⟨h1, h2⟩ := ih ys (fun hm => hx (List.mem_cons_of_mem _ hm))
        (fun hm => hy (List.mem_cons_of_mem _ hm)) h.2
      exact ⟨by rw [h.1, h1], h2⟩

/-- Object paths that agree come from the same identifiers, when the bucket
identifiers hold no slash. -/
theorem objectPath_injective (endpoint b1 i1 b2 i2 : String)
    (h1 : '/' ∉ b1.data) (h2 : '/' ∉ b2.data)
    (h : endpoint ++ ("/v1/bucket/" ++ b1 ++ "/objects/" ++ i1)
      = endpoint ++ ("/v1/bucket/" ++ b2 ++ "/objects/" ++ i2)) :
    b1 = b2 ∧ i1 = i2 := by
  have hd := congrArg String.data h
  simp only [String.data_append, List.append_assoc] at hd
  have hd1 : b1.data ++ '/' :: ("objects/".data ++ i1.data)
      = b2.data ++ '/' :: ("objects/".data ++ i2.data) :=
    List.append_cancel_left (List.append_cancel_left hd)
  obtain ⟨hb, hi⟩ := split_at_first_slash _ _ _ _ h1 h2 hd1
  exact ⟨String.ext hb, String.ext (List.append_cancel_left hi)⟩

/-- The request of an operation that passes no payload has no body. -/
theorem request_nil_body (c : Client) (method path : String) :
    (c.request method path .nil).Body = none := rfl

/-- The operations with the methods `GET` and `DELETE` pass no payload. -/
theorem op_payload_nil (op : Op) (h : op.specMethod = "GET" ∨ op.specMethod = "DELETE") :
    op.payload = .nil := by
  cases op <;> first | rfl | (simp [Op.specMethod] at h)

/-- The method of the request is the one given to `doRequest`. -/
theorem request_method (c : Client) (method path : String) (body : Payload) :
    (c.request method path body).Method = method := rfl

/-- The headers of a request other than `Authorization`. -/
theorem request_other_headers (c : Client) (method path : String) (body : Payload) :
    (c.request method path body).Header.filter (fun kv => kv.1 != "Authorization")
      = [("Content-Type", ["application/json"])] := by
  unfold Client.request
  by_cases h : c.token = ""
  · simp only [if_pos h]
    decide
  · simp only [if_neg h]
    simp [List.filter]

/-- The requests of an operation depend on the client through its endpoint
and token only. -/
theorem op_sent_congr (c1 c2 : Client) (env : Env) (op : Op)
    (he : c1.endpoint = c2.endpoint) (ht : c1.token = c2.token) :
    (op.run c1 env).sent = (op.run c2 env).sent := by
  rw [op_sent, op_sent, doRequest_sent, doRequest_sent, he]
  have hr : c1.request op.specMethod op.specPath op.payload
      = c2.request op.specMethod op.specPath op.payload := by
    simp [Client.request, he, ht]
  rw [hr]

/-- `InstanceResource.Create` returns; it leaves the state or writes one with the
id of the instance the client returned, and writes one when the client call
succeeded. -/
theorem instanceCreate_outcome (r : InstanceResource) (env : Env) (req : CreateRequest InstanceResourceModel)
    (resp : ResourceResponse InstanceResourceModel) :
    ∃ out, (r.Create env req resp).2 = some out
      ∧ (out.State = resp.State ∨ ∃ entity state, (r.client.CreateInstance env (some ⟨req.Plan.2.ProjectID.ValueString, req.Plan.2.Name.ValueString,
            req.Plan.2.CPU.ValueInt64, req.Plan.2.MemoryMB.ValueInt64, req.Plan.2.Image.ValueString,
            req.Plan.2.Status.ValueString⟩)).value = some entity
          ∧ out.State = some state ∧ state.ID = .value entity.ID)
      ∧ (Diagnostics.HasError (Diagnostics.Append resp.Diagnostics req.Plan.1) = false →
          (r.client.CreateInstance env (some ⟨req.Plan.2.ProjectID.ValueString, req.Plan.2.Name.ValueString,
            req.Plan.2.CPU.ValueInt64, req.Plan.2.MemoryMB.ValueInt64, req.Plan.2.Image.ValueString,
            req.Plan.2.Status.ValueString⟩)).err = none →
          ∃ entity state, (r.client.CreateInstance env (some ⟨req.Plan.2.ProjectID.ValueString, req.Plan.2.Name.ValueString,
            req.Plan.2.CPU.ValueInt64, req.Plan.2.MemoryMB.ValueInt64, req.Plan.2.Image.ValueString,
            req.Plan.2.Status.ValueString⟩)).value = some entity
          ∧ out.State = some state ∧ state.ID = .value entity.ID) := by
  have hv : (r.client.CreateInstance env (some ⟨req.Plan.2.ProjectID.ValueString, req.Plan.2.Name.ValueString, req.Plan.2.CPU.ValueInt64, req.Plan.2.MemoryMB.ValueInt64, req.Plan.2.Image.ValueString, req.Plan.2.Status.ValueString⟩)).value.isSome
      = (r.client.CreateInstance env (some ⟨req.Plan.2.ProjectID.ValueString, req.Plan.2.Name.ValueString, req.Plan.2.CPU.ValueInt64, req.Plan.2.MemoryMB.ValueInt64, req.Plan.2.Image.ValueString, req.Plan.2.Status.ValueString⟩)).err.isNone := by
    rw [CreateInstance_eq]
    exact Call.after_isSome _ _ _
  unfold InstanceResource.Create
  simp only
  split_ifs with h1
  · exact ⟨_, rfl, Or.inl rfl, fun h => absurd h1 (by simp [h])⟩
  · revert hv
    generalize r.client.CreateInstance env (some ⟨req.Plan.2.ProjectID.ValueString, req.Plan.2.Name.ValueString, req.Plan.2.CPU.ValueInt64, req.Plan.2.MemoryMB.ValueInt64, req.Plan.2.Image.ValueString, req.Plan.2.Status.ValueString⟩) = call
    rcases call with ⟨sent, value, err⟩
    intro hv
    cases err with
    | some e => exact ⟨_, rfl, Or.inl rfl, fun _ h => by simp at h⟩
    | none =>
      cases value with
      | none => simp at hv
      | some entity =>
        exact ⟨_, rfl, Or.inr ⟨entity, _, rfl, rfl, rfl⟩, fun _ _ => ⟨entity, _, rfl, rfl, rfl⟩⟩

/-- `InstanceResource.Read` returns; it leaves the state or writes one with the
id of the prior state, and writes one when the client call succeeded. -/
theorem instanceRead_outcome (r : InstanceResource) (env : Env) (req : ReadRequest InstanceResourceModel)
    (resp : ResourceResponse InstanceResourceModel) :
    ∃ out, (r.Read env req resp).2 = some out
      ∧ (out.State = resp.State ∨ ∃ state, out.State = some state ∧ state.ID = req.State.2.ID)
      ∧ (Diagnostics.HasError (Diagnostics.Append resp.Diagnostics req.State.1) = false →
          (r.client.GetInstance env req.State.2.ID.ValueString).err = none →
          ∃ state, out.State = some state ∧ state.ID = req.State.2.ID) := by
  have hv : (r.client.GetInstance env req.State.2.ID.ValueString).value.isSome
      = (r.client.GetInstance env req.State.2.ID.ValueString).err.isNone := by
    rw [GetInstance_eq]
    exact Call.after_isSome _ _ _
  unfold InstanceResource.Read
  simp only
  split_ifs with h1
  · exact ⟨_, rfl, Or.inl rfl, fun h => absurd h1 (by simp [h])⟩
  · revert hv
    generalize r.client.GetInstance env req.State.2.ID.ValueString = call
    rcases call with ⟨sent, value, err⟩
    intro hv
    cases err with
    | some e => exact ⟨_, rfl, Or.inl rfl, fun _ h => by simp at h⟩
    | none =>
      cases value with
      | none => simp at hv
      | some entity =>
        exact ⟨_, rfl, Or.inr ⟨_, rfl, rfl⟩, fun _ _ => ⟨_, rfl, rfl⟩⟩

/-- `InstanceResource.Update` returns; it leaves the state or writes one with the
id of the plan, and writes one when the client call succeeded. -/
theorem instanceUpdate_outcome (r : InstanceResource) (env : Env) (req : UpdateRequest InstanceResourceModel)
    (resp : ResourceResponse InstanceResourceModel) :
    ∃ out, (r.Update env req resp).2 = some out
      ∧ (out.State = resp.State ∨ ∃ state, out.State = some state ∧ state.ID = req.Plan.2.ID)
      ∧ (Diagnostics.HasError (Diagnostics.Append resp.Diagnostics req.Plan.1) = false →
          (r.client.UpdateInstance env req.Plan.2.ID.ValueString (some ⟨some req.Plan.2.Name.ValueString,
            some req.Plan.2.CPU.ValueInt64, some req.Plan.2.MemoryMB.ValueInt64,
            some req.Plan.2.Image.ValueString, some req.Plan.2.Status.ValueString⟩)).err = none →
          ∃ state, out.State = some state ∧ state.ID = req.Plan.2.ID) := by
  have hv : (r.client.UpdateInstance env req.Plan.2.ID.ValueString (some ⟨some req.Plan.2.Name.ValueString, some req.Plan.2.CPU.ValueInt64, some req.Plan.2.MemoryMB.ValueInt64, some req.Plan.2.Image.ValueString, some req.Plan.2.Status.ValueString⟩)).value.isSome
      = (r.client.UpdateInstance env req.Plan.2.ID.ValueString (some ⟨some req.Plan.2.Name.ValueString, some req.Plan.2.CPU.ValueInt64, some req.Plan.2.MemoryMB.ValueInt64, some req.Plan.2.Image.ValueString, some req.Plan.2.Status.ValueString⟩)).err.isNone := by
    rw [UpdateInstance_eq]
    exact Call.after_isSome _ _ _
  unfold InstanceResource.Update
  simp only
  split_ifs with h1
  · exact ⟨_, rfl, Or.inl rfl, fun h => absurd h1 (by simp [h])⟩
  · revert hv
    generalize r.client.UpdateInstance env req.Plan.2.ID.ValueString (some ⟨some req.Plan.2.Name.ValueString, some req.Plan.2.CPU.ValueInt64, some req.Plan.2.MemoryMB.ValueInt64, some req.Plan.2.Image.ValueString, some req.Plan.2.Status.ValueString⟩) = call
    rcases call with ⟨sent, value, err⟩
    intro hv
    cases err with
    | some e => exact ⟨_, rfl, Or.inl rfl, fun _ h => by simp at h⟩
    | none =>
      cases value with
      | none => simp at hv
      | some entity =>
        exact ⟨_, rfl, Or.inr ⟨_, rfl, rfl⟩, fun _ _ => ⟨_, rfl, rfl⟩⟩

/-- `MetadataResource.Create` returns; it leaves the state or writes one with the
id of the metadata the client returned, and writes one when the client call
succeeded. -/
theorem metadataCreate_outcome (r : MetadataResource) (env : Env) (req : CreateRequest MetadataResourceModel)
    (resp : ResourceResponse MetadataResourceModel) :
    ∃ out, (r.Create env req resp).2 = some out
      ∧ (out.State = resp.State ∨ ∃ entity state, (r.client.CreateMetadata env req.Plan.2.Path.ValueString req.Plan.2.Value.ValueString).value = some entity
          ∧ out.State = some state ∧ state.ID = .value entity.ID)
      ∧ (Diagnostics.HasError (Diagnostics.Append resp.Diagnostics req.Plan.1) = false →
          (r.client.CreateMetadata env req.Plan.2.Path.ValueString req.Plan.2.Value.ValueString).err = none →
          ∃ entity state, (r.client.CreateMetadata env req.Plan.2.Path.ValueString req.Plan.2.Value.ValueString).value = some entity
          ∧ out.State = some state ∧ state.ID = .value entity.ID) := by
  have hv : (r.client.CreateMetadata env req.Plan.2.Path.ValueString req.Plan.2.Value.ValueString).value.isSome
      = (r.client.CreateMetadata env req.Plan.2.Path.ValueString req.Plan.2.Value.ValueString).err.isNone := by
    rw [CreateMetadata_eq]
    exact Call.after_isSome _ _ _
  unfold MetadataResource.Create
  simp only
  split_ifs with h1
  · exact ⟨_, rfl, Or.inl rfl, fun h => absurd h1 (by simp [h])⟩
  · revert hv
    generalize r.client.CreateMetadata env req.Plan.2.Path.ValueString req.Plan.2.Value.ValueString = call
    rcases call with ⟨sent, value, err⟩
    intro hv
    cases err with
    | some e => exact ⟨_, rfl, Or.inl rfl, fun _ h => by simp at h⟩
    | none =>
      cases value with
      | none => simp at hv
      | some entity =>
        exact ⟨_, rfl, Or.inr ⟨entity, _, rfl, rfl, rfl⟩, fun _ _ => ⟨entity, _, rfl, rfl, rfl⟩⟩

/-- `MetadataResource.Read` returns; it leaves the state or writes one with the
id of the prior state, and writes one when the client call succeeded. -/
theorem metadataRead_outcome (r : MetadataResource) (env : Env) (req : ReadRequest MetadataResourceModel)
    (resp : ResourceResponse MetadataResourceModel) :
    ∃ out, (r.Read env req resp).2 = some out
      ∧ (out.State = resp.State ∨ ∃ state, out.State = some state ∧ state.ID = req.State.2.ID)
      ∧ (Diagnostics.HasError (Diagnostics.Append resp.Diagnostics req.State.1) = false →
          (r.client.GetMetadata env req.State.2.ID.ValueString).err = none →
          ∃ state, out.State = some state ∧ state.ID = req.State.2.ID) := by
  have hv : (r.client.GetMetadata env req.State.2.ID.ValueString).value.isSome
      = (r.client.GetMetadata env req.State.2.ID.ValueString).err.isNone := by
    rw [GetMetadata_eq]
    exact Call.after_isSome _ _ _
  unfold MetadataResource.Read
  simp only
  split_ifs with h1
  · exact ⟨_, rfl, Or.inl rfl, fun h => absurd h1 (by simp [h])⟩
  · revert hv
    generalize r.client.GetMetadata env req.State.2.ID.ValueString = call
    rcases call with ⟨sent, value, err⟩
    intro hv
    cases err with
    | some e => exact ⟨_, rfl, Or.inl rfl, fun _ h => by simp at h⟩
    | none =>
      cases value with
      | none => simp at hv
      | some entity =>
        exact ⟨_, rfl, Or.inr ⟨_, rfl, rfl⟩, fun _ _ => ⟨_, rfl, rfl⟩⟩

/-- `MetadataResource.Update` returns; it leaves the state or writes one with the
id of the plan, and writes one when the client call succeeded. -/
theorem metadataUpdate_outcome (r : MetadataResource) (env : Env) (req : UpdateRequest MetadataResourceModel)
    (resp : ResourceResponse MetadataResourceModel) :
    ∃ out, (r.Update env req resp).2 = some out
      ∧ (out.State = resp.State ∨ ∃ state, out.State = some state ∧ state.ID = req.Plan.2.ID)
      ∧ (Diagnostics.HasError (Diagnostics.Append resp.Diagnostics req.Plan.1) = false →
          (r.client.UpdateMetadata env req.Plan.2.ID.ValueString
            (some ⟨some req.Plan.2.Path.ValueString, some req.Plan.2.Value.ValueString⟩)).err = none →
          ∃ state, out.State = some state ∧ state.ID = req.Plan.2.ID) := by
  have hv : (r.client.UpdateMetadata env req.Plan.2.ID.ValueString (some ⟨some req.Plan.2.Path.ValueString, some req.Plan.2.Value.ValueString⟩)).value.isSome
      = (r.client.UpdateMetadata env req.Plan.2.ID.ValueString (some ⟨some req.Plan.2.Path.ValueString, some req.Plan.2.Value.ValueString⟩)).err.isNone := by
    rw [UpdateMetadata_eq]
    exact Call.after_isSome _ _ _
  unfold MetadataResource.Update
  simp only
  split_ifs with h1
  · exact ⟨_, rfl, Or.inl rfl, fun h => absurd h1 (by simp [h])⟩
  · revert hv
    generalize r.client.UpdateMetadata env req.Plan.2.ID.ValueString (some ⟨some req.Plan.2.Path.ValueString, some req.Plan.2.Value.ValueString⟩) = call
    rcases call with ⟨sent, value, err⟩
    intro hv
    cases err with
    | some e => exact ⟨_, rfl, Or.inl rfl, fun _ h => by simp at h⟩
    | none =>
      cases value with
      | none => simp at hv
      | some entity =>
        exact ⟨_, rfl, Or.inr ⟨_, rfl, rfl⟩, fun _ _ => ⟨_, rfl, rfl⟩⟩

/-- `BucketResource.Create` returns; it leaves the state or writes one with the
id of the bucket the client returned, and writes one when the client call
succeeded. -/
theorem bucketCreate_outcome (r : BucketResource) (env : Env) (req : CreateRequest BucketResourceModel)
    (resp : ResourceResponse BucketResourceModel) :
    ∃ out, (r.Create env req resp).2 = some out
      ∧ (out.State = resp.State ∨ ∃ entity state, (r.client.CreateBucket env req.Plan.2.Name.ValueString).value = some entity
          ∧ out.State = some state ∧ state.ID = .value entity.ID)
      ∧ (Diagnostics.HasError (Diagnostics.Append resp.Diagnostics req.Plan.1) = false →
          (r.client.CreateBucket env req.Plan.2.Name.ValueString).err = none →
          ∃ entity state, (r.client.CreateBucket env req.Plan.2.Name.ValueString).value = some entity
          ∧ out.State = some state ∧ state.ID = .value entity.ID) := by
  have hv : (r.client.CreateBucket env req.Plan.2.Name.ValueString).value.isSome
      = (r.client.CreateBucket env req.Plan.2.Name.ValueString).err.isNone := by
    rw [CreateBucket_eq]
    exact Call.after_isSome _ _ _
  unfold BucketResource.Create
  simp only
  split_ifs with h1
  · exact ⟨_, rfl, Or.inl rfl, fun h => absurd h1 (by simp [h])⟩
  · revert hv
    generalize r.client.CreateBucket env req.Plan.2.Name.ValueString = call
    rcases call with ⟨sent, value, err⟩
    intro hv
    cases err with
    | some e => exact ⟨_, rfl, Or.inl rfl, fun _ h => by simp at h⟩
    | none =>
      cases value with
      | none => simp at hv
      | some entity =>
        exact ⟨_, rfl, Or.inr ⟨entity, _, rfl, rfl, rfl⟩, fun _ _ => ⟨entity, _, rfl, rfl, rfl⟩⟩

/-- `BucketResource.Read` returns; it leaves the state or writes one with the
id of the prior state, and writes one when the client call succeeded. -/
theorem bucketRead_outcome (r : BucketResource) (env : Env) (req : ReadRequest BucketResourceModel)
    (resp : ResourceResponse BucketResourceModel) :
    ∃ out, (r.Read env req resp).2 = some out
      ∧ (out.State = resp.State ∨ ∃ state, out.State = some state ∧ state.ID = req.State.2.ID)
      ∧ (Diagnostics.HasError (Diagnostics.Append resp.Diagnostics req.State.1) = false →
          (r.client.GetBucket env req.State.2.ID.ValueString).err = none →
          ∃ state, out.State = some state ∧ state.ID = req.State.2.ID) := by
  have hv : (r.client.GetBucket env req.State.2.ID.ValueString).value.isSome
      = (r.client.GetBucket env req.State.2.ID.ValueString).err.isNone := by
    rw [GetBucket_eq]
    exact Call.after_isSome _ _ _
  unfold BucketResource.Read
  simp only
  split_ifs with h1
  · exact ⟨_, rfl, Or.inl rfl, fun h => absurd h1 (by simp [h])⟩
  · revert hv
    generalize r.client.GetBucket env req.State.2.ID.ValueString = call
    rcases call with ⟨sent, value, err⟩
    intro hv
    cases err with
    | some e => exact ⟨_, rfl, Or.inl rfl, fun _ h => by simp at h⟩
    | none =>
      cases value with
      | none => simp at hv
      | some entity =>
        exact ⟨_, rfl, Or.inr ⟨_, rfl, rfl⟩, fun _ _ => ⟨_, rfl, rfl⟩⟩

/-- `BucketResource.Update` returns; it leaves the state or writes one with the
id of the plan, and writes one when the client call succeeded. -/
theorem bucketUpdate_outcome (r : BucketResource) (env : Env) (req : UpdateRequest BucketResourceModel)
    (resp : ResourceResponse BucketResourceModel) :
    ∃ out, (r.Update env req resp).2 = some out
      ∧ (out.State = resp.State ∨ ∃ state, out.State = some state ∧ state.ID = req.Plan.2.ID)
      ∧ (Diagnostics.HasError (Diagnostics.Append resp.Diagnostics req.Plan.1) = false →
          (r.client.UpdateBucket env req.Plan.2.ID.ValueString req.Plan.2.Name.ValueString).err = none →
          ∃ state, out.State = some state ∧ state.ID = req.Plan.2.ID) := by
  have hv : (r.client.UpdateBucket env req.Plan.2.ID.ValueString req.Plan.2.Name.ValueString).value.isSome
      = (r.client.UpdateBucket env req.Plan.2.ID.ValueString req.Plan.2.Name.ValueString).err.isNone := by
    rw [UpdateBucket_eq]
    exact Call.after_isSome _ _ _
  unfold BucketResource.Update
  simp only
  split_ifs with h1
  · exact ⟨_, rfl, Or.inl rfl, fun h => absurd h1 (by simp [h])⟩
  · revert hv
    generalize r.client.UpdateBucket env req.Plan.2.ID.ValueString req.Plan.2.Name.ValueString = call
    rcases call with ⟨sent, value, err⟩
    intro hv
    cases err with
    | some e => exact ⟨_, rfl, Or.inl rfl, fun _ h => by simp at h⟩
    | none =>
      cases value with
      | none => simp at hv
      | some entity =>
        exact ⟨_, rfl, Or.inr ⟨_, rfl, rfl⟩, fun _ _ => ⟨_, rfl, rfl⟩⟩

/-- `ObjectResource.Create` returns; it leaves the state or writes one with the
id of the object the client returned, and writes one when the client call
succeeded. -/
theorem objectCreate_outcome (r : ObjectResource) (env : Env) (req : CreateRequest ObjectResourceModel)
    (resp : ResourceResponse ObjectResourceModel) :
    ∃ out, (r.Create env req resp).2 = some out
      ∧ (out.State = resp.State ∨ ∃ entity state, (r.client.CreateObject env req.Plan.2.BucketID.ValueString
            (some ⟨req.Plan.2.Path.ValueString, req.Plan.2.Content.ValueString⟩)).value = some entity
          ∧ out.State = some state ∧ state.ID = .value entity.ID)
      ∧ (Diagnostics.HasError (Diagnostics.Append resp.Diagnostics req.Plan.1) = false →
          (r.client.CreateObject env req.Plan.2.BucketID.ValueString
            (some ⟨req.Plan.2.Path.ValueString, req.Plan.2.Content.ValueString⟩)).err = none →
          ∃ entity state, (r.client.CreateObject env req.Plan.2.BucketID.ValueString
            (some ⟨req.Plan.2.Path.ValueString, req.Plan.2.Content.ValueString⟩)).value = some entity
          ∧ out.State = some state ∧ state.ID = .value entity.ID) := by
  have hv : (r.client.CreateObject env req.Plan.2.BucketID.ValueString (some ⟨req.Plan.2.Path.ValueString, req.Plan.2.Content.ValueString⟩)).value.isSome
      = (r.client.CreateObject env req.Plan.2.BucketID.ValueString (some ⟨req.Plan.2.Path.ValueString, req.Plan.2.Content.ValueString⟩)).err.isNone := by
    rw [CreateObject_eq]
    exact Call.after_isSome _ _ _
  unfold ObjectResource.Create
  simp only
  split_ifs with h1
  · exact ⟨_, rfl, Or.inl rfl, fun h => absurd h1 (by simp [h])⟩
  · revert hv
    generalize r.client.CreateObject env req.Plan.2.BucketID.ValueString (some ⟨req.Plan.2.Path.ValueString, req.Plan.2.Content.ValueString⟩) = call
    rcases call with ⟨sent, value, err⟩
    intro hv
    cases err with
    | some e => exact ⟨_, rfl, Or.inl rfl, fun _ h => by simp at h⟩
    | none =>
      cases value with
      | none => simp at hv
      | some entity =>
        exact ⟨_, rfl, Or.inr ⟨entity, _, rfl, rfl, rfl⟩, fun _ _ => ⟨entity, _, rfl, rfl, rfl⟩⟩

/-- `ObjectResource.Read` returns; it leaves the state or writes one with the
id of the prior state, and writes one when the client call succeeded. -/
theorem objectRead_outcome (r : ObjectResource) (env : Env) (req : ReadRequest ObjectResourceModel)
    (resp : ResourceResponse ObjectResourceModel) :
    ∃ out, (r.Read env req resp).2 = some out
      ∧ (out.State = resp.State ∨ ∃ state, out.State = some state ∧ state.ID = req.State.2.ID)
      ∧ (Diagnostics.HasError (Diagnostics.Append resp.Diagnostics req.State.1) = false →
          (r.client.GetObject env req.State.2.BucketID.ValueString req.State.2.ID.ValueString).err = none →
          ∃ state, out.State = some state ∧ state.ID = req.State.2.ID) := by
  have hv : (r.client.GetObject env req.State.2.BucketID.ValueString req.State.2.ID.ValueString).value.isSome
      = (r.client.GetObject env req.State.2.BucketID.ValueString req.State.2.ID.ValueString).err.isNone := by
    rw [GetObject_eq]
    exact Call.after_isSome _ _ _
  unfold ObjectResource.Read
  simp only
  split_ifs with h1
  · exact ⟨_, rfl, Or.inl rfl, fun h => absurd h1 (by simp [h])⟩
  · revert hv
    generalize r.client.GetObject env req.State.2.BucketID.ValueString req.State.2.ID.ValueString = call
    rcases call with ⟨sent, value, err⟩
    intro hv
    cases err with
    | some e => exact ⟨_, rfl, Or.inl rfl, fun _ h => by simp at h⟩
    | none =>
      cases value with
      | none => simp at hv
      | some entity =>
        exact ⟨_, rfl, Or.inr ⟨_, rfl, rfl⟩, fun _ _ => ⟨_, rfl, rfl⟩⟩

/-- `ObjectResource.Update` returns; it leaves the state or writes one with the
id of the plan, and writes one when the client call succeeded. -/
theorem objectUpdate_outcome (r : ObjectResource) (env : Env) (req : UpdateRequest ObjectResourceModel)
    (resp : ResourceResponse ObjectResourceModel) :
    ∃ out, (r.Update env req resp).2 = some out
      ∧ (out.State = resp.State ∨ ∃ state, out.State = some state ∧ state.ID = req.Plan.2.ID)
      ∧ (Diagnostics.HasError (Diagnostics.Append resp.Diagnostics req.Plan.1) = false →
          (r.client.UpdateObject env req.Plan.2.BucketID.ValueString req.Plan.2.ID.ValueString
            (some ⟨some req.Plan.2.Path.ValueString, some req.Plan.2.Content.ValueString⟩)).err = none →
          ∃ state, out.State = some state ∧ state.ID = req.Plan.2.ID) := by
  have hv : (r.client.UpdateObject env req.Plan.2.BucketID.ValueString req.Plan.2.ID.ValueString (some ⟨some req.Plan.2.Path.ValueString, some req.Plan.2.Content.ValueString⟩)).value.isSome
      = (r.client.UpdateObject env req.Plan.2.BucketID.ValueString req.Plan.2.ID.ValueString (some ⟨some req.Plan.2.Path.ValueString, some req.Plan.2.Content.ValueString⟩)).err.isNone := by
    rw [UpdateObject_eq]
    exact Call.after_isSome _ _ _
  unfold ObjectResource.Update
  simp only
  split_ifs with h1
  · exact ⟨_, rfl, Or.inl rfl, fun h => absurd h1 (by simp [h])⟩
  · revert hv
    generalize r.client.UpdateObject env req.Plan.2.BucketID.ValueString req.Plan.2.ID.ValueString (some ⟨some req.Plan.2.Path.ValueString, some req.Plan.2.Content.ValueString⟩) = call
    rcases call with ⟨sent, value, err⟩
    intro hv
    cases err with
    | some e => exact ⟨_, rfl, Or.inl rfl, fun _ h => by simp at h⟩
    | none =>
      cases value with
      | none => simp at hv
      | some entity =>
        exact ⟨_, rfl, Or.inr ⟨_, rfl, rfl⟩, fun _ _ => ⟨_, rfl, rfl⟩⟩

/-- Bytes that need no escaping hold no escape. -/
theorem unescapePath_safe (bs : List Nat) (h : ∀ b ∈ bs, shouldEscapePath b = false) :
    unescapePath bs = some bs := by
  induction bs with
  | nil => rfl
  | cons b rest ih =>
    have hb : b ≠ 37 := by
      intro h37
      have := h b (List.mem_cons_self _ _)
      rw [h37] at this
      exact absurd this (by decide)
    have hrest := ih (fun x hx => h x (List.mem_cons_of_mem _ hx))
    rw [unescapePath]
    · rw [hrest]
      rfl
    · intro h1 h2 r heq _
      exact hb heq
    · intro heq
      exact hb heq

/-- Bytes that need no escaping are their own encoding. -/
theorem escapePath_safe (bs : List Nat) (h : ∀ b ∈ bs, shouldEscapePath b = false) :
    escapePath bs = bs := by
  induction bs with
  | nil => rfl
  | cons b rest ih =>
    simp only [escapePath, h b (List.mem_cons_self _ _), Bool.false_eq_true, if_false,
      ih (fun x hx => h x (List.mem_cons_of_mem _ hx))]

/-- A path of bytes that need no escaping is sent as it is. -/
theorem escapedPath_safe (bs : List Nat) (h : ∀ b ∈ bs, shouldEscapePath b = false) :
    escapedPath bs = some bs := by
  simp only [escapedPath, unescapePath_safe bs h, escapePath_safe bs h, if_true, ne_eq,
    not_true_eq_false, false_and, if_false]
  split_ifs with h1
  · rw [h1]
  · rfl

/-- The bytes of a text of safe characters are its characters. -/
theorem goBytes_safe (cs : List Char) (h : ∀ c ∈ cs, pathSafe c = true) :
    goBytes ⟨cs⟩ = cs.map Char.toNat
      ∧ (∀ b ∈ cs.map Char.toNat, shouldEscapePath b = false)
      ∧ (cs.map Char.toNat).map Char.ofNat = cs := by
  induction cs with
  | nil => exact ⟨rfl, by simp, rfl⟩
  | cons c rest ih =>
    obtain ⟨h1, h2, h3⟩ := ih (fun x hx => h x (List.mem_cons_of_mem _ hx))
    have hc := h c (List.mem_cons_self _ _)
    simp only [pathSafe, Bool.and_eq_true, decide_eq_true_eq, Bool.not_eq_true'] at hc
    refine ⟨?_, ?_, ?_⟩
    · have e : goBytes ⟨c :: rest⟩ = utf8Bytes c ++ goBytes ⟨rest⟩ := by
        simp [goBytes, List.flatMap_cons]
      rw [e, h1]
      simp [utf8Bytes, hc.1]
    · intro b hb
      rcases List.mem_cons.1 hb with rfl | hb
      · exact hc.2
      · exact h2 b hb
    · simp only [List.map_cons, h3]
      congr 1
      exact Char.ofNat_toNat c

/-- A byte that needs no escaping is no control character, `#` or `?`. -/
theorem shouldEscapePath_false (b : Nat) (h : shouldEscapePath b = false) :
    b ≠ 35 ∧ b ≠ 63 ∧ ¬ b < 32 ∧ b ≠ 127 := by
  unfold shouldEscapePath at h
  split_ifs at h <;> omega

/-- A text of safe characters is the request target as it stands. -/
theorem requestURI_safe (text : String) (hne : text ≠ "")
    (h : ∀ c ∈ text.data, pathSafe c = true) : requestURI text = some text := by
  rcases text with ⟨cs⟩
  obtain ⟨h1, h2, h3⟩ := goBytes_safe cs h
  have htake : ∀ (n : Nat), (n = 35 ∨ n = 63) →
      (cs.map Char.toNat).takeWhile (fun b => b != n) = cs.map Char.toNat := by
    intro n hn
    rw [List.takeWhile_eq_self_iff]
    intro b hb
    have := shouldEscapePath_false b (h2 b hb)
    rcases hn with rfl | rfl <;> simp [this.1, this.2.1]
  have hdrop : (cs.map Char.toNat).dropWhile (fun b => b != 63) = [] := by
    rw [List.dropWhile_eq_nil_iff]
    intro b hb
    have := shouldEscapePath_false b (h2 b hb)
    simp [this.2.1]
  have hany : (cs.map Char.toNat).any (fun b => decide (b < 32) || decide (b = 127)) = false := by
    rw [List.any_eq_false]
    intro b hb
    have := shouldEscapePath_false b (h2 b hb)
    simp [this.2.2.1, this.2.2.2]
  have hnil : cs.map Char.toNat ≠ [] := by
    intro hc
    apply hne
    cases cs with
    | nil => rfl
    | cons c rest => simp at hc
  simp only [requestURI, h1, htake 35 (Or.inl rfl), htake 63 (Or.inr rfl), hdrop, hany,
    Bool.false_eq_true, if_false, escapedPath_safe _ h2, Option.map_some', if_neg hnil,
    List.append_nil, asciiText, h3]

/-- The path of an object of identifiers of safe characters is the request
target as it stands. -/
theorem objectPath_safe (b i : String) (hb : ∀ c ∈ b.data, pathSafe c = true)
    (hi : ∀ c ∈ i.data, pathSafe c = true) :
    requestURI ("/v1/bucket/" ++ b ++ "/objects/" ++ i)
      = some ("/v1/bucket/" ++ b ++ "/objects/" ++ i) := by
  apply requestURI_safe
  · intro h
    have hd := congrArg String.data h
    simp [String.data_append] at hd
  · intro c hc
    simp only [String.data_append, List.mem_append] at hc
    rcases hc with ((hc | hc) | hc) | hc
    · revert c
      decide
    · exact hb c hc
    · revert c
      decide
    · exact hi c hc

/-! ## The claims, continued: resources and requests -/

/-- C22, as stated, fails on "only Create sets id": `ImportState` of the
instance resource writes a state whose id is the identifier of the import
request, with no call to the server. -/
theorem C22_counterexample :
    (InstanceResource.ImportState ⟨NewClient "" ""⟩ ⟨"i-42"⟩ ⟨[], none⟩).State
      = some ⟨.value "i-42", .null, .null, .null, .null, .null, .null⟩ := by
  decide

/-- C22 (amended): for the instance, metadata, bucket and object resources,
`Read` and `Update` always return, leave the state or write one whose id is
the id of the prior state or plan they were given, whatever the server
answered, and do write one when the plan or state was read without error and
the client call succeeded; `Create` likewise writes a state whose id is the id
of the entity the client returned; `Delete` writes no state; and `ImportState`
writes a state whose id is the identifier of the import request. -/
theorem C22_id_kept_by_read_and_update :
    (∀ (r : InstanceResource) (env : Env) (req : ReadRequest InstanceResourceModel)
          (resp : ResourceResponse InstanceResourceModel),
          ∃ out, (r.Read env req resp).2 = some out
            ∧ (out.State = resp.State ∨ ∃ state, out.State = some state ∧ state.ID = req.State.2.ID)
            ∧ (Diagnostics.HasError (Diagnostics.Append resp.Diagnostics req.State.1) = false →
                (r.client.GetInstance env req.State.2.ID.ValueString).err = none →
                ∃ state, out.State = some state ∧ state.ID = req.State.2.ID))
      ∧ (∀ (r : MetadataResource) (env : Env) (req : ReadRequest MetadataResourceModel)
          (resp : ResourceResponse MetadataResourceModel),
          ∃ out, (r.Read env req resp).2 = some out
            ∧ (out.State = resp.State ∨ ∃ state, out.State = some state ∧ state.ID = req.State.2.ID)
            ∧ (Diagnostics.HasError (Diagnostics.Append resp.Diagnostics req.State.1) = false →
                (r.client.GetMetadata env req.State.2.ID.ValueString).err = none →
                ∃ state, out.State = some state ∧ state.ID = req.State.2.ID))
      ∧ (∀ (r : BucketResource) (env : Env) (req : ReadRequest BucketResourceModel)
          (resp : ResourceResponse BucketResourceModel),
          ∃ out, (r.Read env req resp).2 = some out
            ∧ (out.State = resp.State ∨ ∃ state, out.State = some state ∧ state.ID = req.State.2.ID)
            ∧ (Diagnostics.HasError (Diagnostics.Append resp.Diagnostics req.State.1) = false →
                (r.client.GetBucket env req.State.2.ID.ValueString).err = none →
                ∃ state, out.State = some state ∧ state.ID = req.State.2.ID))
      ∧ (∀ (r : ObjectResource) (env : Env) (req : ReadRequest ObjectResourceModel)
          (resp : ResourceResponse ObjectResourceModel),
          ∃ out, (r.Read env req resp).2 = some out
            ∧ (out.State = resp.State ∨ ∃ state, out.State = some state ∧ state.ID = req.State.2.ID)
            ∧ (Diagnostics.HasError (Diagnostics.Append resp.Diagnostics req.State.1) = false →
                (r.client.GetObject env req.State.2.BucketID.ValueString req.State.2.ID.ValueString).err = none →
                ∃ state, out.State = some state ∧ state.ID = req.State.2.ID))
      ∧ (∀ (r : InstanceResource) (env : Env) (req : UpdateRequest InstanceResourceModel)
          (resp : ResourceResponse InstanceResourceModel),
          ∃ out, (r.Update env req resp).2 = some out
            ∧ (out.State = resp.State ∨ ∃ state, out.State = some state ∧ state.ID = req.Plan.2.ID)
            ∧ (Diagnostics.HasError (Diagnostics.Append resp.Diagnostics req.Plan.1) = false →
                (r.client.UpdateInstance env req.Plan.2.ID.ValueString (some ⟨some req.Plan.2.Name.ValueString,
                  some req.Plan.2.CPU.ValueInt64, some req.Plan.2.MemoryMB.ValueInt64,
                  some req.Plan.2.Image.ValueString, some req.Plan.2.Status.ValueString⟩)).err = none →
                ∃ state, out.State = some state ∧ state.ID = req.Plan.2.ID))
      ∧ (∀ (r : MetadataResource) (env : Env) (req : UpdateRequest MetadataResourceModel)
          (resp : ResourceResponse MetadataResourceModel),
          ∃ out, (r.Update env req resp).2 = some out
            ∧ (out.State = resp.State ∨ ∃ state, out.State = some state ∧ state.ID = req.Plan.2.ID)
            ∧ (Diagnostics.HasError (Diagnostics.Append resp.Diagnostics req.Plan.1) = false →
                (r.client.UpdateMetadata env req.Plan.2.ID.ValueString
                  (some ⟨some req.Plan.2.Path.ValueString, some req.Plan.2.Value.ValueString⟩)).err = none →
                ∃ state, out.State = some state ∧ state.ID = req.Plan.2.ID))
      ∧ (∀ (r : BucketResource) (env : Env) (req : UpdateRequest BucketResourceModel)
          (resp : ResourceResponse BucketResourceModel),
          ∃ out, (r.Update env req resp).2 = some out
            ∧ (out.State = resp.State ∨ ∃ state, out.State = some state ∧ state.ID = req.Plan.2.ID)
            ∧ (Diagnostics.HasError (Diagnostics.Append resp.Diagnostics req.Plan.1) = false →
                (r.client.UpdateBucket env req.Plan.2.ID.ValueString req.Plan.2.Name.ValueString).err = none →
                ∃ state, out.State = some state ∧ state.ID = req.Plan.2.ID))
      ∧ (∀ (r : ObjectResource) (env : Env) (req : UpdateRequest ObjectResourceModel)
          (resp : ResourceResponse ObjectResourceModel),
          ∃ out, (r.Update env req resp).2 = some out
            ∧ (out.State = resp.State ∨ ∃ state, out.State = some state ∧ state.ID = req.Plan.2.ID)
            ∧ (Diagnostics.HasError (Diagnostics.Append resp.Diagnostics req.Plan.1) = false →
                (r.client.UpdateObject env req.Plan.2.BucketID.ValueString req.Plan.2.ID.ValueString
                  (some ⟨some req.Plan.2.Path.ValueString, some req.Plan.2.Content.ValueString⟩)).err = none →
                ∃ state, out.State = some state ∧ state.ID = req.Plan.2.ID))
      ∧ (∀ (r : InstanceResource) (env : Env) (req : CreateRequest InstanceResourceModel)
          (resp : ResourceResponse InstanceResourceModel),
          ∃ out, (r.Create env req resp).2 = some out
            ∧ (out.State = resp.State ∨ ∃ entity state, (r.client.CreateInstance env (some ⟨req.Plan.2.ProjectID.ValueString, req.Plan.2.Name.ValueString,
                  req.Plan.2.CPU.ValueInt64, req.Plan.2.MemoryMB.ValueInt64, req.Plan.2.Image.ValueString,
                  req.Plan.2.Status.ValueString⟩)).value = some entity
                ∧ out.State = some state ∧ state.ID = .value entity.ID)
            ∧ (Diagnostics.HasError (Diagnostics.Append resp.Diagnostics req.Plan.1) = false →
                (r.client.CreateInstance env (some ⟨req.Plan.2.ProjectID.ValueString, req.Plan.2.Name.ValueString,
                  req.Plan.2.CPU.ValueInt64, req.Plan.2.MemoryMB.ValueInt64, req.Plan.2.Image.ValueString,
                  req.Plan.2.Status.ValueString⟩)).err = none →
                ∃ entity state, (r.client.CreateInstance env (some ⟨req.Plan.2.ProjectID.ValueString, req.Plan.2.Name.ValueString,
                  req.Plan.2.CPU.ValueInt64, req.Plan.2.MemoryMB.ValueInt64, req.Plan.2.Image.ValueString,
                  req.Plan.2.Status.ValueString⟩)).value = some entity
                ∧ out.State = some state ∧ state.ID = .value entity.ID))
      ∧ (∀ (r : MetadataResource) (env : Env) (req : CreateRequest MetadataResourceModel)
          (resp : ResourceResponse MetadataResourceModel),
          ∃ out, (r.Create env req resp).2 = some out
            ∧ (out.State = resp.State ∨ ∃ entity state, (r.client.CreateMetadata env req.Plan.2.Path.ValueString req.Plan.2.Value.ValueString).value = some entity
                ∧ out.State = some state ∧ state.ID = .value entity.ID)
            ∧ (Diagnostics.HasError (Diagnostics.Append resp.Diagnostics req.Plan.1) = false →
                (r.client.CreateMetadata env req.Plan.2.Path.ValueString req.Plan.2.Value.ValueString).err = none →
                ∃ entity state, (r.client.CreateMetadata env req.Plan.2.Path.ValueString req.Plan.2.Value.ValueString).value = some entity
                ∧ out.State = some state ∧ state.ID = .value entity.ID))
      ∧ (∀ (r : BucketResource) (env : Env) (req : CreateRequest BucketResourceModel)
          (resp : ResourceResponse BucketResourceModel),
          ∃ out, (r.Create env req resp).2 = some out
            ∧ (out.State = resp.State ∨ ∃ entity state, (r.client.CreateBucket env req.Plan.2.Name.ValueString).value = some entity
                ∧ out.State = some state ∧ state.ID = .value entity.ID)
            ∧ (Diagnostics.HasError (Diagnostics.Append resp.Diagnostics req.Plan.1) = false →
                (r.client.CreateBucket env req.Plan.2.Name.ValueString).err = none →
                ∃ entity state, (r.client.CreateBucket env req.Plan.2.Name.ValueString).value = some entity
                ∧ out.State = some state ∧ state.ID = .value entity.ID))
      ∧ (∀ (r : ObjectResource) (env : Env) (req : CreateRequest ObjectResourceModel)
          (resp : ResourceResponse ObjectResourceModel),
          ∃ out, (r.Create env req resp).2 = some out
            ∧ (out.State = resp.State ∨ ∃ entity state, (r.client.CreateObject env req.Plan.2.BucketID.ValueString
                  (some ⟨req.Plan.2.Path.ValueString, req.Plan.2.Content.ValueString⟩)).value = some entity
                ∧ out.State = some state ∧ state.ID = .value entity.ID)
            ∧ (Diagnostics.HasError (Diagnostics.Append resp.Diagnostics req.Plan.1) = false →
                (r.client.CreateObject env req.Plan.2.BucketID.ValueString
                  (some ⟨req.Plan.2.Path.ValueString, req.Plan.2.Content.ValueString⟩)).err = none →
                ∃ entity state, (r.client.CreateObject env req.Plan.2.BucketID.ValueString
                  (some ⟨req.Plan.2.Path.ValueString, req.Plan.2.Content.ValueString⟩)).value = some entity
                ∧ out.State = some state ∧ state.ID = .value entity.ID))
      ∧ (∀ (r : InstanceResource) (env : Env) (req : DeleteRequest InstanceResourceModel)
          (resp : ResourceResponse InstanceResourceModel),
          ∃ out, (r.Delete env req resp).2 = some out ∧ out.State = resp.State)
      ∧ (∀ (r : MetadataResource) (env : Env) (req : DeleteRequest MetadataResourceModel)
          (resp : ResourceResponse MetadataResourceModel),
          ∃ out, (r.Delete env req resp).2 = some out ∧ out.State = resp.State)
      ∧ (∀ (r : BucketResource) (env : Env) (req : DeleteRequest BucketResourceModel)
          (resp : ResourceResponse BucketResourceModel),
          ∃ out, (r.Delete env req resp).2 = some out ∧ out.State = resp.State)
      ∧ (∀ (r : ObjectResource) (env : Env) (req : DeleteRequest ObjectResourceModel)
          (resp : ResourceResponse ObjectResourceModel),
          ∃ out, (r.Delete env req resp).2 = some out ∧ out.State = resp.State)
      ∧ (∀ (r : InstanceResource) (req : ImportStateRequest)
          (resp : ResourceResponse InstanceResourceModel),
          ∃ state, (r.ImportState req resp).State = some state ∧ state.ID = .value req.ID)
      ∧ (∀ (r : MetadataResource) (req : ImportStateRequest)
          (resp : ResourceResponse MetadataResourceModel),
          ∃ state, (r.ImportState req resp).State = some state ∧ state.ID = .value req.ID)
      ∧ (∀ (r : BucketResource) (req : ImportStateRequest)
          (resp : ResourceResponse BucketResourceModel),
          ∃ state, (r.ImportState req resp).State = some state ∧ state.ID = .value req.ID)
      ∧ (∀ (r : ObjectResource) (req : ImportStateRequest)
          (resp : ResourceResponse ObjectResourceModel),
          ∃ state, (r.ImportState req resp).State = some state ∧ state.ID = .value req.ID) :=
  ⟨instanceRead_outcome,
    metadataRead_outcome,
    bucketRead_outcome,
    objectRead_outcome,
    instanceUpdate_outcome,
    metadataUpdate_outcome,
    bucketUpdate_outcome,
    objectUpdate_outcome,
    instanceCreate_outcome,
    metadataCreate_outcome,
    bucketCreate_outcome,
    objectCreate_outcome,
    instanceDelete_id,
    metadataDelete_id,
    bucketDelete_id,
    objectDelete_id,
    fun _ _ _ => ⟨_, rfl, rfl⟩, fun _ _ _ => ⟨_, rfl, rfl⟩, fun _ _ _ => ⟨_, rfl, rfl⟩,
    fun _ _ _ => ⟨_, rfl, rfl⟩⟩

/-- C22 amended, at concrete inputs: the server answers the read of bucket
`b1` with the id `other`; the method returns a response whose state keeps the
id `b1`. -/
theorem C22_witness :
    ∃ out, ((BucketResource.mk (NewClient "" "")).Read
          (answering ⟨200, .ok "\x7b\"id\":\"other\",\"name\":\"logs2\"\x7d"⟩)
          ⟨([], ⟨.value "b1", .value "logs"⟩)⟩ ⟨[], some ⟨.value "b1", .value "logs"⟩⟩).2
        = some out
      ∧ ∃ state, out.State = some state ∧ state.ID = .value "b1" :=
  match C22_id_kept_by_read_and_update.2.2.1 ⟨NewClient "" ""⟩
    (answering ⟨200, .ok "\x7b\"id\":\"other\",\"name\":\"logs2\"\x7d"⟩)
    ⟨([], ⟨.value "b1", .value "logs"⟩)⟩ ⟨[], some ⟨.value "b1", .value "logs"⟩⟩ with
  | ⟨out, h, _, hw⟩ => ⟨out, h, hw rfl rfl⟩

/-- C23: in every `Create`, `Read`, `Update` and `Delete` of the instance,
metadata, bucket and object resources, once the plan or prior state was read
without an error, an error of the client call makes the method return with
exactly one diagnostic more, the error `Client Error` whose detail is the
method's prefix followed by the client's error message, and with the state of
the response as it was. -/
theorem C23_failed_call_leaves_state :
    (∀ (r : InstanceResource) (env : Env) (req : CreateRequest InstanceResourceModel)
          (resp : ResourceResponse InstanceResourceModel) (e : GoError),
          Diagnostics.HasError (Diagnostics.Append resp.Diagnostics req.Plan.1) = false →
          (r.client.CreateInstance env (some ⟨req.Plan.2.ProjectID.ValueString, req.Plan.2.Name.ValueString,
            req.Plan.2.CPU.ValueInt64, req.Plan.2.MemoryMB.ValueInt64, req.Plan.2.Image.ValueString,
            req.Plan.2.Status.ValueString⟩)).err = some e →
          (r.Create env req resp).2
            = some ⟨Diagnostics.Append resp.Diagnostics req.Plan.1
                ++ [⟨true, "Client Error", "Unable to create instance: " ++ e.Error⟩],
              resp.State⟩)
      ∧ (∀ (r : InstanceResource) (env : Env) (req : ReadRequest InstanceResourceModel)
          (resp : ResourceResponse InstanceResourceModel) (e : GoError),
          Diagnostics.HasError (Diagnostics.Append resp.Diagnostics req.State.1) = false →
          (r.client.GetInstance env req.State.2.ID.ValueString).err = some e →
          (r.Read env req resp).2
            = some ⟨Diagnostics.Append resp.Diagnostics req.State.1
                ++ [⟨true, "Client Error", "Unable to read instance: " ++ e.Error⟩],
              resp.State⟩)
      ∧ (∀ (r : InstanceResource) (env : Env) (req : UpdateRequest InstanceResourceModel)
          (resp : ResourceResponse InstanceResourceModel) (e : GoError),
          Diagnostics.HasError (Diagnostics.Append resp.Diagnostics req.Plan.1) = false →
          (r.client.UpdateInstance env req.Plan.2.ID.ValueString (some ⟨some req.Plan.2.Name.ValueString,
            some req.Plan.2.CPU.ValueInt64, some req.Plan.2.MemoryMB.ValueInt64,
            some req.Plan.2.Image.ValueString, some req.Plan.2.Status.ValueString⟩)).err = some e →
          (r.Update env req resp).2
            = some ⟨Diagnostics.Append resp.Diagnostics req.Plan.1
                ++ [⟨true, "Client Error", "Unable to update instance: " ++ e.Error⟩],
              resp.State⟩)
      ∧ (∀ (r : InstanceResource) (env : Env) (req : DeleteRequest InstanceResourceModel)
          (resp : ResourceResponse InstanceResourceModel) (e : GoError),
          Diagnostics.HasError (Diagnostics.Append resp.Diagnostics req.State.1) = false →
          (r.client.DeleteInstance env req.State.2.ID.ValueString).err = some e →
          (r.Delete env req resp).2
            = some ⟨Diagnostics.Append resp.Diagnostics req.State.1
                ++ [⟨true, "Client Error", "Unable to delete instance: " ++ e.Error⟩],
              resp.State⟩)
      ∧ (∀ (r : MetadataResource) (env : Env) (req : CreateRequest MetadataResourceModel)
          (resp : ResourceResponse MetadataResourceModel) (e : GoError),
          Diagnostics.HasError (Diagnostics.Append resp.Diagnostics req.Plan.1) = false →
          (r.client.CreateMetadata env req.Plan.2.Path.ValueString req.Plan.2.Value.ValueString).err = some e →
          (r.Create env req resp).2
            = some ⟨Diagnostics.Append resp.Diagnostics req.Plan.1
                ++ [⟨true, "Client Error", "Unable to create metadata: " ++ e.Error⟩],
              resp.State⟩)
      ∧ (∀ (r : MetadataResource) (env : Env) (req : ReadRequest MetadataResourceModel)
          (resp : ResourceResponse MetadataResourceModel) (e : GoError),
          Diagnostics.HasError (Diagnostics.Append resp.Diagnostics req.State.1) = false →
          (r.client.GetMetadata env req.State.2.ID.ValueString).err = some e →
          (r.Read env req resp).2
            = some ⟨Diagnostics.Append resp.Diagnostics req.State.1
                ++ [⟨true, "Client Error", "Unable to read metadata: " ++ e.Error⟩],
              resp.State⟩)
      ∧ (∀ (r : MetadataResource) (env : Env) (req : UpdateRequest MetadataResourceModel)
          (resp : ResourceResponse MetadataResourceModel) (e : GoError),
          Diagnostics.HasError (Diagnostics.Append resp.Diagnostics req.Plan.1) = false →
          (r.client.UpdateMetadata env req.Plan.2.ID.ValueString
            (some ⟨some req.Plan.2.Path.ValueString, some req.Plan.2.Value.ValueString⟩)).err = some e →
          (r.Update env req resp).2
            = some ⟨Diagnostics.Append resp.Diagnostics req.Plan.1
                ++ [⟨true, "Client Error", "Unable to update metadata: " ++ e.Error⟩],
              resp.State⟩)
      ∧ (∀ (r : MetadataResource) (env : Env) (req : DeleteRequest MetadataResourceModel)
          (resp : ResourceResponse MetadataResourceModel) (e : GoError),
          Diagnostics.HasError (Diagnostics.Append resp.Diagnostics req.State.1) = false →
          (r.client.DeleteMetadata env req.State.2.ID.ValueString).err = some e →
          (r.Delete env req resp).2
            = some ⟨Diagnostics.Append resp.Diagnostics req.State.1
                ++ [⟨true, "Client Error", "Unable to delete metadata: " ++ e.Error⟩],
              resp.State⟩)
      ∧ (∀ (r : BucketResource) (env : Env) (req : CreateRequest BucketResourceModel)
          (resp : ResourceResponse BucketResourceModel) (e : GoError),
          Diagnostics.HasError (Diagnostics.Append resp.Diagnostics req.Plan.1) = false →
          (r.client.CreateBucket env req.Plan.2.Name.ValueString).err = some e →
          (r.Create env req resp).2
            = some ⟨Diagnostics.Append resp.Diagnostics req.Plan.1
                ++ [⟨true, "Client Error", "Unable to create bucket: " ++ e.Error⟩],
              resp.State⟩)
      ∧ (∀ (r : BucketResource) (env : Env) (req : ReadRequest BucketResourceModel)
          (resp : ResourceResponse BucketResourceModel) (e : GoError),
          Diagnostics.HasError (Diagnostics.Append resp.Diagnostics req.State.1) = false →
          (r.client.GetBucket env req.State.2.ID.ValueString).err = some e →
          (r.Read env req resp).2
            = some ⟨Diagnostics.Append resp.Diagnostics req.State.1
                ++ [⟨true, "Client Error", "Unable to read bucket: " ++ e.Error⟩],
              resp.State⟩)
      ∧ (∀ (r : BucketResource) (env : Env) (req : UpdateRequest BucketResourceModel)
          (resp : ResourceResponse BucketResourceModel) (e : GoError),
          Diagnostics.HasError (Diagnostics.Append resp.Diagnostics req.Plan.1) = false →
          (r.client.UpdateBucket env req.Plan.2.ID.ValueString req.Plan.2.Name.ValueString).err = some e →
          (r.Update env req resp).2
            = some ⟨Diagnostics.Append resp.Diagnostics req.Plan.1
                ++ [⟨true, "Client Error", "Unable to update bucket: " ++ e.Error⟩],
              resp.State⟩)
      ∧ (∀ (r : BucketResource) (env : Env) (req : DeleteRequest BucketResourceModel)
          (resp : ResourceResponse BucketResourceModel) (e : GoError),
          Diagnostics.HasError (Diagnostics.Append resp.Diagnostics req.State.1) = false →
          (r.client.DeleteBucket env req.State.2.ID.ValueString).err = some e →
          (r.Delete env req resp).2
            = some ⟨Diagnostics.Append resp.Diagnostics req.State.1
                ++ [⟨true, "Client Error", "Unable to delete bucket: " ++ e.Error⟩],
              resp.State⟩)
      ∧ (∀ (r : ObjectResource) (env : Env) (req : CreateRequest ObjectResourceModel)
          (resp : ResourceResponse ObjectResourceModel) (e : GoError),
          Diagnostics.HasError (Diagnostics.Append resp.Diagnostics req.Plan.1) = false →
          (r.client.CreateObject env req.Plan.2.BucketID.ValueString
            (some ⟨req.Plan.2.Path.ValueString, req.Plan.2.Content.ValueString⟩)).err = some e →
          (r.Create env req resp).2
            = some ⟨Diagnostics.Append resp.Diagnostics req.Plan.1
                ++ [⟨true, "Client Error", "Unable to create object: " ++ e.Error⟩],
              resp.State⟩)
      ∧ (∀ (r : ObjectResource) (env : Env) (req : ReadRequest ObjectResourceModel)
          (resp : ResourceResponse ObjectResourceModel) (e : GoError),
          Diagnostics.HasError (Diagnostics.Append resp.Diagnostics req.State.1) = false →
          (r.client.GetObject env req.State.2.BucketID.ValueString req.State.2.ID.ValueString).err = some e →
          (r.Read env req resp).2
            = some ⟨Diagnostics.Append resp.Diagnostics req.State.1
                ++ [⟨true, "Client Error", "Unable to read object: " ++ e.Error⟩],
              resp.State⟩)
      ∧ (∀ (r : ObjectResource) (env : Env) (req : UpdateRequest ObjectResourceModel)
          (resp : ResourceResponse ObjectResourceModel) (e : GoError),
          Diagnostics.HasError (Diagnostics.Append resp.Diagnostics req.Plan.1) = false →
          (r.client.UpdateObject env req.Plan.2.BucketID.ValueString req.Plan.2.ID.ValueString
            (some ⟨some req.Plan.2.Path.ValueString, some req.Plan.2.Content.ValueString⟩)).err = some e →
          (r.Update env req resp).2
            = some ⟨Diagnostics.Append resp.Diagnostics req.Plan.1
                ++ [⟨true, "Client Error", "Unable to update object: " ++ e.Error⟩],
              resp.State⟩)
      ∧ (∀ (r : ObjectResource) (env : Env) (req : DeleteRequest ObjectResourceModel)
          (resp : ResourceResponse ObjectResourceModel) (e : GoError),
          Diagnostics.HasError (Diagnostics.Append resp.Diagnostics req.State.1) = false →
          (r.client.DeleteObject env req.State.2.BucketID.ValueString req.State.2.ID.ValueString).err = some e →
          (r.Delete env req resp).2
            = some ⟨Diagnostics.Append resp.Diagnostics req.State.1
                ++ [⟨true, "Client Error", "Unable to delete object: " ++ e.Error⟩],
              resp.State⟩) :=
  ⟨instanceCreate_failed,
    instanceRead_failed,
    instanceUpdate_failed,
    instanceDelete_failed,
    metadataCreate_failed,
    metadataRead_failed,
    metadataUpdate_failed,
    metadataDelete_failed,
    bucketCreate_failed,
    bucketRead_failed,
    bucketUpdate_failed,
    bucketDelete_failed,
    objectCreate_failed,
    objectRead_failed,
    objectUpdate_failed,
    objectDelete_failed⟩

/-- C23 at concrete inputs: the server answers the read of bucket `b1` with
the status 404; the method reports the one error and leaves the state. -/
theorem C23_witness :
    ((BucketResource.mk (NewClient "" "")).Read (answering ⟨404, .ok "not found"⟩)
        ⟨([], ⟨.value "b1", .value "logs"⟩)⟩ ⟨[], some ⟨.value "b1", .value "logs"⟩⟩).2
      = some ⟨[⟨true, "Client Error",
            "Unable to read bucket: API error (status 404): not found"⟩],
          some ⟨.value "b1", .value "logs"⟩⟩ :=
  C23_failed_call_leaves_state.2.2.2.2.2.2.2.2.2.1 ⟨NewClient "" ""⟩
    (answering ⟨404, .ok "not found"⟩) ⟨([], ⟨.value "b1", .value "logs"⟩)⟩
    ⟨[], some ⟨.value "b1", .value "logs"⟩⟩ (.new "API error (status 404): not found")
    rfl rfl

/-- The URL text of a request for an object is the endpoint, `/v1/bucket/`,
the bucket identifier, `/objects/` and the identifier, joined unchanged; two
such texts of one client are equal only for equal identifiers when the bucket
identifiers hold no slash; and the pairs `("a", "c/objects/d")` and
`("a/objects/c", "d")` give the same path, hence the same requests and outcome. -/
theorem objectURL_text (c : Client) (env : Env)
    (r : Option UpdateObjectRequest) :
    (∀ (b i : String) (op : Op),
        op = .GetObject b i ∨ op = .UpdateObject b i r ∨ op = .DeleteObject b i →
        ∀ req ∈ (op.run c env).sent,
          req.URL = c.endpoint ++ ("/v1/bucket/" ++ b ++ "/objects/" ++ i))
      ∧ (∀ (b1 i1 b2 i2 : String) (op1 op2 : Op),
          (op1 = .GetObject b1 i1 ∧ op2 = .GetObject b2 i2)
            ∨ (op1 = .UpdateObject b1 i1 r ∧ op2 = .UpdateObject b2 i2 r)
            ∨ (op1 = .DeleteObject b1 i1 ∧ op2 = .DeleteObject b2 i2) →
          '/' ∉ b1.data → '/' ∉ b2.data →
          ∀ req1 ∈ (op1.run c env).sent, ∀ req2 ∈ (op2.run c env).sent,
            req1.URL = req2.URL → b1 = b2 ∧ i1 = i2)
      ∧ Op.run c env (.GetObject "a" "c/objects/d")
          = Op.run c env (.GetObject "a/objects/c" "d")
      ∧ Op.run c env (.UpdateObject "a" "c/objects/d" r)
          = Op.run c env (.UpdateObject "a/objects/c" "d" r)
      ∧ Op.run c env (.DeleteObject "a" "c/objects/d")
          = Op.run c env (.DeleteObject "a/objects/c" "d")
      ∧ (env.newRequestError "GET" (c.endpoint ++ "/v1/bucket/a/objects/c/objects/d") = none →
          ∃ req, (Op.run c env (.GetObject "a" "c/objects/d")).sent = [req]
            ∧ (Op.run c env (.GetObject "a/objects/c" "d")).sent = [req]
            ∧ req.URL = c.endpoint ++ "/v1/bucket/a/objects/c/objects/d") := by
  have hpath : "/v1/bucket/" ++ "a" ++ "/objects/" ++ "c/objects/d"
      = "/v1/bucket/" ++ "a/objects/c" ++ "/objects/" ++ "d" := by decide
  refine ⟨?_, ?_, ?_, ?_, ?_, ?_⟩
  · intro b i op hop req hreq
    have h := mem_op_sent c env op req hreq
    rcases hop with rfl | rfl | rfl <;> (subst h; rfl)
  · intro b1 i1 b2 i2 op1 op2 hops h1 h2 req1 hreq1 req2 hreq2 hurl
    have e1 := mem_op_sent c env op1 req1 hreq1
    have e2 := mem_op_sent c env op2 req2 hreq2
    subst e1 e2
    rcases hops with ⟨rfl, rfl⟩ | ⟨rfl, rfl⟩ | ⟨rfl, rfl⟩ <;>
      exact objectPath_injective c.endpoint b1 i1 b2 i2 h1 h2 hurl
  · simp only [Op.run, Client.GetObject, hpath]
  · simp only [Op.run, Client.UpdateObject, hpath]
  · simp only [Op.run, Client.DeleteObject, hpath]
  · intro hn
    have hs := op_sent c env (.GetObject "a" "c/objects/d")
    rw [doRequest_sent] at hs
    have hp : (Op.GetObject "a" "c/objects/d").specPath = "/v1/bucket/a/objects/c/objects/d" := by
      decide
    rw [hp] at hs
    rw [if_pos (by exact hn)] at hs
    have hs2 := op_sent c env (.GetObject "a/objects/c" "d")
    rw [doRequest_sent] at hs2
    have hp2 : (Op.GetObject "a/objects/c" "d").specPath = "/v1/bucket/a/objects/c/objects/d" := by
      decide
    rw [hp2, if_pos (by exact hn)] at hs2
    exact ⟨_, hs, hs2, rfl⟩

/-- C24, as stated, fails on the injectivity: the identifiers `a b` and
`a%20b` hold no slash and differ, yet `net/url` makes the same request target
of the two paths, so `GetObject`, `UpdateObject` and `DeleteObject` address the
same URL for `("a b", "x")` and `("a%20b", "x")`. -/
theorem C24_counterexample :
    '/' ∉ "a b".data ∧ '/' ∉ "a%20b".data ∧ '/' ∉ "x".data
      ∧ "a b" ≠ "a%20b"
      ∧ requestURI (Op.GetObject "a b" "x").specPath = some "/v1/bucket/a%20b/objects/x"
      ∧ requestURI (Op.GetObject "a%20b" "x").specPath = some "/v1/bucket/a%20b/objects/x"
      ∧ (Op.UpdateObject "a b" "x" none).specPath = (Op.GetObject "a b" "x").specPath
      ∧ (Op.DeleteObject "a b" "x").specPath = (Op.GetObject "a b" "x").specPath
      ∧ (Op.UpdateObject "a%20b" "x" none).specPath = (Op.GetObject "a%20b" "x").specPath
      ∧ (Op.DeleteObject "a%20b" "x").specPath = (Op.GetObject "a%20b" "x").specPath := by
  decide

/-- C24 (amended): the URL text of a request for an object is the endpoint,
`/v1/bucket/`, the bucket identifier, `/objects/` and the identifier, joined
unchanged by the client. Two such texts of one client are equal only for equal
identifiers when the bucket identifiers hold no slash, and the pairs
`("a", "c/objects/d")` and `("a/objects/c", "d")` give `GetObject`,
`UpdateObject` and `DeleteObject` the same path, requests and outcome. The
request target `net/url` makes of the path is the path itself when both
identifiers consist of characters it leaves alone, so that there it is
injective as the text is; for other identifiers it is not, also without a
slash: `a b` and `a%20b` address the same target. -/
theorem C24_url_text_joined_target_escaped (c : Client) (env : Env)
    (r : Option UpdateObjectRequest) :
    (∀ (b i : String) (op : Op),
        op = .GetObject b i ∨ op = .UpdateObject b i r ∨ op = .DeleteObject b i →
        ∀ req ∈ (op.run c env).sent,
          req.URL = c.endpoint ++ ("/v1/bucket/" ++ b ++ "/objects/" ++ i))
      ∧ (∀ (b1 i1 b2 i2 : String) (op1 op2 : Op),
          (op1 = .GetObject b1 i1 ∧ op2 = .GetObject b2 i2)
            ∨ (op1 = .UpdateObject b1 i1 r ∧ op2 = .UpdateObject b2 i2 r)
            ∨ (op1 = .DeleteObject b1 i1 ∧ op2 = .DeleteObject b2 i2) →
          '/' ∉ b1.data → '/' ∉ b2.data →
          ∀ req1 ∈ (op1.run c env).sent, ∀ req2 ∈ (op2.run c env).sent,
            req1.URL = req2.URL → b1 = b2 ∧ i1 = i2)
      ∧ Op.run c env (.GetObject "a" "c/objects/d")
          = Op.run c env (.GetObject "a/objects/c" "d")
      ∧ Op.run c env (.UpdateObject "a" "c/objects/d" r)
          = Op.run c env (.UpdateObject "a/objects/c" "d" r)
      ∧ Op.run c env (.DeleteObject "a" "c/objects/d")
          = Op.run c env (.DeleteObject "a/objects/c" "d")
      ∧ (env.newRequestError "GET" (c.endpoint ++ "/v1/bucket/a/objects/c/objects/d") = none →
          ∃ req, (Op.run c env (.GetObject "a" "c/objects/d")).sent = [req]
            ∧ (Op.run c env (.GetObject "a/objects/c" "d")).sent = [req]
            ∧ req.URL = c.endpoint ++ "/v1/bucket/a/objects/c/objects/d")
      ∧ (∀ (b i : String), (∀ ch ∈ b.data, pathSafe ch = true) →
          (∀ ch ∈ i.data, pathSafe ch = true) →
          requestURI (Op.GetObject b i).specPath = some (Op.GetObject b i).specPath)
      ∧ (∀ (b1 i1 b2 i2 : String),
          (∀ ch ∈ b1.data, pathSafe ch = true) → (∀ ch ∈ i1.data, pathSafe ch = true) →
          (∀ ch ∈ b2.data, pathSafe ch = true) → (∀ ch ∈ i2.data, pathSafe ch = true) →
          '/' ∉ b1.data → '/' ∉ b2.data →
          requestURI (Op.GetObject b1 i1).specPath = requestURI (Op.GetObject b2 i2).specPath →
          b1 = b2 ∧ i1 = i2)
      ∧ requestURI (Op.GetObject "a b" "x").specPath
          = requestURI (Op.GetObject "a%20b" "x").specPath := by
  obtain ⟨h1, h2, h3, h4, h5, h6⟩ := objectURL_text c env r
  refine ⟨h1, h2, h3, h4, h5, h6, ?_, ?_, by decide⟩
  · intro b i hb hi
    exact objectPath_safe b i hb hi
  · intro b1 i1 b2 i2 hb1 hi1 hb2 hi2 hs1 hs2 heq
    have e1 : requestURI (Op.GetObject b1 i1).specPath = _ := objectPath_safe b1 i1 hb1 hi1
    have e2 : requestURI (Op.GetObject b2 i2).specPath = _ := objectPath_safe b2 i2 hb2 hi2
    rw [e1, e2] at heq
    exact objectPath_injective "" b1 i1 b2 i2 hs1 hs2
      (congrArg (fun t => "" ++ t) (Option.some.inj heq))

/-- C24 amended, at concrete inputs: the object `c/objects/d` of bucket `a`
and the object `d` of bucket `a/objects/c` are fetched with the same request,
and the path of object `o-1` of bucket `b_1` is its own request target. -/
theorem C24_witness :
    (∃ req, (Op.run (NewClient "http://nah" "") (answering ⟨200, .ok ""⟩)
          (.GetObject "a" "c/objects/d")).sent = [req]
      ∧ (Op.run (NewClient "http://nah" "") (answering ⟨200, .ok ""⟩)
          (.GetObject "a/objects/c" "d")).sent = [req]
      ∧ req.URL = (NewClient "http://nah" "").endpoint ++ "/v1/bucket/a/objects/c/objects/d")
      ∧ requestURI (Op.GetObject "b_1" "o-1").specPath = some "/v1/bucket/b_1/objects/o-1" :=
  ⟨(C24_url_text_joined_target_escaped (NewClient "http://nah" "") (answering ⟨200, .ok ""⟩)
      none).2.2.2.2.2.1 rfl,
    (C24_url_text_joined_target_escaped (NewClient "http://nah" "") (answering ⟨200, .ok ""⟩)
      none).2.2.2.2.2.2.1 "b_1" "o-1" (by decide) (by decide)⟩

/-- C25: a delete operation whose request was answered with a status below
400 and a readable body returns nil, whatever that body is; `handleResponse`
is given no target and leaves the body undecoded, also a non-empty body that
is not JSON. -/
theorem C25_delete_ignores_body (c : Client) (env : Env) (op : Op) (resp : Response)
    (body : String) (hdel : op.isDelete = true)
    (hsent : (op.run c env).sent ≠ [])
    (hdo : ∀ req ∈ (op.run c env).sent, env.Do req = .ok resp)
    (hbody : resp.Body = .ok body) (hstatus : resp.StatusCode < 400) :
    (op.run c env).err = none
      ∧ op.handle env resp = none
      ∧ handleResponse noTarget resp none = (none, none) := by
  have hnil := handleResponse_nil noTarget resp body hbody hstatus
  have hh : op.handle env resp = none := by
    rw [op_handle_delete env op resp hdel, hnil]
  refine ⟨?_, hh, hnil⟩
  obtain ⟨h1, h2⟩ := op_run_cases c env op
  cases hn : env.newRequestError op.specMethod (c.endpoint ++ op.specPath) with
  | some e =>
    rw [h1 e hn] at hsent
    exact absurd rfl hsent
  | none =>
    obtain ⟨h3, h4⟩ := h2 hn
    have hs : (op.run c env).sent = [c.request op.specMethod op.specPath op.payload] := by
      have h := op_sent c env op
      rw [doRequest_sent, if_pos hn] at h
      exact h
    have hd := hdo _ (by rw [hs]; exact List.mem_singleton.2 rfl)
    rw [h4 resp hd]
    exact hh

/-- C25 at concrete inputs: the answer 200 with the body `not json` to
`DeleteObject("b1", "o1")`. -/
theorem C25_witness :
    (Op.run (NewClient "" "") (answering ⟨200, .ok "not json"⟩) (.DeleteObject "b1" "o1")).err
        = none
      ∧ Op.handle (answering ⟨200, .ok "not json"⟩) (.DeleteObject "b1" "o1")
          ⟨200, .ok "not json"⟩ = none
      ∧ handleResponse noTarget ⟨200, .ok "not json"⟩ none = (none, none) :=
  C25_delete_ignores_body (NewClient "" "") (answering ⟨200, .ok "not json"⟩)
    (.DeleteObject "b1" "o1") ⟨200, .ok "not json"⟩ "not json" rfl (by decide)
    (fun _ _ => rfl) rfl (by decide)

/-- C26: every request `doRequest` hands to the transport carries the one
`Content-Type` value `application/json`, and has no body when the payload is
nil; so has every request of a client operation, and those with the method
`GET` or `DELETE` have no body. -/
theorem C26_content_type_on_every_request (c : Client) (env : Env) (method path : String)
    (body : Payload) (op : Op) :
    (∀ req ∈ (c.doRequest env method path body).1,
        Header.Values req.Header "Content-Type" = ["application/json"]
          ∧ (body = .nil → req.Body = none))
      ∧ (∀ req ∈ (op.run c env).sent,
          Header.Values req.Header "Content-Type" = ["application/json"]
            ∧ (req.Method = "GET" ∨ req.Method = "DELETE" →
                req.Body = none ∧ req.Body ≠ some "null")) := by
  refine ⟨?_, ?_⟩
  · intro req hreq
    have h := mem_doRequest_sent c env method path body req hreq
    subst h
    refine ⟨request_contentType c method path body, ?_⟩
    intro hb
    subst hb
    rfl
  · intro req hreq
    have h := mem_op_sent c env op req hreq
    subst h
    refine ⟨request_contentType c _ _ _, ?_⟩
    intro hm
    rw [request_method] at hm
    rw [op_payload_nil op hm]
    exact ⟨rfl, by simp [request_nil_body]⟩

/-- C26 at concrete inputs: the one request of `GetProject("p1")`. -/
theorem C26_witness :
    (Op.run (NewClient "http://nah" "") (answering ⟨200, .ok ""⟩) (.GetProject "p1")).sent
        = [⟨"GET", "http://nah/v1/projects/p1", [("Content-Type", ["application/json"])], none⟩]
      ∧ Header.Values (Request.mk "GET" "http://nah/v1/projects/p1"
          [("Content-Type", ["application/json"])] none).Header "Content-Type"
        = ["application/json"] :=
  ⟨by decide,
    ((C26_content_type_on_every_request (NewClient "http://nah" "") (answering ⟨200, .ok ""⟩)
      "GET" "/v1/projects/p1" .nil (.GetProject "p1")).2
      ⟨"GET", "http://nah/v1/projects/p1", [("Content-Type", ["application/json"])], none⟩
      (by decide)).1⟩

/-- C27: two clients with the same endpoint hand the transport requests
that agree in number and, one by one, in method, URL, body, `Content-Type` and
every header other than `Authorization`, whatever their tokens. With the same
token too the requests are identical. -/
theorem C27_token_only_in_authorization (c1 c2 : Client) (env : Env) (op : Op)
    (hend : c1.endpoint = c2.endpoint) :
    List.Forall₂ (fun r1 r2 : Request =>
        r1.Method = r2.Method ∧ r1.URL = r2.URL ∧ r1.Body = r2.Body
          ∧ Header.Values r1.Header "Content-Type" = Header.Values r2.Header "Content-Type"
          ∧ r1.Header.filter (fun kv => kv.1 != "Authorization")
            = r2.Header.filter (fun kv => kv.1 != "Authorization"))
        (op.run c1 env).sent (op.run c2 env).sent
      ∧ (c1.token = c2.token → (op.run c1 env).sent = (op.run c2 env).sent) := by
  refine ⟨?_, op_sent_congr c1 c2 env op hend⟩
  rw [op_sent, op_sent, doRequest_sent, doRequest_sent, hend]
  by_cases hn : env.newRequestError op.specMethod (c2.endpoint ++ op.specPath) = none
  · rw [if_pos hn, if_pos hn]
    refine List.Forall₂.cons ⟨rfl, ?_, rfl, ?_, ?_⟩ List.Forall₂.nil
    · simp [Client.request, hend]
    · rw [request_contentType, request_contentType]
    · rw [request_other_headers, request_other_headers]
  · rw [if_neg hn, if_neg hn]
    exact List.Forall₂.nil

/-- C27 at concrete inputs: `UpdateBucket("b1", "logs")` by a client with the
token `s3cret` and by one without a token. -/
theorem C27_witness :
    List.Forall₂ (fun r1 r2 : Request =>
        r1.Method = r2.Method ∧ r1.URL = r2.URL ∧ r1.Body = r2.Body
          ∧ Header.Values r1.Header "Content-Type" = Header.Values r2.Header "Content-Type"
          ∧ r1.Header.filter (fun kv => kv.1 != "Authorization")
            = r2.Header.filter (fun kv => kv.1 != "Authorization"))
        (Op.run (NewClient "http://nah" "s3cret") (answering ⟨200, .ok ""⟩)
          (.UpdateBucket "b1" "logs")).sent
        (Op.run (NewClient "http://nah" "") (answering ⟨200, .ok ""⟩)
          (.UpdateBucket "b1" "logs")).sent
      ∧ (Op.run (NewClient "http://nah" "s3cret") (answering ⟨200, .ok ""⟩)
          (.UpdateBucket "b1" "logs")).sent
        = [⟨"PATCH", "http://nah/v1/buckets/b1",
            [("Content-Type", ["application/json"]), ("Authorization", ["Bearer s3cret"])],
            some "\x7b\"name\":\"logs\"\x7d"⟩]
      ∧ (Op.run (NewClient "http://nah" "") (answering ⟨200, .ok ""⟩)
          (.UpdateBucket "b1" "logs")).sent
        = [⟨"PATCH", "http://nah/v1/buckets/b1", [("Content-Type", ["application/json"])],
            some "\x7b\"name\":\"logs\"\x7d"⟩] :=
  ⟨(C27_token_only_in_authorization (NewClient "http://nah" "s3cret") (NewClient "http://nah" "")
      (answering ⟨200, .ok ""⟩) (.UpdateBucket "b1" "logs") rfl).1,
    by decide, by decide⟩

end Nah
